import Mathlib

/-!
# btcwallet RPC server: request dispatch and wallet coordination core

A shallow embedding of `rpcserver.go`: the RPC gateway loop, the wallet
request processor, the send/receive history registry and the send path,
with the properties of the specification proved over them.

Channels are modelled by their contents (a buffered channel is the list of
values it holds, an unbuffered hand-over is one atomic step), goroutines by
step functions over an explicit state, and every communication a goroutine
performs is appended to that goroutine's effect trace. A failure at run time
(a Go panic) of a function is the value `none`.
-/

namespace Btcwallet

/-! ## Data model -/

/-- The handler functions named in the two dispatch tables (`cmdHandler` values). -/
inductive Handler
  | AddMultiSigAddress | CreateMultiSig | DumpPrivKey | GetAccount | GetAccountAddress
  | GetAddressesByAccount | GetBalance | GetInfo | GetNewAddress | GetRawChangeAddress
  | GetReceivedByAccount | GetTransaction | ImportPrivKey | KeypoolRefill | ListAccounts
  | ListSinceBlock | ListTransactions | ListUnspent | SendFrom | SendMany | SendToAddress
  | SetTxFee | SignMessage | SignRawTransaction | ValidateAddress | VerifyMessage
  | WalletLock | WalletPassphrase | WalletPassphraseChange
  | Unimplemented | Unsupported | CreateEncryptedWallet
  | ExportWatchingWallet | GetAddressBalance | GetUnconfirmedBalance
  | ListAddressTransactions | ListAllTransactions | RecoverAddresses | WalletIsLocked
  deriving DecidableEq

/-- The table `rpcHandlers` (a Go map literal, so its keys are distinct). -/
def rpcHandlers : List (String × Handler) :=
  [ ("addmultisigaddress", .AddMultiSigAddress),
    ("createmultisig", .CreateMultiSig),
    ("dumpprivkey", .DumpPrivKey),
    ("getaccount", .GetAccount),
    ("getaccountaddress", .GetAccountAddress),
    ("getaddressesbyaccount", .GetAddressesByAccount),
    ("getbalance", .GetBalance),
    ("getinfo", .GetInfo),
    ("getnewaddress", .GetNewAddress),
    ("getrawchangeaddress", .GetRawChangeAddress),
    ("getreceivedbyaccount", .GetReceivedByAccount),
    ("gettransaction", .GetTransaction),
    ("importprivkey", .ImportPrivKey),
    ("keypoolrefill", .KeypoolRefill),
    ("listaccounts", .ListAccounts),
    ("listsinceblock", .ListSinceBlock),
    ("listtransactions", .ListTransactions),
    ("listunspent", .ListUnspent),
    ("sendfrom", .SendFrom),
    ("sendmany", .SendMany),
    ("sendtoaddress", .SendToAddress),
    ("settxfee", .SetTxFee),
    ("signmessage", .SignMessage),
    ("signrawtransaction", .SignRawTransaction),
    ("validateaddress", .ValidateAddress),
    ("verifymessage", .VerifyMessage),
    ("walletlock", .WalletLock),
    ("walletpassphrase", .WalletPassphrase),
    ("walletpassphrasechange", .WalletPassphraseChange),
    ("backupwallet", .Unimplemented),
    ("dumpwallet", .Unimplemented),
    ("getblocktemplate", .Unimplemented),
    ("getreceivedbyaddress", .Unimplemented),
    ("gettxout", .Unimplemented),
    ("gettxoutsetinfo", .Unimplemented),
    ("getwork", .Unimplemented),
    ("importwallet", .Unimplemented),
    ("listaddressgroupings", .Unimplemented),
    ("listlockunspent", .Unimplemented),
    ("listreceivedbyaccount", .Unimplemented),
    ("listreceivedbyaddress", .Unimplemented),
    ("lockunspent", .Unimplemented),
    ("move", .Unimplemented),
    ("setaccount", .Unimplemented),
    ("stop", .Unimplemented),
    ("encryptwallet", .Unsupported),
    ("createencryptedwallet", .CreateEncryptedWallet) ]

/-- The table `wsHandlers`: extensions exclusive to websocket connections. -/
def wsHandlers : List (String × Handler) :=
  [ ("exportwatchingwallet", .ExportWatchingWallet),
    ("getaddressbalance", .GetAddressBalance),
    ("getunconfirmedbalance", .GetUnconfirmedBalance),
    ("listaddresstransactions", .ListAddressTransactions),
    ("listalltransactions", .ListAllTransactions),
    ("recoveraddresses", .RecoverAddresses),
    ("walletislocked", .WalletIsLocked) ]

/-- The keys of a dispatch table. -/
def tableKeys (t : List (String × Handler)) : List String := t.map Prod.fst

/-- A JSON-RPC id (`interface{}` in the source): a number or a string. -/
inductive ReqId
  | num (n : Nat)
  | str (s : String)
  deriving DecidableEq

/-- The part of `btcjson.Cmd` the dispatch core touches: `Method()`, `Id()`
and the parameters, which the core never inspects. -/
structure Cmd where
  method : String
  id : ReqId
  params : String
  deriving DecidableEq

/-- The method `SetId` of a command: replaces the id, nothing else. -/
def Cmd.SetId (c : Cmd) (i : ReqId) : Cmd := { c with id := i }

/-- Raw JSON bytes (`json.RawMessage`), kept as text. -/
abbrev RawMessage := String

/-- `RawRPCResponse`: two optional raw members (nil pointers are `none`). -/
structure RawRPCResponse where
  Result : Option RawMessage
  Error : Option RawMessage
  deriving DecidableEq

/-- A reply sink (`chan RawRPCResponse`), identified by a number. -/
abbrev Sink := Nat

/-- `ClientRequest`: a request bound to the reply sink of its client. -/
structure ClientRequest where
  ws : Bool
  request : Cmd
  response : Sink
  deriving DecidableEq

/-- `ServerRequest`: a request sent upstream together with the sink for its reply. -/
structure ServerRequest where
  request : Cmd
  response : Sink
  deriving DecidableEq

/-- `btcjson.Error`. -/
structure JsonError where
  Code : Int
  Message : String
  deriving DecidableEq

/-- `ErrServerBusy`. -/
def ErrServerBusy : JsonError := { Code := -32000, Message := "Server busy" }

/-- `ErrServerBusyRaw`, the raw JSON encoding of `ErrServerBusy`. -/
def ErrServerBusyRaw : RawMessage := "\x7b\"code\":-32000,\"message\":\"Server busy\"\x7d"

/-- Modelled from the spec: the constant `btcjson.ErrUnimplemented` belongs to
the JSON-RPC library, which is not part of these sources; the specification
gives unimplemented methods the error code −32601. Its message is not
specified and is left empty. -/
def ErrUnimplemented : JsonError := { Code := -32601, Message := "" }

/-- The errors a notification handler returns: the sentinel
`txstore.ErrInconsistentStore`, or any other error value. -/
inductive NtfnError
  | ErrInconsistentStore
  | other (msg : String)
  deriving DecidableEq

/-- What a goroutine of the dispatch core does to the outside, in order. -/
inductive Effect
  /-- The send `requestQueue <- r` went through. -/
  | enqueue (r : ClientRequest)
  /-- The send `r.response <- resp`. -/
  | respond (sink : Sink) (resp : RawRPCResponse)
  /-- The call `CurrentServerConn().SendRequest(request)`. -/
  | sendRequest (request : ServerRequest)
  /-- The hand-over `handleNtfn <- n` of the oldest pending notification. -/
  | ntfnOut (n : Cmd)
  /-- The call `AcctMgr.Grab()`. -/
  | grab
  /-- The call `AcctMgr.Release()`. -/
  | release
  /-- The call `f(r.request)` of a request handler. -/
  | invoke (f : Handler) (c : Cmd)
  /-- The call `f(n)` of the notification handler registered for a method. -/
  | invokeNtfn (n : Cmd)
  /-- A call of `log.Warn`. -/
  | logWarn
  /-- The call `btcd.Close()`. -/
  | closeConn
  /-- The call `AcctMgr.OpenAccounts()`. -/
  | openAccounts
  deriving DecidableEq

/-- The collaborators of the dispatch core that live outside `rpcserver.go`'s
gateway and processor: the bodies of the handlers, the notification handler
table, the JSON encoder and the current server connection. `W` is the state
they act on (accounts, stores, connection), `V` the type of handler results. -/
structure Env (W V : Type) where
  /-- The body of each request handler: result and error, and the new state;
  `none` when the handler fails at run time (a Go panic, such as an index out
  of range or a failed type assertion) and so does not return. -/
  handler : Handler → Cmd → W → Option ((Option V × Option JsonError) × W)
  /-- The table `notificationHandlers`, with the body of each handler. -/
  notificationHandlers : String → Option (Cmd → W → Option NtfnError × W)
  /-- The encoder `json.Marshal` on a handler result (`none` is a nil result). -/
  marshalResult : Option V → RawMessage
  /-- The encoder `json.Marshal` on a handler error. -/
  marshalError : JsonError → RawMessage
  /-- Whether `CurrentServerConn()` is a `*BtcdRPCConn`. -/
  isBtcdRPCConn : W → Bool
  /-- The call `btcd.Close()`. -/
  close : W → W
  /-- The call `AcctMgr.OpenAccounts()`. -/
  openAccounts : W → W

/-- The capacity of `requestQueue` (`make(chan *ClientRequest, 100)`). -/
def requestQueueCap : Nat := 100

/-- The state of the gateway and processor goroutines and of the channels
between them. -/
structure ServerState (W : Type) where
  /-- The local slice `ntfnQueue` of `RPCGateway`. -/
  ntfnQueue : List Cmd
  /-- The contents of the buffered channel `requestQueue`, oldest first. -/
  requestQueue : List ClientRequest
  /-- Modelled from the spec: the generator behind the channel `NewJSONID` is
  not part of these sources; ids are unique and allocated monotonically, so
  the next id to be read is kept as a counter. -/
  NewJSONID : Nat
  /-- Everything `RPCGateway` has done so far. -/
  gwTrace : List Effect
  /-- Everything `WalletRequestProcessor` has done so far. -/
  procTrace : List Effect
  /-- The state the handlers act on. -/
  world : W
  /-- Whether a request handler has failed at run time. The processor has no
  `recover`, so the failure ends the program: nothing happens after it. -/
  failed : Bool

/-- The state at start-up: empty queues, nothing done yet. -/
def ServerState.init {W : Type} (w : W) : ServerState W :=
  { ntfnQueue := [], requestQueue := [], NewJSONID := 0, gwTrace := [], procTrace := [],
    world := w, failed := false }

/-! ## RPCGateway -/

/-- The branch `case r := <-clientRequests` of `RPCGateway`. -/
def gatewayClientRequest {W : Type} (s : ServerState W) (r : ClientRequest) : ServerState W :=
  let std := (rpcHandlers.lookup r.request.method).isSome
  let ext := (wsHandlers.lookup r.request.method).isSome
  if std || ext then
    if s.requestQueue.length < requestQueueCap then
      { s with requestQueue := s.requestQueue ++ [r], gwTrace := s.gwTrace ++ [.enqueue r] }
    else
      let resp : RawRPCResponse := { Result := none, Error := some ErrServerBusyRaw }
      { s with gwTrace := s.gwTrace ++ [.respond r.response resp] }
  else
    let request : ServerRequest :=
      { request := r.request.SetId (.num s.NewJSONID), response := r.response }
    { s with NewJSONID := s.NewJSONID + 1, gwTrace := s.gwTrace ++ [.sendRequest request] }

/-- The branch `case n := <-svrNtfns` of `RPCGateway`. -/
def gatewaySvrNtfn {W : Type} (s : ServerState W) (n : Cmd) : ServerState W :=
  { s with ntfnQueue := s.ntfnQueue ++ [n] }

/-! ## WalletRequestProcessor -/

/-- The handler `Unimplemented`. -/
def Unimplemented {V : Type} (_icmd : Cmd) : Option V × Option JsonError :=
  (none, some ErrUnimplemented)

/-- The handler `Unsupported`. -/
def Unsupported {V : Type} (_icmd : Cmd) : Option V × Option JsonError :=
  (none, some { Code := -1, Message := "Request unsupported by btcwallet" })

/-- The call `f(r.request)`: the two handlers defined next to the processor
are run as written and always return, every other handler is a collaborator;
`none` when the handler fails at run time. -/
def callHandler {W V : Type} (env : Env W V) (f : Handler) (c : Cmd) (w : W) :
    Option ((Option V × Option JsonError) × W) :=
  match f with
  | .Unimplemented => some (Unimplemented c, w)
  | .Unsupported => some (Unsupported c, w)
  | f => env.handler f c w

/-- The handler resolution at the head of the request branch of
`WalletRequestProcessor`. -/
def resolveHandler (method : String) (ws : Bool) : Handler :=
  match rpcHandlers.lookup method with
  | some f => f
  | none =>
    if ws then
      match wsHandlers.lookup method with
      | some f => f
      | none => .Unimplemented
    else .Unimplemented

/-- The response the processor builds from what the handler returned. -/
def encodeResponse {W V : Type} (env : Env W V) (ret : Option V × Option JsonError) :
    RawRPCResponse :=
  match ret.2 with
  | some jsonErr => { Result := none, Error := some (env.marshalError jsonErr) }
  | none => { Result := some (env.marshalResult ret.1), Error := none }

/-- The branch `case r := <-requestQueue` of `WalletRequestProcessor`, for the
request `r` it has received. When the handler fails at run time the branch
ends inside the call `f(r.request)`: the lock is not released and nothing is
written to the sink of the request. -/
def processRequest {W V : Type} (env : Env W V) (s : ServerState W) (r : ClientRequest) :
    ServerState W :=
  let f := resolveHandler r.request.method r.ws
  match callHandler env f r.request s.world with
  | some out =>
    { s with
      world := out.2,
      procTrace := s.procTrace ++
        [.grab, .invoke f r.request, .release, .respond r.response (encodeResponse env out.1)] }
  | none =>
    { s with procTrace := s.procTrace ++ [.grab, .invoke f r.request], failed := true }

/-- What the processor does after a notification handler returned `err`. -/
def afterNtfn {W V : Type} (env : Env W V) (err : Option NtfnError) (w : W) : List Effect × W :=
  match err with
  | some .ErrInconsistentStore =>
    if env.isBtcdRPCConn w then
      ([.logWarn, .grab, .closeConn, .openAccounts, .release], env.openAccounts (env.close w))
    else ([.logWarn], w)
  | none => ([], w)
  | some (.other _) => ([.logWarn], w)

/-- The branch `case n := <-handleNtfn` of `WalletRequestProcessor`, for the
notification `n` it has received. -/
def processNtfn {W V : Type} (env : Env W V) (s : ServerState W) (n : Cmd) : ServerState W :=
  match env.notificationHandlers n.method with
  | none => s
  | some f =>
    let out := f n s.world
    let post := afterNtfn env out.1 out.2
    { s with
      world := post.2,
      procTrace := s.procTrace ++ [.grab, .invokeNtfn n, .release] ++ post.1 }

/-! ## The two goroutines together -/

/-- One scheduling choice: which ready communication happens next. -/
inductive Event
  /-- A client request arrives on `clientRequests`. -/
  | clientRequest (r : ClientRequest)
  /-- A notification arrives on `svrNtfns`. -/
  | svrNtfn (n : Cmd)
  /-- The processor receives the oldest entry of `requestQueue`. -/
  | dequeue
  /-- The gateway hands its oldest notification to the processor over `handleNtfn`. -/
  | handOver

/-- One step of the system; `none` when the chosen communication is not ready
(an empty `requestQueue`, or an empty `ntfnQueue`, in which case the gateway
offers on a channel nobody reads). -/
def step {W V : Type} (env : Env W V) (s : ServerState W) : Event → Option (ServerState W)
  | .clientRequest r => some (gatewayClientRequest s r)
  | .svrNtfn n => some (gatewaySvrNtfn s n)
  | .dequeue =>
    match s.requestQueue with
    | [] => none
    | r :: rest => some (processRequest env { s with requestQueue := rest } r)
  | .handOver =>
    match s.ntfnQueue with
    | [] => none
    | oldestNtfn :: rest =>
      some (processNtfn env
        { s with ntfnQueue := rest, gwTrace := s.gwTrace ++ [.ntfnOut oldestNtfn] } oldestNtfn)

/-- A schedule run from a state; `none` when a communication of the schedule
is not ready, or comes after a runtime failure has ended the program. -/
def run {W V : Type} (env : Env W V) : ServerState W → List Event → Option (ServerState W)
  | s, [] => some s
  | s, e :: es => if s.failed then none else (step env s e).bind (fun s' => run env s' es)

/-! ## SendBeforeReceiveHistorySync -/

/-- A transaction hash (`btcwire.ShaHash`, 32 bytes), read as a number. -/
abbrev ShaHash := Nat

/-- A message on one of the channels `add`, `done`, `remove` of
`SendBeforeReceiveHistorySync`. -/
inductive SyncMsg
  | add (txsha : ShaHash)
  | done (txsha : ShaHash)
  | remove (txsha : ShaHash)
  deriving DecidableEq

/-- The transaction hash a message is about. -/
def SyncMsg.txsha : SyncMsg → ShaHash
  | .add x => x
  | .done x => x
  | .remove x => x

/-- The state of `SendBeforeReceiveHistorySync`: the map `m` from transaction
hash to signal channel, and the channels made so far. A channel is its index
in `chans`; the entry tells whether it has been closed. -/
structure SyncState where
  m : ShaHash → Option Nat
  chans : List Bool

/-- The state at start-up: `m` is empty and no channel has been made. -/
def SyncState.init : SyncState := { m := fun _ => none, chans := [] }

/-- The statement `close(c)`: closing a closed channel is a runtime failure. -/
def closeChan (chans : List Bool) (c : Nat) : Option (List Bool) :=
  match chans[c]? with
  | some false => some (chans.set c true)
  | _ => none

/-- One iteration of the loop of `SendBeforeReceiveHistorySync` on a message
from `add`, `remove` or `done`; `none` is a runtime failure. -/
def syncStep (s : SyncState) : SyncMsg → Option SyncState
  | .add txsha =>
    some { m := fun k => if k = txsha then some s.chans.length else s.m k,
           chans := s.chans ++ [false] }
  | .remove txsha =>
    some { s with m := fun k => if k = txsha then none else s.m k }
  | .done txsha =>
    match s.m txsha with
    | some c => (closeChan s.chans c).map (fun chans => { s with chans := chans })
    | none => some s

/-- The loop of `SendBeforeReceiveHistorySync` on a sequence of messages. -/
def syncRun : SyncState → List SyncMsg → Option SyncState
  | s, [] => some s
  | s, msg :: msgs => (syncStep s msg).bind (fun s' => syncRun s' msgs)

/-- `SendTxHistSyncResponse`: the channel (`none` is the nil channel) and
whether the hash was in the map. -/
structure SendTxHistSyncResponse where
  c : Option Nat
  ok : Bool
  deriving DecidableEq

/-- The branch `case req := <-access`: the response sent; `m` is not changed. -/
def syncAccess (s : SyncState) (txsha : ShaHash) : SendTxHistSyncResponse :=
  { c := s.m txsha, ok := (s.m txsha).isSome }

/-- Whether a receive from the channel of a response returns at once: the
channel has been closed. A receive from the nil channel never returns. -/
def signalFired (s : SyncState) (c : Option Nat) : Bool :=
  match c with
  | some c => s.chans[c]? = some true
  | none => false

/-- Reference model, in the words of the specification: the entry for `x` is
present when the most recent add-or-remove message about `x` was an add. -/
def specPresent (msgs : List SyncMsg) (x : ShaHash) : Bool :=
  match msgs.reverse.find? (fun msg => decide (msg = .add x ∨ msg = .remove x)) with
  | some (.add _) => true
  | _ => false

/-- Reference model, in the words of the specification: the signal of a
present entry has fired when a done message about `x` came after the most
recent add message about `x`. -/
def specFired (msgs : List SyncMsg) (x : ShaHash) : Bool :=
  specPresent msgs x &&
    decide (SyncMsg.done x ∈ msgs.reverse.takeWhile (fun msg => decide (msg ≠ .add x)))

/-- Whether no done message of `msgs` arrives for an entry that, by the
reference model, is present and has already fired; `pre` is the sequence of
messages processed before `msgs`. -/
def noDoneOnFired (pre : List SyncMsg) : List SyncMsg → Bool
  | [] => true
  | .done x :: msgs => !specFired pre x && noDoneOnFired (pre ++ [.done x]) msgs
  | msg :: msgs => noDoneOnFired (pre ++ [msg]) msgs

/-! ## The send path: sendPairs and handleSendRawTxReply -/

/-- Modelled from the spec: the code of `btcjson.ErrInvalidParameter`, a
constant of the JSON-RPC library, which is not part of these sources
(invalid-params, −32602). -/
def ErrInvalidParameterCode : Int := -32602

/-- Modelled from the spec: the code of `btcjson.ErrInternal`, a constant of
the JSON-RPC library, which is not part of these sources (internal, −32603). -/
def ErrInternalCode : Int := -32603

/-- Modelled from the spec: the code of `btcjson.ErrWallet`, a constant of the
JSON-RPC library, which is not part of these sources (wallet, −4). -/
def ErrWalletCode : Int := -4

/-- Modelled from the spec: the constant `btcjson.ErrInternal` of the JSON-RPC
library, which is not part of these sources; its message is not specified. -/
def ErrInternal : JsonError := { Code := ErrInternalCode, Message := "" }

/-- Modelled from the spec: the constant `btcjson.ErrWalletUnlockNeeded` of the
JSON-RPC library, which is not part of these sources (unlock-needed, −13);
its message is not specified. -/
def ErrWalletUnlockNeeded : JsonError := { Code := -13, Message := "" }

/-- Modelled from the spec: the constant `btcjson.ErrWalletInvalidAccountName`
of the JSON-RPC library, which is not part of these sources
(invalid-account-name, −11); its message is not specified. -/
def ErrWalletInvalidAccountName : JsonError := { Code := -11, Message := "" }

/-- What `sendPairs` uses of a `CreatedTx`: the hash of the transaction, the
hex encoding of its serialization and the change address (`none` is nil). -/
structure CreatedTx where
  txsha : ShaHash
  hextx : String
  changeAddr : Option String
  deriving DecidableEq

/-- The errors of `txToPairs` that `sendPairs` tells apart. -/
inductive TxToPairsError
  | ErrNonPositiveAmount
  | ErrWalletLocked
  | other (msg : String)
  deriving DecidableEq

/-- The collaborators of the send path and what they return: the account
manager, transaction construction, the disk syncer, the upstream server, the
transaction store and the current block. -/
structure SendCollaborators where
  /-- Whether `AcctMgr.Account(account)` finds the account. -/
  Account : String → Bool
  /-- The call `a.txToPairs(amounts, minconf)` on the account of that name. -/
  txToPairs : String → List (String × Int) → Int → Except TxToPairsError CreatedTx
  /-- The error of `FlushAccount` after a change address was added (`none` is nil). -/
  FlushAccountChange : Option String
  /-- The call `SendRawTransaction(CurrentServerConn(), hextx)`: the
  transaction id, or the error of the server. -/
  SendRawTransaction : String → String ⊕ JsonError
  /-- Whether `a.TxStore.InsertTx` succeeds. -/
  InsertTx : Bool
  /-- Whether `txr.AddDebits` succeeds. -/
  AddDebits : Bool
  /-- Whether `GetCurBlock` succeeds. -/
  GetCurBlock : Bool
  /-- The call `debits.ToJSON`: the details, or `none` for an error. -/
  ToJSON : Option (List String)
  /-- Whether the `FlushAccount` after the done message succeeds. -/
  FlushAccount : Bool

/-- What the send path does to its collaborators, in order (logging and the
balance computations, which change nothing, are left out). -/
inductive SendEffect
  /-- The send `SendTxHistSyncChans.add <- txsha`. -/
  | syncAdd (txsha : ShaHash)
  /-- The send `SendTxHistSyncChans.remove <- txsha`. -/
  | syncRemove (txsha : ShaHash)
  /-- The send `SendTxHistSyncChans.done <- txsha`. -/
  | syncDone (txsha : ShaHash)
  /-- The call `AcctMgr.ds.ScheduleWalletWrite(a)`. -/
  | scheduleWalletWrite
  /-- The call `AcctMgr.ds.FlushAccount(a)` and whether it succeeded. -/
  | flushAccount (ok : Bool)
  /-- The call `a.ReqNewTxsForAddress(changeAddr)`. -/
  | reqNewTxsForAddress (addr : String)
  /-- The upstream call `sendrawtransaction` and whether it succeeded. -/
  | sendRawTransaction (hextx : String) (ok : Bool)
  /-- The call `a.TxStore.InsertTx` and whether it succeeded. -/
  | insertTx (ok : Bool)
  /-- The call `txr.AddDebits` and whether it succeeded. -/
  | addDebits (ok : Bool)
  /-- The call `AcctMgr.ds.ScheduleTxStoreWrite(a)`. -/
  | scheduleTxStoreWrite
  /-- The call `NotifyNewTxDetails` for one entry of the details. -/
  | notifyNewTxDetails (details : String)
  /-- The call `NotifyWalletBalance`. -/
  | notifyWalletBalance
  /-- The call `NotifyWalletBalanceUnconfirmed`. -/
  | notifyWalletBalanceUnconfirmed
  deriving DecidableEq

/-- What a handler returns, with what it did: `(interface{}, *btcjson.Error)`. -/
abbrev SendReturn := List SendEffect × (Option String × Option JsonError)

/-- The function `handleSendRawTxReply`. -/
def handleSendRawTxReply (o : SendCollaborators) (txIDStr : String) (txInfo : CreatedTx) :
    SendReturn :=
  if !o.InsertTx then
    ([.insertTx false], (none, some ErrInternal))
  else if !o.AddDebits then
    ([.insertTx true, .addDebits false], (none, some ErrInternal))
  else
    let stored : List SendEffect := [.insertTx true, .addDebits true, .scheduleTxStoreWrite]
    let notified : Option (List SendEffect) :=
      if o.GetCurBlock then
        match o.ToJSON with
        | none => none
        | some ltr => some (ltr.map .notifyNewTxDetails)
      else some []
    match notified with
    | none => (stored, (none, some ErrInternal))
    | some ns =>
      (stored ++ ns ++
        [.syncDone txInfo.txsha, .flushAccount o.FlushAccount, .notifyWalletBalance,
         .notifyWalletBalanceUnconfirmed],
       (some txIDStr, none))

/-- The tail of `sendPairs`, from the upstream call on; `sofar` is what the
function has done before. -/
def sendPairsBroadcast (o : SendCollaborators) (createdTx : CreatedTx)
    (sofar : List SendEffect) : SendReturn :=
  match o.SendRawTransaction createdTx.hextx with
  | .inr jsonErr =>
    (sofar ++ [.sendRawTransaction createdTx.hextx false, .syncRemove createdTx.txsha],
     (none, some jsonErr))
  | .inl txSha =>
    let reply := handleSendRawTxReply o txSha createdTx
    (sofar ++ [.sendRawTransaction createdTx.hextx true] ++ reply.1, reply.2)

/-- The function `sendPairs`. Its argument `icmd` is only read for comments
that are not saved, and is left out. -/
def sendPairs (o : SendCollaborators) (account : String) (amounts : List (String × Int))
    (minconf : Int) : SendReturn :=
  if !o.Account account then
    ([], (none, some ErrWalletInvalidAccountName))
  else
    match o.txToPairs account amounts minconf with
    | .error .ErrNonPositiveAmount =>
      ([], (none, some { Code := ErrInvalidParameterCode, Message := "amount must be positive" }))
    | .error .ErrWalletLocked => ([], (none, some ErrWalletUnlockNeeded))
    | .error (.other msg) => ([], (none, some { Code := ErrInternalCode, Message := msg }))
    | .ok createdTx =>
      match createdTx.changeAddr with
      | some changeAddr =>
        match o.FlushAccountChange with
        | some err =>
          ([.syncAdd createdTx.txsha, .scheduleWalletWrite, .flushAccount false],
           (none, some { Code := ErrWalletCode, Message := "Cannot write account: " ++ err }))
        | none =>
          sendPairsBroadcast o createdTx
            [.syncAdd createdTx.txsha, .scheduleWalletWrite, .flushAccount true,
             .reqNewTxsForAddress changeAddr]
      | none => sendPairsBroadcast o createdTx [.syncAdd createdTx.txsha]

/-- Whether every effect of `tr` that satisfies `isB` comes after one that
satisfies `isA`; `seen` tells whether one came before `tr`. -/
def onlyAfter (isA isB : SendEffect → Bool) : Bool → List SendEffect → Bool
  | _, [] => true
  | seen, e :: es => (!isB e || seen) && onlyAfter isA isB (seen || isA e) es

/-- Collaborators under which a send goes through: a transaction with a change
address is created, broadcast and stored. -/
def exampleSendOk : SendCollaborators :=
  { Account := fun _ => true,
    txToPairs := fun _ _ _ => .ok { txsha := 7, hextx := "0100", changeAddr := some "change" },
    FlushAccountChange := none,
    SendRawTransaction := fun _ => .inl "txid",
    InsertTx := true,
    AddDebits := true,
    GetCurBlock := true,
    ToJSON := some ["details"],
    FlushAccount := true }

/-- Collaborators under which the upstream server refuses the transaction. -/
def exampleSendRefused : SendCollaborators :=
  { exampleSendOk with
    SendRawTransaction := fun _ => .inr { Code := -22, Message := "TX rejected" } }

/-! ## Observations on traces and schedules -/

/-- The notifications the gateway has handed over `handleNtfn`, in order. -/
def handedOver (tr : List Effect) : List Cmd :=
  tr.filterMap (fun e => match e with
    | .ntfnOut n => some n
    | _ => none)

/-- The notifications a schedule delivers on `svrNtfns`, in order. -/
def receivedNtfns (evs : List Event) : List Cmd :=
  evs.filterMap (fun e => match e with
    | .svrNtfn n => some n
    | _ => none)

/-- The client requests a schedule delivers on `clientRequests`, in order. -/
def receivedRequests (evs : List Event) : List ClientRequest :=
  evs.filterMap (fun e => match e with
    | .clientRequest r => some r
    | _ => none)

/-- The number of sends into `requestQueue` that went through. -/
def countEnqueued (tr : List Effect) : Nat :=
  tr.countP (fun e => match e with
    | .enqueue _ => true
    | _ => false)

/-- The number of responses written, to any sink. -/
def countResponses (tr : List Effect) : Nat :=
  tr.countP (fun e => match e with
    | .respond _ _ => true
    | _ => false)

/-- The number of "server busy" responses written, to any sink. -/
def countBusy (tr : List Effect) : Nat :=
  tr.countP (fun e => match e with
    | .respond _ resp => decide (resp = { Result := none, Error := some ErrServerBusyRaw })
    | _ => false)

/-- The number of request handler invocations. -/
def countInvocations (tr : List Effect) : Nat :=
  tr.countP (fun e => match e with
    | .invoke _ _ => true
    | _ => false)

/-! ## Concrete inputs -/

/-- A request for a method of the standard table, on a plain connection. -/
def exampleKnownRequest : ClientRequest :=
  { ws := false, request := { method := "getbalance", id := .num 42, params := "[]" },
    response := 1 }

/-- A request for a method of neither table. -/
def exampleUnknownRequest : ClientRequest :=
  { ws := false, request := { method := "getblockcount", id := .str "abc", params := "[]" },
    response := 2 }

/-- A request for a websocket-only method, on a connection that is not a websocket. -/
def exampleWsOnlyRequest : ClientRequest :=
  { ws := false, request := { method := "walletislocked", id := .num 7, params := "[]" },
    response := 3 }

/-- A state whose request queue is full. -/
def exampleFullSystem : ServerState Bool :=
  { ServerState.init true with requestQueue := List.replicate 100 exampleKnownRequest }

/-- A notification of the upstream server. -/
def exampleNtfn : Cmd := { method := "blockconnected", id := .num 0, params := "[]" }

/-- A notification nobody handles. -/
def exampleUnhandledNtfn : Cmd := { method := "other", id := .num 0, params := "[]" }

/-- Collaborators for the concrete inputs: the state is whether the current
server connection is a `*BtcdRPCConn`; `getbalance` returns a value, every
other handler an error; the handler of `blockconnected` reports an
inconsistent store; closing the connection leaves no btcd connection. -/
def exampleEnv : Env Bool String :=
  { handler := fun f _ w =>
      match f with
      | .GetBalance => some ((some "0", none), w)
      | _ => some ((none, some { Code := -4, Message := "wallet" }), w),
    notificationHandlers := fun m =>
      if m = "blockconnected" then some (fun _ w => (some .ErrInconsistentStore, w)) else none,
    marshalResult := fun v =>
      match v with
      | some x => x
      | none => "null",
    marshalError := fun e => e.Message,
    isBtcdRPCConn := fun w => w,
    close := fun _ => false,
    openAccounts := fun w => w }

/-- A schedule: two notifications arrive around a client request, the request
is handled and the first notification is handed over. -/
def exampleSchedule : List Event :=
  [.svrNtfn exampleNtfn, .clientRequest exampleKnownRequest, .svrNtfn exampleUnhandledNtfn,
   .handOver, .dequeue]

/-! ## Invariants used in the proofs -/

/-- Every channel in the map has been made, and no two hashes share a channel. -/
def SyncInv (s : SyncState) : Prop :=
  (∀ h c, s.m h = some c → c < s.chans.length) ∧
  (∀ h₁ h₂ c, s.m h₁ = some c → s.m h₂ = some c → h₁ = h₂)

/-- The registry answers every query as the reference model does after `pre`. -/
def SyncAgrees (s : SyncState) (pre : List SyncMsg) : Prop :=
  ∀ x, (syncAccess s x).ok = specPresent pre x ∧
    signalFired s (syncAccess s x).c = specFired pre x

/-- The prefixes of a trace of `sendPairs` up to the upstream call. -/
def beforeBroadcast (c : CreatedTx) (sofar : List SendEffect) : Prop :=
  sofar = [.syncAdd c.txsha] ∨
  ∃ addr, sofar = [.syncAdd c.txsha, .scheduleWalletWrite, .flushAccount true,
    .reqNewTxsForAddress addr]

/-! ## The send handlers under the processor's lock -/

/-- The parameters of `btcjson.SendFromCmd` the handler reads (the comments
are never saved). -/
structure SendFromCmd where
  FromAccount : String
  ToAddress : String
  Amount : Int
  MinConf : Int
  deriving DecidableEq

/-- The parameters of `btcjson.SendManyCmd` the handler reads; `Amounts` is a
Go map, kept as the list of its entries. -/
structure SendManyCmd where
  FromAccount : String
  Amounts : List (String × Int)
  MinConf : Int
  deriving DecidableEq

/-- The parameters of `btcjson.SendToAddressCmd` the handler reads. -/
structure SendToAddressCmd where
  Address : String
  Amount : Int
  deriving DecidableEq

/-- The handler `SendFrom`, on a command of its own type (the type assertion
at its head holds for every command decoded for the method). -/
def SendFrom (o : SendCollaborators) (cmd : SendFromCmd) : SendReturn :=
  if cmd.Amount < 0 then
    ([], (none, some { Code := ErrInvalidParameterCode, Message := "amount must be positive" }))
  else if cmd.MinConf < 0 then
    ([], (none, some { Code := ErrInvalidParameterCode, Message := "minconf must be positive" }))
  else
    sendPairs o cmd.FromAccount [(cmd.ToAddress, cmd.Amount)] cmd.MinConf

/-- The handler `SendMany`, on a command of its own type. -/
def SendMany (o : SendCollaborators) (cmd : SendManyCmd) : SendReturn :=
  if cmd.MinConf < 0 then
    ([], (none, some { Code := ErrInvalidParameterCode, Message := "minconf must be positive" }))
  else
    sendPairs o cmd.FromAccount (cmd.Amounts.map (fun kv => (kv.1, kv.2))) cmd.MinConf

/-- The handler `SendToAddress`, on a command of its own type. -/
def SendToAddress (o : SendCollaborators) (cmd : SendToAddressCmd) : SendReturn :=
  if cmd.Amount < 0 then
    ([], (none, some { Code := ErrInvalidParameterCode, Message := "amount must be positive" }))
  else
    sendPairs o "" [(cmd.Address, cmd.Amount)] 1

/-- A request for one of the three send methods. -/
inductive SendCmd
  | sendfrom (cmd : SendFromCmd)
  | sendmany (cmd : SendManyCmd)
  | sendtoaddress (cmd : SendToAddressCmd)
  deriving DecidableEq

/-- The handler the dispatch tables give to a send request, run on it. -/
def runSendHandler (o : SendCollaborators) : SendCmd → SendReturn
  | .sendfrom cmd => SendFrom o cmd
  | .sendmany cmd => SendMany o cmd
  | .sendtoaddress cmd => SendToAddress o cmd

/-- Whether one of the amounts a send request asks for is zero or negative. -/
def SendCmd.hasNonPositiveAmount : SendCmd → Bool
  | .sendfrom cmd => decide (cmd.Amount ≤ 0)
  | .sendmany cmd => cmd.Amounts.any (fun kv => decide (kv.2 ≤ 0))
  | .sendtoaddress cmd => decide (cmd.Amount ≤ 0)

/-- The account a send request draws from (`SendToAddress` uses the default
account, whose name is empty). -/
def SendCmd.account : SendCmd → String
  | .sendfrom cmd => cmd.FromAccount
  | .sendmany cmd => cmd.FromAccount
  | .sendtoaddress _ => ""

/-- Whether the handler's own check refuses the request before `sendPairs` is
called: a negative amount for `SendFrom` and `SendToAddress`, a negative
`minconf` for `SendFrom` and `SendMany`. -/
def SendCmd.refusedByHandler : SendCmd → Bool
  | .sendfrom cmd => decide (cmd.Amount < 0) || decide (cmd.MinConf < 0)
  | .sendmany cmd => decide (cmd.MinConf < 0)
  | .sendtoaddress cmd => decide (cmd.Amount < 0)

/-- What the processor does around a send handler: the account-manager lock
and, in between, the effects of the handler. -/
inductive LockedEffect
  /-- The call `AcctMgr.Grab()`. -/
  | grab
  /-- The call `AcctMgr.Release()`. -/
  | release
  /-- An effect of the handler called in between. -/
  | handler (e : SendEffect)
  deriving DecidableEq

/-- The lines `AcctMgr.Grab()`, `f(r.request)`, `AcctMgr.Release()` of
`WalletRequestProcessor` for a send request, with the effects of the handler
spelled out. The helper `SendRawTransaction` is outside these sources: it is
the upstream call, one effect of the handler. -/
def processSend (o : SendCollaborators) (c : SendCmd) : List LockedEffect :=
  [.grab] ++ (runSendHandler o c).1.map .handler ++ [.release]

/-- Whether the account-manager lock is held after a trace, given whether it
was held before. -/
def lockHeld : Bool → List LockedEffect → Bool
  | held, [] => held
  | _, .grab :: tr => lockHeld true tr
  | _, .release :: tr => lockHeld false tr
  | held, .handler _ :: tr => lockHeld held tr

/-- The messages a trace of the send path sends to the send/receive history
registry, in order. -/
def syncMsgsOf (tr : List SendEffect) : List SyncMsg :=
  tr.filterMap (fun e => match e with
    | .syncAdd h => some (.add h)
    | .syncRemove h => some (.remove h)
    | .syncDone h => some (.done h)
    | _ => none)

/-- Collaborators under which the flush after the new change address fails. -/
def exampleSendFlushFails : SendCollaborators :=
  { exampleSendOk with FlushAccountChange := some "disk full" }

/-- Collaborators of a wallet without the named account, whose transaction
construction rejects amounts that are not positive. -/
def exampleSendNoAccount : SendCollaborators :=
  { exampleSendOk with
    Account := fun _ => false,
    txToPairs := fun _ amounts _ =>
      if amounts.any (fun kv => decide (kv.2 ≤ 0)) then .error .ErrNonPositiveAmount
      else .ok { txsha := 7, hextx := "0100", changeAddr := none } }

/-- A send of nothing from an account that does not exist. -/
def exampleSendZero : SendCmd :=
  .sendfrom { FromAccount := "nobody", ToAddress := "addr", Amount := 0, MinConf := 1 }

/-- A send of five units to an address, from the default account. -/
def exampleSendFive : SendCmd :=
  .sendtoaddress { Address := "addr", Amount := 5 }

/-! ## SignRawTransaction -/

/-- Modelled from the spec: the code of `btcjson.ErrDeserialization`, a
constant of the JSON-RPC library, which is not part of these sources
(deserialization, −22). -/
def ErrDeserializationCode : Int := -22

/-- Modelled from the spec: the constant `btcjson.ErrDecodeHexString` of the
JSON-RPC library, which is not part of these sources; a failed decoding of
the transaction is a deserialization error (−22), its message is not
specified. -/
def ErrDecodeHexString : JsonError := { Code := ErrDeserializationCode, Message := "" }

/-- Modelled from the spec: the constants `btcscript.SigHashAll`,
`SigHashNone`, `SigHashSingle` and `SigHashAnyOneCanPay` belong to the script
library, which is not part of these sources; the sighash-type byte of `ALL`
is 0x01. -/
def SigHashAll : Nat := 0x01

/-- Modelled from the spec: the sighash-type byte of `NONE` is 0x02 (see
`SigHashAll`). -/
def SigHashNone : Nat := 0x02

/-- Modelled from the spec: the sighash-type byte of `SINGLE` is 0x03 (see
`SigHashAll`). -/
def SigHashSingle : Nat := 0x03

/-- Modelled from the spec: the sighash-type bit of `ANYONECANPAY` is 0x80
(see `SigHashAll`). -/
def SigHashAnyOneCanPay : Nat := 0x80

/-- A script or other byte string. -/
abbrev Script := List Nat

/-- `btcwire.OutPoint`; the index is a `uint32`. -/
structure OutPoint where
  Hash : ShaHash
  Index : Nat
  deriving DecidableEq

/-- What the handler reads and writes of a `btcwire.TxIn`. -/
structure TxIn where
  PreviousOutpoint : OutPoint
  SignatureScript : Script
  deriving DecidableEq

/-- What the handler reads of a `btcwire.TxOut`. -/
structure TxOut where
  Value : Int
  PkScript : Script
  deriving DecidableEq

/-- What the handler reads and writes of a `btcwire.MsgTx`. -/
structure MsgTx where
  TxIn : List TxIn
  TxOut : List TxOut
  deriving DecidableEq

/-- `btcjson.RawTxInput`, one supplemental input of the request. -/
structure RawTxInput where
  Txid : String
  Vout : Int
  ScriptPubKey : String
  RedeemScript : String
  deriving DecidableEq

/-- The parameters of `btcjson.SignRawTransactionCmd`. -/
structure SignRawTransactionCmd where
  RawTx : String
  Inputs : List RawTxInput
  PrivKeys : List String
  Flags : String
  deriving DecidableEq

/-- `btcjson.SignRawTransactionResult`. -/
structure SignRawTransactionResult where
  Hex : String
  Complete : Bool
  deriving DecidableEq

/-- What the handlers read of an `ecdsa.PrivateKey`: the public point and the
secret number. -/
structure PrivateKey where
  X : Nat
  Y : Nat
  D : Nat
  deriving DecidableEq

/-- The type `keyInfo`. -/
structure keyInfo where
  key : PrivateKey
  compressed : Bool
  deriving DecidableEq

/-- A `wallet.AddressInfo` with its dynamic type: a `wallet.PubKeyAddress`
with the outcome of `PrivKey()`, or a `wallet.ScriptAddress` with its
`Script()`; both answer `Compressed()`. -/
inductive AddressInfo
  | pubKey (privKey : Except String PrivateKey) (compressed : Bool)
  | script (script : Script) (compressed : Bool)

/-- The method `Compressed` of an address info. -/
def AddressInfo.Compressed : AddressInfo → Bool
  | .pubKey _ c => c
  | .script _ c => c

/-- The map `inputs` of the handler, from previous outpoint to its script;
the entry found first is the one written last. -/
abbrev PrevScripts := List (OutPoint × Script)

/-- The map `requested`: for each previous transaction being fetched, the
output indices needed from it, in the order the requests were made. -/
abbrev Requested := List (ShaHash × List Nat)

/-- The collaborators of `SignRawTransaction`; `AM` is the state of the
account manager. Addresses are identified by their encoding. -/
structure SignCollaborators (AM : Type) where
  /-- The function `hex.DecodeString`. -/
  hexDecode : String → Except String Script
  /-- The method `msgTx.Deserialize`; `none` is an error. -/
  Deserialize : Script → Option MsgTx
  /-- The function `btcwire.NewShaHashFromStr`. -/
  NewShaHashFromStr : String → Except String ShaHash
  /-- The function `btcutil.NewAddressScriptHash`, then the address as a string. -/
  NewAddressScriptHash : Script → Except String String
  /-- What `GetRawTransactionAsyncResult` returns for the request made by
  `GetRawTransactionAsync` for a hash: the outputs of the transaction, or the
  error of the server. -/
  GetRawTransaction : ShaHash → Except JsonError (List TxOut)
  /-- The order in which `range` walks over the map `requested`. -/
  rangeOrder : Requested → Requested
  /-- The function `btcutil.DecodePrivateKey`: key bytes, network, compressed. -/
  DecodePrivateKey : String → Except String (List Nat × Nat × Bool)
  /-- The network `cfg.Net()`. -/
  Net : Nat
  /-- The function `btcec.PrivKeyFromBytes` (the public key is part of the result). -/
  PrivKeyFromBytes : List Nat → PrivateKey
  /-- The method `pubk.SerializeCompressed`. -/
  SerializeCompressed : PrivateKey → Script
  /-- The method `pubk.SerializeUncompressed`. -/
  SerializeUncompressed : PrivateKey → Script
  /-- The function `btcutil.NewAddressPubKey`, then `EncodeAddress`. -/
  NewAddressPubKey : Script → Except String String
  /-- The method `AcctMgr.Address`. -/
  Address : AM → String → Except String AddressInfo
  /-- The function `btcscript.SignTxOutput` on the transaction, the input
  index, the previous script, the hash type, the two callbacks and the
  previous signature script. -/
  SignTxOutput : MsgTx → Nat → Script → Nat → (String → Except String (PrivateKey × Bool)) →
    (String → Except String Script) → Script → Except String Script
  /-- Whether `btcscript.NewScript` on the signature script, the previous
  script, the input index and the transaction succeeds and `Execute` returns
  no error. -/
  engineOk : Script → Script → Nat → MsgTx → Bool
  /-- The serialization of the transaction, hex encoded. -/
  Serialize : MsgTx → String

/-- The conversion `uint32(n)`. -/
def toUint32 (n : Int) : Nat := (n % 4294967296).toNat

/-- The loop over `cmd.Inputs`: the scripts the request supplies, and, when
private keys are supplied too, the redeem scripts by their address. -/
def seedInputs {AM : Type} (env : SignCollaborators AM) (withKeys : Bool) :
    List RawTxInput → PrevScripts → List (String × Script) →
      Except JsonError (PrevScripts × List (String × Script))
  | [], inputs, scripts => .ok (inputs, scripts)
  | rti :: rest, inputs, scripts =>
    match env.NewShaHashFromStr rti.Txid with
    | .error e => .error { Code := ErrDeserializationCode, Message := e }
    | .ok inputSha =>
      match env.hexDecode rti.ScriptPubKey with
      | .error e => .error { Code := ErrDeserializationCode, Message := e }
      | .ok script =>
        if withKeys then
          match env.hexDecode rti.RedeemScript with
          | .error e => .error { Code := ErrDeserializationCode, Message := e }
          | .ok redeemScript =>
            match env.NewAddressScriptHash redeemScript with
            | .error e => .error { Code := ErrDeserializationCode, Message := e }
            | .ok addr =>
              seedInputs env withKeys rest
                (({ Hash := inputSha, Index := toUint32 rti.Vout }, script) :: inputs)
                ((addr, redeemScript) :: scripts)
        else
          seedInputs env withKeys rest
            (({ Hash := inputSha, Index := toUint32 rti.Vout }, script) :: inputs) scripts

/-- One input that was not supplied: its index is added to the request for
its transaction, or a new request is made. -/
def addRequest : Requested → OutPoint → Requested
  | [], op => [(op.Hash, [op.Index])]
  | (h, idxs) :: rest, op =>
    if h = op.Hash then (h, idxs ++ [op.Index]) :: rest
    else (h, idxs) :: addRequest rest op

/-- The loop over `msgTx.TxIn` that requests the previous transactions of the
inputs that were not supplied. -/
def requestPrevouts (inputs : PrevScripts) : List TxIn → Requested → Requested
  | [], requested => requested
  | txIn :: rest, requested =>
    if (inputs.lookup txIn.PreviousOutpoint).isSome then requestPrevouts inputs rest requested
    else requestPrevouts inputs rest (addRequest requested txIn.PreviousOutpoint)

/-- The loop over `cmd.PrivKeys`. -/
def parseKeys {AM : Type} (env : SignCollaborators AM) :
    List String → List (String × keyInfo) → Except JsonError (List (String × keyInfo))
  | [], keys => .ok keys
  | key :: rest, keys =>
    match env.DecodePrivateKey key with
    | .error e => .error { Code := ErrDeserializationCode, Message := e }
    | .ok (bytes, net, compressed) =>
      if net ≠ env.Net then
        .error { Code := ErrDeserializationCode,
                 Message := "key network doesn\x27t match wallet\x27s" }
      else
        let privk := env.PrivKeyFromBytes bytes
        let serialized :=
          if compressed then env.SerializeCompressed privk else env.SerializeUncompressed privk
        match env.NewAddressPubKey serialized with
        | .error e => .error { Code := ErrDeserializationCode, Message := e }
        | .ok addr => parseKeys env rest ((addr, { key := privk, compressed := compressed }) :: keys)

/-- The translation of `cmd.Flags` to the hash type. -/
def parseSigHashFlags (flags : String) : Except JsonError Nat :=
  if flags = "" then .ok SigHashAll
  else if flags = "ALL" then .ok SigHashAll
  else if flags = "NONE" then .ok SigHashNone
  else if flags = "SINGLE" then .ok SigHashSingle
  else if flags = "ALL|ANYONECANPAY" then .ok (SigHashAll ||| SigHashAnyOneCanPay)
  else if flags = "NONE|ANYONECANPAY" then .ok (SigHashNone ||| SigHashAnyOneCanPay)
  else if flags = "SINGLE|ANYONECANPAY" then .ok (SigHashSingle ||| SigHashAnyOneCanPay)
  else .error { Code := ErrInvalidParameterCode, Message := "Invalid sighash parameter" }

/-- The inner loop over `ptx.inputs`: the scripts of the needed outputs of a
fetched transaction (the hash is rendered as a number in the message). -/
def recordOutputs (txid : ShaHash) (outs : List TxOut) :
    List Nat → PrevScripts → Except JsonError PrevScripts
  | [], inputs => .ok inputs
  | input :: rest, inputs =>
    match outs[input]? with
    | none =>
      .error { Code := ErrInvalidParameterCode,
               Message := "input " ++ toString txid ++ ":" ++ toString input ++ " is not in tx" }
    | some out =>
      recordOutputs txid outs rest (({ Hash := txid, Index := input }, out.PkScript) :: inputs)

/-- The loop over `requested` that collects the fetched transactions. -/
def collectPrevouts {AM : Type} (env : SignCollaborators AM) :
    Requested → PrevScripts → Except JsonError PrevScripts
  | [], inputs => .ok inputs
  | (txid, idxs) :: rest, inputs =>
    match env.GetRawTransaction txid with
    | .error e => .error e
    | .ok outs =>
      match recordOutputs txid outs idxs inputs with
      | .error e => .error e
      | .ok inputs' => collectPrevouts env rest inputs'

/-- The callback `getKey`. -/
def getKey {AM : Type} (env : SignCollaborators AM) (keys : List (String × keyInfo)) (am : AM)
    (addr : String) : Except String (PrivateKey × Bool) :=
  if keys.length ≠ 0 then
    match keys.lookup addr with
    | none => .error "no key for address"
    | some info => .ok (info.key, info.compressed)
  else
    match env.Address am addr with
    | .error e => .error e
    | .ok (.script _ _) => .error "address is not a pubkey address"
    | .ok (.pubKey privKey compressed) =>
      match privKey with
      | .error e => .error e
      | .ok key => .ok (key, compressed)

/-- The callback `getScript`. -/
def getScript {AM : Type} (env : SignCollaborators AM) (keys : List (String × keyInfo))
    (scripts : List (String × Script)) (am : AM) (addr : String) : Except String Script :=
  if keys.length ≠ 0 then
    match scripts.lookup addr with
    | none => .error "no script for address"
    | some script => .ok script
  else
    match env.Address am addr with
    | .error e => .error e
    | .ok (.pubKey _ _) => .error "addres is not a script address"
    | .ok (.script script _) => .ok script

/-- The test that guards the call of the signer for input `i` of a
transaction with `nOut` outputs. -/
def signerInvoked (hashType i nOut : Nat) : Bool :=
  (hashType &&& SigHashSingle) == 0 || decide (i < nOut)

/-- What happened to the signature of one input. -/
inductive SignerOutcome
  | skipped
  | signed
  | failed
  deriving DecidableEq

/-- What the signing loop did for one input: the outcome of the signer and,
when the script engine was run, whether it was created and executed without
error. -/
structure InputRecord where
  index : Nat
  signer : SignerOutcome
  engine : Option Bool
  deriving DecidableEq

/-- The assignment `txIn.SignatureScript = script` for input `i`. -/
def setSignatureScript (tx : MsgTx) (i : Nat) (txIn : TxIn) (script : Script) : MsgTx :=
  { tx with TxIn := tx.TxIn.set i { txIn with SignatureScript := script } }

/-- The signing loop over `msgTx.TxIn`, from input `i` on; `tx` is the
transaction as signed so far. -/
def signLoop {AM : Type} (env : SignCollaborators AM) (hashType : Nat) (inputs : PrevScripts)
    (keyFor : String → Except String (PrivateKey × Bool))
    (scriptFor : String → Except String Script) :
    Nat → List TxIn → MsgTx → Bool → List InputRecord →
      Except JsonError (MsgTx × Bool × List InputRecord)
  | _, [], tx, complete, log => .ok (tx, complete, log)
  | i, txIn :: rest, tx, complete, log =>
    match inputs.lookup txIn.PreviousOutpoint with
    | none =>
      .error { Code := ErrWalletCode,
               Message := toString txIn.PreviousOutpoint.Hash ++ ":" ++
                 toString txIn.PreviousOutpoint.Index ++ " not found" }
    | some input =>
      if signerInvoked hashType i tx.TxOut.length then
        match env.SignTxOutput tx i input (hashType % 256) keyFor scriptFor
            txIn.SignatureScript with
        | .error _ =>
          signLoop env hashType inputs keyFor scriptFor (i + 1) rest tx false
            (log ++ [{ index := i, signer := .failed, engine := none }])
        | .ok script =>
          let tx' := setSignatureScript tx i txIn script
          let ok := env.engineOk script input i tx'
          signLoop env hashType inputs keyFor scriptFor (i + 1) rest tx' (complete && ok)
            (log ++ [{ index := i, signer := .signed, engine := some ok }])
      else
        let ok := env.engineOk txIn.SignatureScript input i tx
        signLoop env hashType inputs keyFor scriptFor (i + 1) rest tx (complete && ok)
          (log ++ [{ index := i, signer := .skipped, engine := some ok }])

/-- What the handler has after its arguments are read: the transaction, the
supplied scripts, the requests made and the supplied keys. -/
structure SignArgs where
  msgTx : MsgTx
  inputs : PrevScripts
  scripts : List (String × Script)
  requested : Requested
  keys : List (String × keyInfo)

/-- The head of `SignRawTransaction`, up to the reading of the private keys. -/
def signArgs {AM : Type} (env : SignCollaborators AM) (cmd : SignRawTransactionCmd) :
    Except JsonError SignArgs :=
  match env.hexDecode cmd.RawTx with
  | .error _ => .error ErrDecodeHexString
  | .ok serializedTx =>
    match env.Deserialize serializedTx with
    | none => .error { Code := ErrDeserializationCode, Message := "TX decode failed" }
    | some msgTx =>
      match seedInputs env (cmd.PrivKeys.length != 0) cmd.Inputs [] [] with
      | .error e => .error e
      | .ok (inputs, scripts) =>
        let requested := requestPrevouts inputs msgTx.TxIn []
        if cmd.PrivKeys.length ≠ 0 then
          match parseKeys env cmd.PrivKeys [] with
          | .error e => .error e
          | .ok keys =>
            .ok { msgTx := msgTx, inputs := inputs, scripts := scripts,
                  requested := requested, keys := keys }
        else
          .ok { msgTx := msgTx, inputs := inputs, scripts := scripts,
                requested := requested, keys := [] }

/-- The handler `SignRawTransaction`, on a command of its own type. -/
def SignRawTransaction {AM : Type} (env : SignCollaborators AM) (am : AM)
    (cmd : SignRawTransactionCmd) : Option SignRawTransactionResult × Option JsonError :=
  match signArgs env cmd with
  | .error e => (none, some e)
  | .ok a =>
    match parseSigHashFlags cmd.Flags with
    | .error e => (none, some e)
    | .ok hashType =>
      match collectPrevouts env (env.rangeOrder a.requested) a.inputs with
      | .error e => (none, some e)
      | .ok inputs =>
        match signLoop env hashType inputs (getKey env a.keys am)
            (getScript env a.keys a.scripts am) 0 a.msgTx.TxIn a.msgTx true [] with
        | .error e => (none, some e)
        | .ok (tx, complete, _) =>
          (some { Hex := env.Serialize tx, Complete := complete }, none)

/-- The transaction of the concrete inputs. -/
def exampleTx : MsgTx :=
  { TxIn := [{ PreviousOutpoint := { Hash := 9, Index := 0 }, SignatureScript := [] },
             { PreviousOutpoint := { Hash := 9, Index := 1 }, SignatureScript := [] }],
    TxOut := [{ Value := 5, PkScript := [7] }] }

/-- Collaborators for the concrete inputs: every raw transaction decodes to
the example transaction, which has two inputs, spending outputs 0 and 1 of
transaction 9, and one output;
transaction 9 has two outputs; the signer succeeds with the script `[1]` and
the script engine accepts exactly that script. -/
def exampleSignEnv : SignCollaborators Unit :=
  { hexDecode := fun s => .ok (s.toList.map Char.toNat),
    Deserialize := fun _ => some exampleTx,
    NewShaHashFromStr := fun s => .ok s.length,
    NewAddressScriptHash := fun s => .ok (toString s.length),
    GetRawTransaction := fun h =>
      if h = 9 then .ok [{ Value := 3, PkScript := [10] }, { Value := 4, PkScript := [11] }]
      else .error { Code := -5, Message := "No information available about transaction" },
    rangeOrder := fun r => r,
    DecodePrivateKey := fun s => if s = "key" then .ok ([1], 0, true) else .error "bad key",
    Net := 0,
    PrivKeyFromBytes := fun _ => { X := 1, Y := 2, D := 3 },
    SerializeCompressed := fun k => [k.X],
    SerializeUncompressed := fun k => [k.X, k.Y],
    NewAddressPubKey := fun _ => .ok "1Key",
    Address := fun _ _ => .error "address not found",
    SignTxOutput := fun _ _ _ _ _ _ _ => .ok [1],
    engineOk := fun sigScript _ _ _ => decide (sigScript = [1]),
    Serialize := fun tx => toString (tx.TxIn.map (fun t => t.SignatureScript)) }

/-- The example transaction with a second output. -/
def exampleTxTwoOutputs : MsgTx :=
  { exampleTx with TxOut := [{ Value := 5, PkScript := [7] }, { Value := 6, PkScript := [8] }] }

/-- Collaborators as for the concrete inputs, except that every raw
transaction decodes to the transaction with two outputs and the signer fails
for the first input. -/
def exampleSignEnvFailing : SignCollaborators Unit :=
  { exampleSignEnv with
    Deserialize := fun _ => some exampleTxTwoOutputs,
    SignTxOutput := fun _ i _ _ _ _ _ => if i = 0 then .error "no key for address" else .ok [1] }

/-- A request to sign the raw transaction "tx" with the wallet's keys. -/
def exampleSignCmd (flags : String) : SignRawTransactionCmd :=
  { RawTx := "tx", Inputs := [], PrivKeys := [], Flags := flags }

/-- The arguments `SignRawTransaction` has read for the concrete request. -/
def exampleSignArgs : SignArgs :=
  { msgTx := exampleTx, inputs := [], scripts := [], requested := [(9, [0, 1])], keys := [] }

/-- A request to sign the raw transaction "tx" with a supplied key. -/
def exampleSignCmdWithKey : SignRawTransactionCmd :=
  { RawTx := "tx", Inputs := [], PrivKeys := ["key"], Flags := "" }

/-! ## SignMessage and VerifyMessage -/

/-- Modelled from the spec: the code of `btcjson.ErrParse`, a constant of the
JSON-RPC library, which is not part of these sources (parse, −32700). -/
def ErrParseCode : Int := -32700

/-- Modelled from the spec: the constant `btcjson.ErrInvalidAddressOrKey` of
the JSON-RPC library, which is not part of these sources (invalid-address,
−5); its message is not specified. -/
def ErrInvalidAddressOrKey : JsonError := { Code := -5, Message := "" }

/-- The parameters of `btcjson.SignMessageCmd`. -/
structure SignMessageCmd where
  Address : String
  Message : String
  deriving DecidableEq

/-- The parameters of `btcjson.VerifyMessageCmd`. -/
structure VerifyMessageCmd where
  Address : String
  Signature : String
  Message : String
  deriving DecidableEq

/-- The collaborators of `SignMessage` and `VerifyMessage`; `AM` is the state
of the account manager. Addresses are identified by their encoding. -/
structure MessageCollaborators (AM : Type) where
  /-- The function `btcutil.DecodeAddress` for the network `cfg.Net()`. -/
  DecodeAddress : String → Except String String
  /-- The method `AcctMgr.Address`. -/
  Address : AM → String → Except String AddressInfo
  /-- The function `btcwire.DoubleSha256`, on the bytes of a string. -/
  DoubleSha256 : String → List Nat
  /-- The function `btcec.SignCompact` on the curve `btcec.S256()`. -/
  SignCompact : PrivateKey → List Nat → Bool → Except String (List Nat)
  /-- The function `btcec.RecoverCompact` on the curve `btcec.S256()`: the
  two coordinates of the recovered public key and whether it was compressed. -/
  RecoverCompact : List Nat → List Nat → Except String (Nat × Nat × Bool)
  /-- The method `base64.StdEncoding.EncodeToString`. -/
  EncodeToString : List Nat → String
  /-- The method `base64.StdEncoding.DecodeString`. -/
  DecodeString : String → Except String (List Nat)

/-- The payload both handlers hash: the literal prefix, then the message. -/
def signedMessagePayload (message : String) : String :=
  "Bitcoin Signed Message:\n" ++ message

/-- The handler `SignMessage`, on a command of its own type; `none` is the
runtime failure of the type assertion `ainfo.(wallet.PubKeyAddress)`. -/
def SignMessage {AM : Type} (env : MessageCollaborators AM) (am : AM) (cmd : SignMessageCmd) :
    Option (Option String × Option JsonError) :=
  match env.DecodeAddress cmd.Address with
  | .error e => some (none, some { Code := ErrParseCode, Message := e })
  | .ok addr =>
    match env.Address am addr with
    | .error _ => some (none, some ErrInvalidAddressOrKey)
    | .ok (.script _ _) => none
    | .ok (.pubKey privKey compressed) =>
      match privKey with
      | .error e => some (none, some { Code := ErrWalletCode, Message := e })
      | .ok privkey =>
        match env.SignCompact privkey (env.DoubleSha256 (signedMessagePayload cmd.Message))
            compressed with
        | .error e => some (none, some { Code := ErrWalletCode, Message := e })
        | .ok sigbytes => some (some (env.EncodeToString sigbytes), none)

/-- The handler `VerifyMessage`, on a command of its own type; `none` is the
runtime failure of the type assertion `ainfo.(wallet.PubKeyAddress)`. -/
def VerifyMessage {AM : Type} (env : MessageCollaborators AM) (am : AM)
    (cmd : VerifyMessageCmd) : Option (Option Bool × Option JsonError) :=
  match env.DecodeAddress cmd.Address with
  | .error e => some (none, some { Code := ErrParseCode, Message := e })
  | .ok addr =>
    match env.Address am addr with
    | .error _ => some (none, some ErrInvalidAddressOrKey)
    | .ok (.script _ _) => none
    | .ok (.pubKey privKey compressed) =>
      match privKey with
      | .error e => some (none, some { Code := ErrWalletCode, Message := e })
      | .ok privkey =>
        match env.DecodeString cmd.Signature with
        | .error e => some (none, some { Code := ErrWalletCode, Message := e })
        | .ok sig =>
          match env.RecoverCompact sig
              (env.DoubleSha256 (signedMessagePayload cmd.Message)) with
          | .error e => some (none, some { Code := ErrWalletCode, Message := e })
          | .ok (x, y, wasCompressed) =>
            some (some (decide (x = privkey.X) && decide (y = privkey.Y) &&
              (compressed == wasCompressed)), none)

/-- Whether two strings have the same length and differ in exactly one place. -/
def singleByteAlteration (a b : String) : Bool :=
  a.length == b.length && (List.zip a.toList b.toList).countP (fun p => p.1 != p.2) == 1

/-- Collaborators for the concrete inputs: the wallet owns the address
"1Addr", any other string fails to decode; the hash is the sum of the
character codes modulo 26; a signature is the two coordinates of the key and
the compressed flag, then the hash; recovery reads them back, and gives
another key when the hash is another one; the encoding writes byte `b` as the
character of code `b + 65` and refuses characters below that. -/
def exampleMsgEnv : MessageCollaborators Unit :=
  { DecodeAddress := fun s => if s = "1Addr" then .ok "1Addr" else .error "checksum mismatch",
    Address := fun _ a =>
      if a = "1Addr" then .ok (.pubKey (.ok { X := 1, Y := 2, D := 3 }) true)
      else .error "address not found",
    DoubleSha256 := fun s => [(s.toList.map Char.toNat).sum % 26],
    SignCompact := fun k h c => .ok ([k.X, k.Y, if c then 1 else 0] ++ h),
    RecoverCompact := fun sig h =>
      match sig with
      | x :: y :: c :: rest => if rest = h then .ok (x, y, c == 1) else .ok (x + 1, y, c == 1)
      | _ => .error "invalid compact signature size",
    EncodeToString := fun bytes => String.mk (bytes.map (fun b => Char.ofNat (b + 65))),
    DecodeString := fun s =>
      if s.toList.all (fun ch => decide (65 ≤ ch.toNat)) then
        .ok (s.toList.map (fun ch => ch.toNat - 65))
      else .error "illegal base64 data" }

/-! ## Notions used in the proofs about SignRawTransaction -/

/-- The output of a previous outpoint is among the indices needed from the
request for its transaction. -/
def Covered (requested : Requested) (op : OutPoint) : Prop :=
  ∃ idxs, (op.Hash, idxs) ∈ requested ∧ op.Index ∈ idxs

/-- Whether a record of the signing loop is one of an input that leaves the
transaction complete: the signer did not fail and the script engine ran
without error. -/
def InputRecord.good (r : InputRecord) : Bool :=
  decide (r.signer ≠ .failed) && decide (r.engine = some true)

/-- In the words of the specification: the records `log` and the transaction
`tx'` are what signing the inputs `txIns`, from index `i` on, gives on `tx`.
For each input, in order, with `input` the previous script of its outpoint:
when the signer is skipped, the script engine is run on the signature script
the input has; when the signer returns an error, the input keeps its
signature script and the engine is not run; when the signer returns a script,
the input gets that script and the engine is run on it, in the transaction
with the new script. The record says which of the three happened and what the
engine returned, and the inputs after it are signed in the same way. -/
def SignOutcomes {AM : Type} (env : SignCollaborators AM) (hashType : Nat)
    (inputs : PrevScripts) (keyFor : String → Except String (PrivateKey × Bool))
    (scriptFor : String → Except String Script) :
    Nat → List TxIn → MsgTx → MsgTx → List InputRecord → Prop
  | _, [], tx, tx', log => tx' = tx ∧ log = []
  | _, _ :: _, _, _, [] => False
  | i, txIn :: rest, tx, tx', r :: log =>
    ∃ input, inputs.lookup txIn.PreviousOutpoint = some input ∧ r.index = i ∧
      ((signerInvoked hashType i tx.TxOut.length = false ∧
          r.signer = .skipped ∧
          r.engine = some (env.engineOk txIn.SignatureScript input i tx) ∧
          SignOutcomes env hashType inputs keyFor scriptFor (i + 1) rest tx tx' log) ∨
       (signerInvoked hashType i tx.TxOut.length = true ∧
          (∃ e, env.SignTxOutput tx i input (hashType % 256) keyFor scriptFor
            txIn.SignatureScript = .error e) ∧
          r.signer = .failed ∧
          r.engine = none ∧
          SignOutcomes env hashType inputs keyFor scriptFor (i + 1) rest tx tx' log) ∨
       (signerInvoked hashType i tx.TxOut.length = true ∧
          ∃ script, env.SignTxOutput tx i input (hashType % 256) keyFor scriptFor
              txIn.SignatureScript = .ok script ∧
            r.signer = .signed ∧
            r.engine = some (env.engineOk script input i
              (setSignatureScript tx i txIn script)) ∧
            SignOutcomes env hashType inputs keyFor scriptFor (i + 1) rest
              (setSignatureScript tx i txIn script) tx' log))

/-! ## The reply handler of the send path: failures after the broadcast -/

/-- Collaborators under which the broadcast succeeds and the insertion into
the transaction store fails. -/
def exampleSendInsertFails : SendCollaborators :=
  { exampleSendOk with InsertTx := false }

/-- Collaborators under which the broadcast succeeds and recording the debits
fails. -/
def exampleSendDebitsFail : SendCollaborators :=
  { exampleSendOk with AddDebits := false }

/-- Collaborators under which the broadcast succeeds and the conversion of the
debits for the notification fails. -/
def exampleSendToJSONFails : SendCollaborators :=
  { exampleSendOk with ToJSON := none }

/-- The transaction the example collaborators create. -/
def exampleCreatedTx : CreatedTx :=
  { txsha := 7, hextx := "0100", changeAddr := some "change" }

/-! ## Notions used in the statement about the requests for previous transactions -/

/-- The inputs of the transaction whose previous outpoint is not in the
supplemental map, in input order. -/
def unsuppliedInputs (inputs : PrevScripts) (txIns : List TxIn) : List TxIn :=
  txIns.filter (fun t => (inputs.lookup t.PreviousOutpoint).isNone)

/-- The output indices, in input order, of those inputs of `txIns` that
reference transaction `h`. -/
def indicesReferencing (h : ShaHash) (txIns : List TxIn) : List Nat :=
  (txIns.filter (fun t => decide (t.PreviousOutpoint.Hash = h))).map
    (fun t => t.PreviousOutpoint.Index)

/-- The inputs of a transaction that spends outputs 0 and 3 of transaction 1,
output 5 of transaction 2 and output 1 of transaction 4, in the order 1:0,
2:5, 1:3, 4:1. -/
def exampleGroupedInputs : List TxIn :=
  [{ PreviousOutpoint := { Hash := 1, Index := 0 }, SignatureScript := [] },
   { PreviousOutpoint := { Hash := 2, Index := 5 }, SignatureScript := [] },
   { PreviousOutpoint := { Hash := 1, Index := 3 }, SignatureScript := [] },
   { PreviousOutpoint := { Hash := 4, Index := 1 }, SignatureScript := [] }]

/-! ## The configuration: listener addresses (config.go) -/

/-- The body of the loop of `removeDuplicateAddresses` on one value: the state
is the slice `result` and the map `seen`; a value whose key is not in `seen` is
appended to `result` and entered in `seen`. -/
def removeDuplicateAddressesStep (st : List String × List (String × Bool)) (val : String) :
    List String × List (String × Bool) :=
  if (st.2.lookup val).isSome then st
  else (st.1 ++ [val], (val, true) :: st.2)

/-- The function `removeDuplicateAddresses`: the loop over `addrs`, started
with an empty `result` and an empty `seen`, and the `result` it returns. -/
def removeDuplicateAddresses (addrs : List String) : List String :=
  (addrs.foldl removeDuplicateAddressesStep ([], [])).1

/-- The function `normalizeAddresses`; `normalizeAddress`, which asks the
network library to split host and port, is a parameter. -/
def normalizeAddresses (normalizeAddress : String → String → String) (addrs : List String)
    (defaultPort : String) : List String :=
  removeDuplicateAddresses (addrs.map (fun addr => normalizeAddress addr defaultPort))

/-! ## StoreNotifiedMempoolRecvTxs -/

/-- A message on one of the channels `add`, `remove` of
`StoreNotifiedMempoolRecvTxs`. -/
inductive NotifiedRecvTxMsg
  | add (op : OutPoint)
  | remove (op : OutPoint)
  deriving DecidableEq

/-- The outpoint a message is about. -/
def NotifiedRecvTxMsg.op : NotifiedRecvTxMsg → OutPoint
  | .add op => op
  | .remove op => op

/-- The map `m` of `StoreNotifiedMempoolRecvTxs`, of type
`map[btcwire.OutPoint]struct{}`: `none` for a key that is not in the map. -/
abbrev NotifiedRecvTxs := OutPoint → Option Unit

/-- The map at start-up. -/
def NotifiedRecvTxs.init : NotifiedRecvTxs := fun _ => none

/-- One iteration of the loop of `StoreNotifiedMempoolRecvTxs` on a message
from `add` or `remove`. -/
def notifiedStep (m : NotifiedRecvTxs) : NotifiedRecvTxMsg → NotifiedRecvTxs
  | .add op => fun k => if k = op then some () else m k
  | .remove op =>
    if (m op).isSome then fun k => if k = op then none else m k
    else m

/-- The loop of `StoreNotifiedMempoolRecvTxs` on a sequence of messages. -/
def notifiedRun (m : NotifiedRecvTxs) (msgs : List NotifiedRecvTxMsg) : NotifiedRecvTxs :=
  msgs.foldl notifiedStep m

/-- The branch `case req := <-access`: the response sent; `m` is not changed. -/
def notifiedAccess (m : NotifiedRecvTxs) (op : OutPoint) : Bool :=
  (m op).isSome

/-- Reference model, in the words of the specification: the set contains `op`
when the most recent message about `op` was an add. -/
def specNotified (msgs : List NotifiedRecvTxMsg) (op : OutPoint) : Bool :=
  match msgs.reverse.find? (fun msg => decide (msg.op = op)) with
  | some (.add _) => true
  | _ => false

/-! ## NotifyBalanceSyncer -/

/-- A message on one of the channels `add`, `remove`, `access` of
`NotifyBalanceSyncer`, with the block hash it carries. -/
inductive BalanceMsg
  | add (block : ShaHash)
  | remove (block : ShaHash)
  | access (block : ShaHash)
  deriving DecidableEq

/-- The block hash a message is about. -/
def BalanceMsg.block : BalanceMsg → ShaHash
  | .add b => b
  | .remove b => b
  | .access b => b

/-- The state of `NotifyBalanceSyncer`: the map `m` from block hash to
`*sync.WaitGroup`, and the wait groups made so far. A wait group is its index
in `wgs`; the entry is the number of `Add(1)` calls the loop has made on it. -/
structure BalanceSyncerState where
  m : ShaHash → Option Nat
  wgs : List Nat

/-- The state at start-up: `m` is empty and no wait group has been made. -/
def BalanceSyncerState.init : BalanceSyncerState := { m := fun _ => none, wgs := [] }

/-- The call `wg.Add(1)`. -/
def wgAdd (wgs : List Nat) (wg : Nat) : List Nat :=
  wgs.set wg (wgs.getD wg 0 + 1)

/-- What the loop sends back for a message: nothing (`none`), or a
`*sync.WaitGroup`, which is `nil` (`some none`) or a wait group. -/
abbrev BalanceReply := Option (Option Nat)

/-- One iteration of the loop of `NotifyBalanceSyncer`: the new state, and
what is sent on the channel of the worker or of the request. -/
def balanceStep (s : BalanceSyncerState) : BalanceMsg → BalanceSyncerState × BalanceReply
  | .add block =>
    let made : BalanceSyncerState × Nat :=
      match s.m block with
      | some wg => (s, wg)
      | none =>
        ({ m := fun k => if k = block then some s.wgs.length else s.m k, wgs := s.wgs ++ [0] },
         s.wgs.length)
    ({ m := fun k => if k = block then some made.2 else made.1.m k,
       wgs := wgAdd made.1.wgs made.2 },
     some (some made.2))
  | .remove block =>
    if (s.m block).isSome then
      ({ s with m := fun k => if k = block then none else s.m k }, none)
    else (s, none)
  | .access block => (s, some (s.m block))

/-- The loop of `NotifyBalanceSyncer` on a sequence of messages: the state
reached, and the log of the messages with what was sent back for each. -/
def balanceRun (s : BalanceSyncerState) (msgs : List BalanceMsg) :
    BalanceSyncerState × List (BalanceMsg × BalanceReply) :=
  msgs.foldl
    (fun acc msg => ((balanceStep acc.1 msg).1, acc.2 ++ [(msg, (balanceStep acc.1 msg).2)]))
    (s, [])

/-- What an access for `block` is answered in a state. -/
def balanceAccess (s : BalanceSyncerState) (block : ShaHash) : Option Nat :=
  s.m block

/-- In the words of the specification: the part of a log since the last
remove message for `b` (the whole log when there was none). -/
def sinceLastRemove (b : ShaHash) (log : List (BalanceMsg × BalanceReply)) :
    List (BalanceMsg × BalanceReply) :=
  (log.reverse.takeWhile (fun e => decide (e.1 ≠ .remove b))).reverse

/-- In the words of the specification: the number of enter messages for `b`
since the last remove message for `b`. -/
def entersSince (b : ShaHash) (log : List (BalanceMsg × BalanceReply)) : Nat :=
  ((sinceLastRemove b log).filter (fun e => decide (e.1 = .add b))).length

/-- The invariant of the loop of `NotifyBalanceSyncer`: the wait groups in the
map exist, different hashes have different wait groups, and the entry of each
hash agrees with the log. -/
def BalanceInv (s : BalanceSyncerState) (log : List (BalanceMsg × BalanceReply)) : Prop :=
  (∀ x h, s.m x = some h → h < s.wgs.length) ∧
  (∀ x y h, s.m x = some h → s.m y = some h → x = y) ∧
  (∀ b, s.m b = none → entersSince b log = 0) ∧
  (∀ b h, s.m b = some h →
    0 < entersSince b log ∧ s.wgs[h]? = some (entersSince b log) ∧
    ∀ e ∈ sinceLastRemove b log, e.1 = .add b → e.2 = some (some h))

/-! ## The address and key handlers: GetAccountAddress, GetNewAddress, ImportPrivKey -/

/-- Modelled from the spec: the constant `btcjson.ErrWalletKeypoolRanOut` of
the JSON-RPC library, which is not part of these sources (keypool-exhausted,
−12); its message is not specified. -/
def ErrWalletKeypoolRanOut : JsonError := { Code := -12, Message := "" }

/-- The error variables the handlers compare an error with in a `switch`. -/
inductive Sentinel
  | ErrNotFound
  | ErrBtcdDisconnected
  | ErrWalletLocked
  | ErrDuplicate
  deriving DecidableEq

/-- A Go `error` value as the handlers see it: the error variable it is equal
to, if any, and the text of its method `Error()`. -/
structure GoError where
  sentinel : Option Sentinel
  text : String
  deriving DecidableEq

/-- The collaborators of the address handlers: the account manager and the
account found. An account is named by the string it was looked up with. -/
structure AddressCollaborators where
  /-- The error of `AcctMgr.Account(name)`; `none` is nil, the account exists. -/
  Account : String → Option GoError
  /-- The call `a.CurrentAddress()` with the address encoded, or its error. -/
  CurrentAddress : String → Except GoError String
  /-- The call `a.NewAddress()` with the address encoded, or its error. -/
  NewAddress : String → Except GoError String
  /-- The variable `ErrBtcdDisconnected` of the package, a `btcjson.Error`
  declared outside these sources. -/
  ErrBtcdDisconnected : JsonError

/-- What an address handler returns: `(interface{}, *btcjson.Error)`. -/
abbrev AddressReturn := Option String × Option JsonError

/-- The function `GetAccountAddress`, on a command of its type. -/
def GetAccountAddress (env : AddressCollaborators) (account : String) : AddressReturn :=
  match env.Account account with
  | some err =>
    match err.sentinel with
    | some .ErrNotFound => (none, some ErrWalletInvalidAccountName)
    | _ => (none, some { Code := ErrWalletCode, Message := err.text })
  | none =>
    match env.CurrentAddress account with
    | .ok addr => (some addr, none)
    | .error err =>
      match err.sentinel with
      | some .ErrWalletLocked => (none, some ErrWalletKeypoolRanOut)
      | _ => (none, some { Code := ErrWalletCode, Message := err.text })

/-- The function `GetNewAddress`, on a command of its type. -/
def GetNewAddress (env : AddressCollaborators) (account : String) : AddressReturn :=
  match env.Account account with
  | some err =>
    match err.sentinel with
    | some .ErrNotFound => (none, some ErrWalletInvalidAccountName)
    | some .ErrBtcdDisconnected => (none, some env.ErrBtcdDisconnected)
    | _ => (none, some { Code := ErrWalletCode, Message := err.text })
  | none =>
    match env.NewAddress account with
    | .error err => (none, some { Code := ErrWalletCode, Message := err.text })
    | .ok addr => (some addr, none)

/-- A wallet with the default account whose key pool is used up while the
wallet is locked: issuing an address fails with `wallet.ErrWalletLocked`. -/
def exampleLockedKeypool : AddressCollaborators :=
  { Account := fun name =>
      if name = "" then none else some { sentinel := some .ErrNotFound, text := "not found" },
    CurrentAddress := fun _ =>
      .error { sentinel := some .ErrWalletLocked, text := "wallet is locked" },
    NewAddress := fun _ =>
      .error { sentinel := some .ErrWalletLocked, text := "wallet is locked" },
    ErrBtcdDisconnected := { Code := -1, Message := "btcd disconnected" } }

/-- The parameters of `btcjson.ImportPrivKeyCmd`. -/
structure ImportPrivKeyCmd where
  PrivKey : String
  Label : String
  Rescan : Bool
  deriving DecidableEq

/-- What `btcutil.DecodePrivateKey` returns for a string it decodes: the key,
read as a number, the network, and whether the public key is compressed. -/
structure DecodedPrivKey where
  pk : Nat
  net : Nat
  compressed : Bool
  deriving DecidableEq

/-- The collaborators of `ImportPrivKey`: the account manager, the decoder of
the wallet import format, and the account found. -/
structure ImportCollaborators where
  /-- The error of `AcctMgr.Account(name)`; `none` is nil, the account exists. -/
  Account : String → Option GoError
  /-- The call `a.Net()` on the account of that name. -/
  Net : String → Nat
  /-- The call `btcutil.DecodePrivateKey(wif)`. -/
  DecodePrivateKey : String → Except GoError DecodedPrivKey
  /-- The error of `a.ImportPrivateKey(pk, compressed, bs, rescan)` on the
  account of that name; `none` is nil. -/
  ImportPrivateKey : String → Nat → Bool → Bool → Option GoError

/-- The calls of `ImportPrivKey` that change the wallet. -/
inductive ImportEffect
  /-- The call `a.ImportPrivateKey(pk, compressed, bs, rescan)`. -/
  | importPrivateKey (account : String) (pk : Nat) (compressed rescan : Bool)
  deriving DecidableEq

/-- The function `ImportPrivKey`, on a command of its type: what it did and
what it returns. -/
def ImportPrivKey (env : ImportCollaborators) (cmd : ImportPrivKeyCmd) :
    List ImportEffect × (Option String × Option JsonError) :=
  match env.Account cmd.Label with
  | some err =>
    match err.sentinel with
    | some .ErrNotFound => ([], (none, some ErrWalletInvalidAccountName))
    | _ => ([], (none, some { Code := ErrWalletCode, Message := err.text }))
  | none =>
    match env.DecodePrivateKey cmd.PrivKey with
    | .error _ => ([], (none, some ErrInvalidAddressOrKey))
    | .ok key =>
      if key.net ≠ env.Net cmd.Label then ([], (none, some ErrInvalidAddressOrKey))
      else
        let call := ImportEffect.importPrivateKey cmd.Label key.pk key.compressed cmd.Rescan
        match env.ImportPrivateKey cmd.Label key.pk key.compressed cmd.Rescan with
        | none => ([call], (none, none))
        | some err =>
          match err.sentinel with
          | some .ErrDuplicate => ([call], (none, none))
          | some .ErrWalletLocked => ([call], (none, some ErrWalletUnlockNeeded))
          | _ => ([call], (none, some { Code := ErrWalletCode, Message := err.text }))

/-- A wallet on network 1 with the default account, which already holds key 5,
holds key 6 only when unlocked, and cannot store key 7; the string `"wif5"`
decodes to key 5 of network 1, and `"main5"` to key 5 of network 2. -/
def exampleImportEnv : ImportCollaborators :=
  { Account := fun name =>
      if name = "" then none else some { sentinel := some .ErrNotFound, text := "not found" },
    Net := fun _ => 1,
    DecodePrivateKey := fun wif =>
      if wif = "wif4" then .ok { pk := 4, net := 1, compressed := true }
      else if wif = "wif5" then .ok { pk := 5, net := 1, compressed := true }
      else if wif = "wif6" then .ok { pk := 6, net := 1, compressed := true }
      else if wif = "wif7" then .ok { pk := 7, net := 1, compressed := true }
      else if wif = "main5" then .ok { pk := 5, net := 2, compressed := true }
      else .error { sentinel := none, text := "malformed private key" },
    ImportPrivateKey := fun _ pk _ _ =>
      if pk = 5 then some { sentinel := some .ErrDuplicate, text := "duplicate key or address" }
      else if pk = 6 then some { sentinel := some .ErrWalletLocked, text := "wallet is locked" }
      else if pk = 7 then some { sentinel := none, text := "disk full" }
      else none }

/-! ## GetTransaction -/

/-- The result of an addition, a subtraction or a negation of values of
`btcutil.Amount`, which is an `int64`: the integer reduced modulo 2^64 into
the range from −2^63 to 2^63 − 1 (two's complement). -/
def wrapInt64 (z : Int) : Int :=
  (z + 9223372036854775808) % 18446744073709551616 - 9223372036854775808

/-- What `GetTransaction` reads of a credit of a transaction record. Amounts
are `btcutil.Amount`, a count of satoshi in an `int64`. -/
structure Credit where
  /-- The method `Change()`. -/
  Change : Bool
  /-- The method `Amount()`. -/
  Amount : Int
  /-- The addresses of `Addresses(cfg.Net())`, encoded. -/
  Addresses : List String
  deriving DecidableEq

/-- What `GetTransaction` reads of the debits of a transaction record. -/
structure Debits where
  /-- The method `InputAmount()`. -/
  InputAmount : Int
  /-- The method `OutputAmount(ignoreChange)`. -/
  OutputAmount : Bool → Int
  /-- The method `Fee()`. -/
  Fee : Int

/-- What `GetTransaction` reads of a `txstore.TxRecord`. -/
structure TxRecord where
  /-- The method `Credits()`. -/
  Credits : List Credit
  /-- The method `Debits()`; `none` is nil. -/
  Debits : Option Debits
  /-- The text of `Tx().Sha().String()`. -/
  Sha : String
  /-- The serialization of `Tx().MsgTx()` in hexadecimal, or the text of the
  error of `Serialize`. -/
  Serialize : Except String String
  /-- The time `Received().Unix()`. -/
  Received : Int
  /-- The field `BlockHeight`; −1 for a transaction that is not in a block. -/
  BlockHeight : Int
  /-- The method `Block()`: the hash and the time of the block, or the text
  of its error. -/
  Block : Except String (String × Int)
  /-- The index `Tx().Index()` of the transaction in its block. -/
  Index : Int
  /-- The method `Confirmations(height)`. -/
  Confirmations : Int → Int

/-- An element of the result of `AcctMgr.GetTransaction`: a record and the
name of the account it belongs to. -/
structure AccountTx where
  Account : String
  Tx : TxRecord

/-- The type `btcjson.GetTransactionDetailsResult`. The amounts are those
passed to `ToUnit(btcutil.AmountBTC)`, in satoshi. -/
structure GetTransactionDetailsResult where
  Account : String
  Address : String
  Category : String
  Amount : Int
  Fee : Int
  deriving DecidableEq

/-- The type `btcjson.GetTransactionResult`. The amounts are those passed to
`ToUnit(btcutil.AmountBTC)`, in satoshi. -/
structure GetTransactionResult where
  Amount : Int
  Fee : Int
  Confirmations : Int
  BlockHash : String
  BlockIndex : Int
  BlockTime : Int
  TxID : String
  WalletConflicts : List String
  Time : Int
  TimeReceived : Int
  Details : List GetTransactionDetailsResult
  Hex : String
  deriving DecidableEq

/-- The collaborators of `GetTransaction`. -/
structure TransactionCollaborators where
  /-- The call `btcwire.NewShaHashFromStr(txid)`; `none` is an error. -/
  NewShaHashFromStr : String → Option ShaHash
  /-- The call `AcctMgr.GetTransaction(txsha)`. -/
  GetTransaction : ShaHash → List AccountTx
  /-- The call `GetCurBlock()`: the height, or the text of its error. -/
  GetCurBlock : Except String Int
  /-- The constant `btcjson.ErrNoTxInfo` of the JSON-RPC library, which is
  not part of these sources. -/
  ErrNoTxInfo : JsonError

/-- The address of a details entry: the only address of the credit, or the
empty string. -/
def detailsAddress (addrs : List String) : String :=
  match addrs with
  | [addr] => addr
  | _ => ""

/-- The body of the inner loop of `GetTransaction` on one credit of a record
of `account`: the state is `received` and `details`. -/
def creditStep (account : String) (st : Int × List GetTransactionDetailsResult)
    (cred : Credit) : Int × List GetTransactionDetailsResult :=
  if cred.Change then st
  else
    (wrapInt64 (st.1 + cred.Amount),
     st.2 ++ [{ Account := account, Address := detailsAddress cred.Addresses,
                Category := "receive", Amount := cred.Amount, Fee := 0 }])

/-- The variables of the outer loop of `GetTransaction`: `received`,
`details`, and `debitTx` with its debits and `debitAccount`. -/
structure GetTransactionLoop where
  received : Int
  details : List GetTransactionDetailsResult
  debit : Option (TxRecord × Debits × String)

/-- The body of the outer loop of `GetTransaction` on one record. -/
def recordStep (st : GetTransactionLoop) (e : AccountTx) : GetTransactionLoop :=
  let inner := e.Tx.Credits.foldl (creditStep e.Account) (st.received, st.details)
  match e.Tx.Debits with
  | some debits =>
    { received := inner.1, details := inner.2, debit := some (e.Tx, debits, e.Account) }
  | none => { received := inner.1, details := inner.2, debit := st.debit }

/-- The end of `GetTransaction`, from the serialization of the first record
on; `ret` holds the amount, the fee and the details. -/
def finishGetTransaction (env : TransactionCollaborators) (first : AccountTx)
    (ret : GetTransactionResult) : Option GetTransactionResult × Option JsonError :=
  match first.Tx.Serialize with
  | .error msg => (none, some { Code := ErrWalletCode, Message := msg })
  | .ok hextx =>
    let ret := { ret with TxID := first.Tx.Sha, Hex := hextx, Time := first.Tx.Received,
                          TimeReceived := first.Tx.Received }
    if first.Tx.BlockHeight ≠ -1 then
      match first.Tx.Block with
      | .error msg => (none, some { Code := ErrWalletCode, Message := msg })
      | .ok txBlock =>
        match env.GetCurBlock with
        | .error msg => (none, some { Code := ErrWalletCode, Message := msg })
        | .ok height =>
          (some { ret with BlockIndex := first.Tx.Index, BlockHash := txBlock.1,
                           BlockTime := txBlock.2,
                           Confirmations := first.Tx.Confirmations height },
           none)
    else (some ret, none)

/-- The function `GetTransaction`, on a command of its type with the
identifier `txid`. The result `none` is a runtime failure: an index out of
range. -/
def GetTransaction (env : TransactionCollaborators) (txid : String) :
    Option (Option GetTransactionResult × Option JsonError) :=
  match env.NewShaHashFromStr txid with
  | none => some (none, some ErrDecodeHexString)
  | some txsha =>
    match env.GetTransaction txsha with
    | [] => some (none, some env.ErrNoTxInfo)
    | first :: rest =>
      let st := (first :: rest).foldl recordStep { received := 0, details := [], debit := none }
      let ret : GetTransactionResult :=
        { Amount := 0, Fee := 0, Confirmations := 0, BlockHash := "", BlockIndex := 0,
          BlockTime := 0, TxID := "", WalletConflicts := [], Time := 0, TimeReceived := 0,
          Details := [], Hex := "" }
      match st.debit with
      | some (debitTx, debits, debitAccount) =>
        match debitTx.Credits with
        | [] => none
        | cred :: _ =>
          let info : GetTransactionDetailsResult :=
            { Account := debitAccount, Address := detailsAddress cred.Addresses,
              Category := "send", Amount := wrapInt64 (-debits.OutputAmount true),
              Fee := debits.Fee }
          some (finishGetTransaction env first
            { ret with Fee := ret.Fee + info.Fee,
                       Details := (ret.Details ++ [info]) ++ st.details,
                       Amount := wrapInt64 (st.received - debits.InputAmount) })
      | none =>
        some (finishGetTransaction env first
          { ret with Details := ret.Details ++ st.details, Amount := st.received })

/-- In the words of the specification: the credits of all records that are not
marked change, in record and credit order, each with the account of its
record. -/
def nonChangeCredits (records : List AccountTx) : List (String × Credit) :=
  (records.map (fun e =>
    (e.Tx.Credits.filter (fun cred => !cred.Change)).map (fun cred => (e.Account, cred)))).flatten

/-- In the words of the specification: the receive entry of a credit. -/
def receiveEntry (ac : String × Credit) : GetTransactionDetailsResult :=
  { Account := ac.1, Address := detailsAddress ac.2.Addresses, Category := "receive",
    Amount := ac.2.Amount, Fee := 0 }

/-- In the words of the specification: the debit record, with its debits: the
last record that has debits. -/
def debitRecord (records : List AccountTx) : Option (AccountTx × Debits) :=
  records.reverse.findSome? (fun e => e.Tx.Debits.map (fun d => (e, d)))

/-- In the words of the specification: the send entry of the debit record;
its address is taken from the first credit of the record. -/
def sendEntry (ed : AccountTx × Debits) : GetTransactionDetailsResult :=
  { Account := ed.1.Account,
    Address := match ed.1.Tx.Credits.head? with
      | some cred => detailsAddress cred.Addresses
      | none => "",
    Category := "send", Amount := wrapInt64 (-ed.2.OutputAmount true), Fee := ed.2.Fee }

/-- A record of a transaction that is not in a block, with the given credits
and debits. -/
def exampleRecord (credits : List Credit) (debits : Option Debits) : TxRecord :=
  { Credits := credits, Debits := debits, Sha := "ab", Serialize := .ok "0100",
    Received := 1400000000, BlockHeight := -1, Block := .error "not in a block", Index := 0,
    Confirmations := fun _ => 0 }

/-- The debits of a send of 70 from inputs of 100, with a fee of 10 and change
of 20. -/
def exampleDebits : Debits :=
  { InputAmount := 100, OutputAmount := fun ignoreChange => if ignoreChange then 70 else 90,
    Fee := 10 }

/-- The record of a send from account `"a"`: a change credit of 20 and a
credit of 30 to an address of the account itself. -/
def exampleSendRecord : AccountTx :=
  { Account := "a",
    Tx := exampleRecord
      [{ Change := true, Amount := 20, Addresses := ["change"] },
       { Change := false, Amount := 30, Addresses := ["own"] }]
      (some exampleDebits) }

/-- The record of the same transaction in account `"b"`: a credit of 40. -/
def exampleReceiveRecord : AccountTx :=
  { Account := "b",
    Tx := exampleRecord [{ Change := false, Amount := 40, Addresses := ["other"] }] none }

/-- A wallet that knows transaction `"ab"` (hash 171) as a send from account
`"a"` and a receipt in account `"b"`, and transaction `"cd"` (hash 205) as a
send from account `"a"` no output of which pays to the wallet. -/
def exampleTransactions : TransactionCollaborators :=
  { NewShaHashFromStr := fun txid =>
      if txid = "ab" then some 171 else if txid = "cd" then some 205 else none,
    GetTransaction := fun txsha =>
      if txsha = 171 then [exampleSendRecord, exampleReceiveRecord]
      else if txsha = 205 then
        [{ Account := "a", Tx := exampleRecord [] (some exampleDebits) }]
      else [],
    GetCurBlock := .ok 300000,
    ErrNoTxInfo := { Code := -5, Message := "No information available about transaction" } }

/-- The record of a transaction with two credits of 2^62 satoshi each, both
within the range of an `int64`, and no debits. -/
def exampleLargeRecord : AccountTx :=
  { Account := "a",
    Tx := exampleRecord
      [{ Change := false, Amount := 4611686018427387904, Addresses := ["own"] },
       { Change := false, Amount := 4611686018427387904, Addresses := ["other"] }]
      none }

/-- A wallet that knows every transaction as that record. -/
def exampleLargeAmounts : TransactionCollaborators :=
  { exampleTransactions with
    NewShaHashFromStr := fun _ => some 239,
    GetTransaction := fun _ => [exampleLargeRecord] }

/-- What `GetTransaction` answers for transaction `"ab"` in that wallet. -/
def exampleTransactionResult : GetTransactionResult :=
  { Amount := -30, Fee := 10, Confirmations := 0, BlockHash := "", BlockIndex := 0,
    BlockTime := 0, TxID := "ab", WalletConflicts := [], Time := 1400000000,
    TimeReceived := 1400000000,
    Details :=
      [{ Account := "a", Address := "change", Category := "send", Amount := -70, Fee := 10 },
       { Account := "a", Address := "own", Category := "receive", Amount := 30, Fee := 0 },
       { Account := "b", Address := "other", Category := "receive", Amount := 40, Fee := 0 }],
    Hex := "0100" }

/-! ## A request whose handler fails at run time -/

/-- Modelled from the spec: the lock state of the wallets, kept by the account
manager, which is not part of these sources. The wallets are one lock flag
(`UnlockWallets` with the right passphrase clears it, `LockWallets` sets it,
`IsLocked` reads it); with it go the clock, in seconds, and the times at which
the goroutines started by `WalletPassphrase` end their sleep. -/
structure LockState where
  now : Nat
  locked : Bool
  relocks : List Nat
  deriving DecidableEq

/-- The wallets at start-up: locked, and no goroutine asleep. -/
def LockState.init : LockState := { now := 0, locked := true, relocks := [] }

/-- The goroutines of `WalletPassphrase` whose sleep is over run: each grabs
the account manager, calls `LockWallets` and releases. -/
def relockDue (s : LockState) : LockState :=
  if s.relocks.any (fun t => decide (t ≤ s.now)) then
    { s with locked := true, relocks := s.relocks.filter (fun t => decide (s.now < t)) }
  else s

/-- The function `WalletPassphrase`, on a command of its type: `unlockErr` is
the text of the error of `UnlockWallets(cmd.Passphrase)` (`none` is nil, the
passphrase is accepted), `timeout` is `cmd.Timeout` (a timeout below zero
sleeps for no time, as zero does). With the passphrase accepted a goroutine is
started that sleeps for `timeout` seconds and then locks the wallets; nothing
is done to the goroutines started before. -/
def WalletPassphrase (s : LockState) (unlockErr : Option String) (timeout : Nat) :
    LockState × (Option Unit × Option JsonError) :=
  match unlockErr with
  | some msg => (s, (none, some { Code := ErrWalletCode, Message := msg }))
  | none =>
    ({ s with locked := false, relocks := (s.now + timeout) :: s.relocks }, (none, none))

/-- The function `WalletLock`, when `LockWallets` succeeds. -/
def WalletLock (s : LockState) : LockState := { s with locked := true }

/-- The function `WalletIsLocked`, for an account that exists. -/
def WalletIsLocked (s : LockState) : Bool := s.locked

/-- What happens to the wallet lock: a request, or a second passing. -/
inductive LockEvent
  | walletpassphrase (unlockErr : Option String) (timeout : Nat)
  | walletlock
  | second
  deriving DecidableEq

/-- One event: a request is handled, or the clock advances by a second; the
goroutines whose sleep is over run after it. -/
def lockStep (s : LockState) : LockEvent → LockState
  | .walletpassphrase unlockErr timeout => relockDue (WalletPassphrase s unlockErr timeout).1
  | .walletlock => relockDue (WalletLock s)
  | .second => relockDue { s with now := s.now + 1 }

/-- A sequence of events, from a state. -/
def lockRun (s : LockState) (evs : List LockEvent) : LockState :=
  evs.foldl lockStep s

/-! # Theorems -/

/-! ## Dispatch tables -/

theorem lookup_isSome_iff_mem_keys (t : List (String × Handler)) (m : String) :
    (t.lookup m).isSome = true ↔ m ∈ tableKeys t := by
  induction t with
  | nil => simp [tableKeys]
  | cons p t ih =>
    obtain ⟨k, h⟩ := p
    by_cases hk : m = k
    · subst hk
      simp [List.lookup, tableKeys]
    · have hb : (m == k) = false := by simpa using hk
      simp only [List.lookup, hb, tableKeys, List.map_cons, List.mem_cons, hk, false_or]
      unfold tableKeys at ih
      exact ih

/-- The gateway's test `std || ext` is membership in the keys of one of the tables. -/
theorem known_iff_mem_keys (m : String) :
    ((rpcHandlers.lookup m).isSome || (wsHandlers.lookup m).isSome) = true ↔
      (m ∈ tableKeys rpcHandlers ∨ m ∈ tableKeys wsHandlers) := by
  rw [Bool.or_eq_true, lookup_isSome_iff_mem_keys, lookup_isSome_iff_mem_keys]

/-! ## The gateway step on a client request -/

/-- The gateway step on a request of a known method. -/
theorem gatewayClientRequest_known {W : Type} (s : ServerState W) (r : ClientRequest)
    (h : r.request.method ∈ tableKeys rpcHandlers ∨ r.request.method ∈ tableKeys wsHandlers) :
    gatewayClientRequest s r =
      if s.requestQueue.length < requestQueueCap then
        { s with requestQueue := s.requestQueue ++ [r], gwTrace := s.gwTrace ++ [.enqueue r] }
      else
        { s with gwTrace := s.gwTrace ++
            [.respond r.response { Result := none, Error := some ErrServerBusyRaw }] } := by
  have hk := (known_iff_mem_keys r.request.method).2 h
  simp only [gatewayClientRequest, hk, if_true]

/-- The gateway step on a request of an unknown method. -/
theorem gatewayClientRequest_unknown {W : Type} (s : ServerState W) (r : ClientRequest)
    (h : ¬(r.request.method ∈ tableKeys rpcHandlers ∨ r.request.method ∈ tableKeys wsHandlers)) :
    gatewayClientRequest s r =
      { s with
        NewJSONID := s.NewJSONID + 1,
        gwTrace := s.gwTrace ++ [.sendRequest
          { request := r.request.SetId (.num s.NewJSONID), response := r.response }] } := by
  have hk : ((rpcHandlers.lookup r.request.method).isSome ||
      (wsHandlers.lookup r.request.method).isSome) = false := by
    rw [← Bool.not_eq_true, known_iff_mem_keys]; exact h
  simp only [gatewayClientRequest, hk, Bool.false_eq_true, if_false]

/-- C1. RPCGateway classification. A request whose method is a key of
`rpcHandlers` or of `wsHandlers` is offered to `requestQueue` (the gateway's
one new effect is the enqueue, or a response to the request's own sink when
the offer is refused) and no id is drawn and nothing is sent upstream; any
other request leaves `requestQueue` unchanged, and the gateway's one new
effect is a `ServerRequest` sent upstream that carries the request with the
same method and parameters, the next id of `NewJSONID` in place of its id, and
the request's own response sink. -/
theorem gateway_classification {W : Type} (s : ServerState W) (r : ClientRequest) :
    ((r.request.method ∈ tableKeys rpcHandlers ∨ r.request.method ∈ tableKeys wsHandlers) →
      (((gatewayClientRequest s r).requestQueue = s.requestQueue ++ [r] ∧
          (gatewayClientRequest s r).gwTrace = s.gwTrace ++ [.enqueue r]) ∨
        ((gatewayClientRequest s r).requestQueue = s.requestQueue ∧
          ∃ resp, (gatewayClientRequest s r).gwTrace =
            s.gwTrace ++ [.respond r.response resp])) ∧
      (gatewayClientRequest s r).NewJSONID = s.NewJSONID) ∧
    (¬(r.request.method ∈ tableKeys rpcHandlers ∨ r.request.method ∈ tableKeys wsHandlers) →
      (gatewayClientRequest s r).gwTrace = s.gwTrace ++ [.sendRequest
        { request := { method := r.request.method, id := .num s.NewJSONID,
                       params := r.request.params },
          response := r.response }] ∧
      (gatewayClientRequest s r).requestQueue = s.requestQueue ∧
      (gatewayClientRequest s r).NewJSONID = s.NewJSONID + 1) := by
  refine ⟨fun h => ?_, fun h => ?_⟩
  · rw [gatewayClientRequest_known s r h]
    by_cases hl : s.requestQueue.length < requestQueueCap
    · simp [hl]
    · simp [hl]
  · rw [gatewayClientRequest_unknown s r h]
    simp [Cmd.SetId]

/-- Witness for C1: `getbalance` is enqueued locally, `getblockcount` is sent
upstream with id 0 and the client's sink. -/
theorem gateway_classification_witness :
    (((gatewayClientRequest (ServerState.init ()) exampleKnownRequest).requestQueue =
          (ServerState.init ()).requestQueue ++ [exampleKnownRequest] ∧
        (gatewayClientRequest (ServerState.init ()) exampleKnownRequest).gwTrace =
          (ServerState.init ()).gwTrace ++ [.enqueue exampleKnownRequest]) ∨
      ((gatewayClientRequest (ServerState.init ()) exampleKnownRequest).requestQueue =
          (ServerState.init ()).requestQueue ∧
        ∃ resp, (gatewayClientRequest (ServerState.init ()) exampleKnownRequest).gwTrace =
          (ServerState.init ()).gwTrace ++ [.respond exampleKnownRequest.response resp])) ∧
    (gatewayClientRequest (ServerState.init ()) exampleUnknownRequest).gwTrace =
      (ServerState.init ()).gwTrace ++ [.sendRequest
        { request := { method := "getblockcount", id := .num 0, params := "[]" },
          response := 2 }] :=
  ⟨((gateway_classification (ServerState.init ()) exampleKnownRequest).1
      (Or.inl (by decide))).1,
   ((gateway_classification (ServerState.init ()) exampleUnknownRequest).2 (by decide)).1⟩

/-- C2. Admission control. For a request of a known method: when
`requestQueue` holds 100 entries the gateway step (a total function: the offer
is a `select` with a `default` branch) leaves the queue unchanged and its one
new effect is a response to the request's sink with `Error` the raw bytes of
`ErrServerBusyRaw` and no `Result`; when the queue holds fewer than 100
entries the request is appended at the tail and the one new effect is the
enqueue, so no response is written. The raw bytes are those of
`{"code":-32000,"message":"Server busy"}`. -/
theorem gateway_admission_control {W : Type} (s : ServerState W) (r : ClientRequest)
    (hknown : r.request.method ∈ tableKeys rpcHandlers ∨
      r.request.method ∈ tableKeys wsHandlers) :
    (s.requestQueue.length = 100 →
      (gatewayClientRequest s r).requestQueue = s.requestQueue ∧
      (gatewayClientRequest s r).gwTrace = s.gwTrace ++
        [.respond r.response { Result := none, Error := some ErrServerBusyRaw }] ∧
      countResponses (gatewayClientRequest s r).gwTrace = countResponses s.gwTrace + 1) ∧
    (s.requestQueue.length < 100 →
      (gatewayClientRequest s r).requestQueue = s.requestQueue ++ [r] ∧
      (gatewayClientRequest s r).gwTrace = s.gwTrace ++ [.enqueue r] ∧
      countResponses (gatewayClientRequest s r).gwTrace = countResponses s.gwTrace) ∧
    ErrServerBusyRaw.toList.map Char.toNat =
      [123, 34, 99, 111, 100, 101, 34, 58, 45, 51, 50, 48, 48, 48, 44, 34, 109, 101, 115,
       115, 97, 103, 101, 34, 58, 34, 83, 101, 114, 118, 101, 114, 32, 98, 117, 115, 121,
       34, 125] := by
  refine ⟨fun h => ?_, fun h => ?_, by decide⟩
  · rw [gatewayClientRequest_known s r hknown]
    simp [requestQueueCap, h, countResponses, List.countP_append]
  · rw [gatewayClientRequest_known s r hknown]
    simp [requestQueueCap, h, countResponses, List.countP_append]

/-- Witness for C2: the 101st `getbalance` request is refused, the first one
is enqueued. -/
theorem gateway_admission_control_witness :
    ((gatewayClientRequest exampleFullSystem exampleKnownRequest).requestQueue =
        exampleFullSystem.requestQueue ∧
      (gatewayClientRequest exampleFullSystem exampleKnownRequest).gwTrace =
        exampleFullSystem.gwTrace ++
          [.respond exampleKnownRequest.response
            { Result := none, Error := some ErrServerBusyRaw }] ∧
      countResponses (gatewayClientRequest exampleFullSystem exampleKnownRequest).gwTrace =
        countResponses exampleFullSystem.gwTrace + 1) ∧
    ((gatewayClientRequest (ServerState.init ()) exampleKnownRequest).requestQueue =
        (ServerState.init ()).requestQueue ++ [exampleKnownRequest] ∧
      (gatewayClientRequest (ServerState.init ()) exampleKnownRequest).gwTrace =
        (ServerState.init ()).gwTrace ++ [.enqueue exampleKnownRequest] ∧
      countResponses (gatewayClientRequest (ServerState.init ()) exampleKnownRequest).gwTrace =
        countResponses (ServerState.init ()).gwTrace) :=
  ⟨(gateway_admission_control exampleFullSystem exampleKnownRequest (Or.inl (by decide))).1
      (by simp [exampleFullSystem]),
   (gateway_admission_control (ServerState.init ()) exampleKnownRequest (Or.inl (by decide))).2.1
      (by decide)⟩

/-! ## Schedules -/

theorem run_append {W V : Type} (env : Env W V) (s : ServerState W) (es fs : List Event) :
    run env s (es ++ fs) = (run env s es).bind (fun s' => run env s' fs) := by
  induction es generalizing s with
  | nil => simp [run]
  | cons e es ih =>
    simp only [List.cons_append, run]
    by_cases hf : s.failed = true
    · simp [hf]
    · simp only [hf, Bool.false_eq_true, if_false]
      cases step env s e with
      | none => simp
      | some s' => simp [ih]

theorem run_snoc {W V : Type} (env : Env W V) (s : ServerState W) (es : List Event) (e : Event) :
    run env s (es ++ [e]) =
      (run env s es).bind (fun s' => if s'.failed then none else step env s' e) := by
  rw [run_append]
  cases run env s es with
  | none => simp
  | some s' =>
    simp only [Option.some_bind, run]
    by_cases hf : s'.failed = true
    · simp [hf]
    · simp only [hf, Bool.false_eq_true, if_false]
      cases step env s' e <;> simp

/-- A step of a schedule that runs starts in a state that has not failed. -/
theorem run_snoc_some {W V : Type} (env : Env W V) (s s₁ s₂ : ServerState W)
    (es : List Event) (e : Event) (h₁ : run env s es = some s₁)
    (h₂ : run env s (es ++ [e]) = some s₂) :
    s₁.failed = false ∧ step env s₁ e = some s₂ := by
  rw [run_snoc, h₁, Option.some_bind] at h₂
  by_cases hf : s₁.failed = true
  · simp [hf] at h₂
  · simp only [hf, Bool.false_eq_true, if_false] at h₂
    exact ⟨by simpa using hf, h₂⟩

/-- The request branch of the processor when the handler returns. -/
theorem processRequest_returns {W V : Type} (env : Env W V) (s : ServerState W)
    (r : ClientRequest) (out : (Option V × Option JsonError) × W)
    (h : callHandler env (resolveHandler r.request.method r.ws) r.request s.world = some out) :
    processRequest env s r =
      { s with
        world := out.2,
        procTrace := s.procTrace ++
          [.grab, .invoke (resolveHandler r.request.method r.ws) r.request, .release,
           .respond r.response (encodeResponse env out.1)] } := by
  simp only [processRequest, h]

/-- The request branch of the processor when the handler fails at run time. -/
theorem processRequest_fails {W V : Type} (env : Env W V) (s : ServerState W)
    (r : ClientRequest)
    (h : callHandler env (resolveHandler r.request.method r.ws) r.request s.world = none) :
    processRequest env s r =
      { s with
        procTrace := s.procTrace ++
          [.grab, .invoke (resolveHandler r.request.method r.ws) r.request],
        failed := true } := by
  simp only [processRequest, h]

/-- The gateway part of the state is untouched by the processor's request branch. -/
theorem processRequest_gateway {W V : Type} (env : Env W V) (s : ServerState W) (r : ClientRequest) :
    (processRequest env s r).gwTrace = s.gwTrace ∧
    (processRequest env s r).ntfnQueue = s.ntfnQueue ∧
    (processRequest env s r).requestQueue = s.requestQueue := by
  cases hc : callHandler env (resolveHandler r.request.method r.ws) r.request s.world with
  | none => rw [processRequest_fails env s r hc]; exact ⟨rfl, rfl, rfl⟩
  | some out => rw [processRequest_returns env s r out hc]; exact ⟨rfl, rfl, rfl⟩

/-- The gateway part of the state is untouched by the processor's notification branch. -/
theorem processNtfn_gateway {W V : Type} (env : Env W V) (s : ServerState W) (n : Cmd) :
    (processNtfn env s n).gwTrace = s.gwTrace ∧
    (processNtfn env s n).ntfnQueue = s.ntfnQueue ∧
    (processNtfn env s n).requestQueue = s.requestQueue := by
  unfold processNtfn
  cases env.notificationHandlers n.method <;> simp

/-- A client request changes neither the pending notifications nor the
notifications handed over so far. -/
theorem gatewayClientRequest_ntfns {W : Type} (s : ServerState W) (r : ClientRequest) :
    (gatewayClientRequest s r).ntfnQueue = s.ntfnQueue ∧
    handedOver (gatewayClientRequest s r).gwTrace = handedOver s.gwTrace := by
  by_cases hk : r.request.method ∈ tableKeys rpcHandlers ∨ r.request.method ∈ tableKeys wsHandlers
  · rw [gatewayClientRequest_known s r hk]
    split <;> simp [handedOver, List.filterMap_append]
  · rw [gatewayClientRequest_unknown s r hk]
    simp [handedOver, List.filterMap_append]

/-- One step keeps the notification bookkeeping: handed over, then pending,
grows by exactly the notification received in that step. -/
theorem step_ntfns {W V : Type} (env : Env W V) (s s' : ServerState W) (e : Event)
    (h : step env s e = some s') :
    handedOver s'.gwTrace ++ s'.ntfnQueue =
      handedOver s.gwTrace ++ s.ntfnQueue ++ receivedNtfns [e] := by
  cases e with
  | clientRequest r =>
    simp only [step, Option.some.injEq] at h
    subst h
    simp [(gatewayClientRequest_ntfns s r).1, (gatewayClientRequest_ntfns s r).2, receivedNtfns]
  | svrNtfn n =>
    simp only [step, Option.some.injEq] at h
    subst h
    simp [gatewaySvrNtfn, receivedNtfns]
  | dequeue =>
    simp only [step] at h
    cases hq : s.requestQueue with
    | nil => simp [hq] at h
    | cons r rest =>
      simp only [hq, Option.some.injEq] at h
      subst h
      simp [(processRequest_gateway env _ r).1, (processRequest_gateway env _ r).2.1,
        receivedNtfns]
  | handOver =>
    simp only [step] at h
    cases hq : s.ntfnQueue with
    | nil => simp [hq] at h
    | cons n rest =>
      simp only [hq, Option.some.injEq] at h
      subst h
      simp [(processNtfn_gateway env _ n).1, (processNtfn_gateway env _ n).2.1,
        receivedNtfns, handedOver, List.filterMap_append]

/-- C3. Upstream notifications are delivered FIFO and never dropped. In every
state reachable from start-up by any schedule (client requests, upstream
notifications, processor dequeues and hand-overs, interleaved in any way), the
notifications already handed over `handleNtfn` followed by the pending
`ntfnQueue` are exactly the notifications received from `svrNtfns`, in the
order received. -/
theorem notifications_fifo_never_dropped {W V : Type} (env : Env W V) (w : W)
    (evs : List Event) (s : ServerState W) (h : run env (ServerState.init w) evs = some s) :
    handedOver s.gwTrace ++ s.ntfnQueue = receivedNtfns evs := by
  induction evs using List.reverseRecOn generalizing s with
  | nil =>
    simp only [run, Option.some.injEq] at h
    subst h
    simp [ServerState.init, handedOver, receivedNtfns]
  | append_singleton es e ih =>
    cases hr : run env (ServerState.init w) es with
    | none => simp [run_snoc, hr] at h
    | some s₁ =>
      have hstep := (run_snoc_some env _ s₁ s es e hr h).2
      rw [step_ntfns env s₁ s e hstep, ih s₁ hr]
      simp [receivedNtfns, List.filterMap_append]

/-- Witness for C3: two notifications arrive around a client request, the
first is handed over, the second is still pending. -/
theorem notifications_fifo_never_dropped_witness :
    ∃ s, run exampleEnv (ServerState.init true) exampleSchedule = some s ∧
      handedOver s.gwTrace ++ s.ntfnQueue = receivedNtfns exampleSchedule ∧
      handedOver s.gwTrace = [exampleNtfn] ∧ s.ntfnQueue = [exampleUnhandledNtfn] :=
  ⟨_, rfl, notifications_fifo_never_dropped exampleEnv true exampleSchedule _ rfl,
    by decide, by decide⟩

/-! ## The processor's request branch -/

/-- C6, as stated, fails: the request `walletislocked` arriving on a
connection that is not a websocket (a method of `wsHandlers` only) is enqueued
into the local request queue; nothing is sent upstream and no id is drawn. -/
theorem gateway_wsonly_plain_connection_enqueued :
    exampleWsOnlyRequest.request.method ∈ tableKeys wsHandlers ∧
    exampleWsOnlyRequest.request.method ∉ tableKeys rpcHandlers ∧
    exampleWsOnlyRequest.ws = false ∧
    (gatewayClientRequest (ServerState.init ()) exampleWsOnlyRequest).requestQueue =
      [exampleWsOnlyRequest] ∧
    (gatewayClientRequest (ServerState.init ()) exampleWsOnlyRequest).gwTrace =
      [.enqueue exampleWsOnlyRequest] ∧
    (∀ q, Effect.sendRequest q ∉
      (gatewayClientRequest (ServerState.init ()) exampleWsOnlyRequest).gwTrace) ∧
    (gatewayClientRequest (ServerState.init ()) exampleWsOnlyRequest).NewJSONID = 0 := by
  refine ⟨by decide, by decide, rfl, by decide, by decide, ?_, by decide⟩
  intro q hq
  have h : (gatewayClientRequest (ServerState.init ()) exampleWsOnlyRequest).gwTrace =
      [.enqueue exampleWsOnlyRequest] := by decide
  rw [h] at hq
  simp at hq

/-- C6, amended. For every client request whose method is in the
websocket-only table and not in the standard table, and whose connection is
not a websocket, the gateway does not forward the request upstream (no id is
drawn, no `ServerRequest` is sent): it offers it to the local request queue
like any known method, appending it when fewer than 100 entries are pending
and answering "server busy" on its sink otherwise. -/
theorem gateway_wsonly_offered_locally {W : Type} (s : ServerState W) (r : ClientRequest)
    (hext : r.request.method ∈ tableKeys wsHandlers)
    (_hstd : r.request.method ∉ tableKeys rpcHandlers) (_hws : r.ws = false) :
    (gatewayClientRequest s r).NewJSONID = s.NewJSONID ∧
    (∀ q, Effect.sendRequest q ∈ (gatewayClientRequest s r).gwTrace →
      Effect.sendRequest q ∈ s.gwTrace) ∧
    (s.requestQueue.length < 100 →
      (gatewayClientRequest s r).requestQueue = s.requestQueue ++ [r] ∧
      (gatewayClientRequest s r).gwTrace = s.gwTrace ++ [.enqueue r]) ∧
    (¬ s.requestQueue.length < 100 →
      (gatewayClientRequest s r).requestQueue = s.requestQueue ∧
      (gatewayClientRequest s r).gwTrace = s.gwTrace ++
        [.respond r.response { Result := none, Error := some ErrServerBusyRaw }]) := by
  rw [gatewayClientRequest_known s r (Or.inr hext)]
  by_cases hl : s.requestQueue.length < 100
  · simp [requestQueueCap, hl]
  · simp [requestQueueCap, hl]

/-- Witness for C6, amended: `walletislocked` on a plain connection. -/
theorem gateway_wsonly_offered_locally_witness :
    (gatewayClientRequest (ServerState.init ()) exampleWsOnlyRequest).requestQueue =
        (ServerState.init ()).requestQueue ++ [exampleWsOnlyRequest] ∧
    (gatewayClientRequest (ServerState.init ()) exampleWsOnlyRequest).gwTrace =
        (ServerState.init ()).gwTrace ++ [.enqueue exampleWsOnlyRequest] :=
  (gateway_wsonly_offered_locally (ServerState.init ()) exampleWsOnlyRequest
    (by decide) (by decide) rfl).2.2.1 (by decide)

/-! ## Request accounting -/

/-- The notification branch of the processor invokes no request handler. -/
theorem processNtfn_countInvocations {W V : Type} (env : Env W V) (s : ServerState W) (n : Cmd) :
    countInvocations (processNtfn env s n).procTrace = countInvocations s.procTrace := by
  unfold processNtfn
  cases env.notificationHandlers n.method with
  | none => rfl
  | some f =>
    simp only [afterNtfn]
    cases (f n s.world).1 with
    | none => simp [countInvocations, List.countP_append, List.countP_cons]
    | some err =>
      cases err with
      | ErrInconsistentStore =>
        by_cases hb : env.isBtcdRPCConn (f n s.world).2 = true <;>
          simp [hb, countInvocations, List.countP_append, List.countP_cons]
      | other msg => simp [countInvocations, List.countP_append, List.countP_cons]

/-- One step keeps the books: a request of a known method is either enqueued
or refused as busy, and every enqueued request is either still queued or has
had its handler invoked. -/
theorem step_accounting {W V : Type} (env : Env W V) (s s' : ServerState W) (e : Event)
    (hknown : ∀ r ∈ receivedRequests [e],
      r.request.method ∈ tableKeys rpcHandlers ∨ r.request.method ∈ tableKeys wsHandlers)
    (h : step env s e = some s') :
    countEnqueued s'.gwTrace + countBusy s'.gwTrace =
      countEnqueued s.gwTrace + countBusy s.gwTrace + (receivedRequests [e]).length ∧
    (countEnqueued s.gwTrace = countInvocations s.procTrace + s.requestQueue.length →
      countEnqueued s'.gwTrace = countInvocations s'.procTrace + s'.requestQueue.length) := by
  cases e with
  | clientRequest r =>
    simp only [step, Option.some.injEq] at h
    subst h
    have hk := hknown r (by simp [receivedRequests])
    rw [gatewayClientRequest_known s r hk]
    by_cases hl : s.requestQueue.length < requestQueueCap
    · simp only [hl, if_true]
      constructor
      · simp [countEnqueued, countBusy, receivedRequests, List.countP_append]
        omega
      · intro hinv
        simp [countEnqueued, List.countP_append] at hinv ⊢
        omega
    · simp only [hl, if_false]
      constructor
      · simp [countEnqueued, countBusy, receivedRequests, List.countP_append]
        omega
      · intro hinv
        simp [countEnqueued, List.countP_append] at hinv ⊢
        omega
  | svrNtfn n =>
    simp only [step, Option.some.injEq] at h
    subst h
    simp [gatewaySvrNtfn, receivedRequests]
  | dequeue =>
    simp only [step] at h
    cases hq : s.requestQueue with
    | nil => simp [hq] at h
    | cons r rest =>
      simp only [hq, Option.some.injEq] at h
      subst h
      constructor
      · simp [(processRequest_gateway env _ r).1, receivedRequests]
      · intro hinv
        rw [(processRequest_gateway env _ r).1, (processRequest_gateway env _ r).2.2]
        have hc : countInvocations (processRequest env
            { s with requestQueue := rest } r).procTrace = countInvocations s.procTrace + 1 := by
          cases hh : callHandler env (resolveHandler r.request.method r.ws) r.request
              s.world with
          | none =>
            rw [processRequest_fails env { s with requestQueue := rest } r hh]
            simp [countInvocations, List.countP_append, List.countP_cons]
          | some out =>
            rw [processRequest_returns env { s with requestQueue := rest } r out hh]
            simp [countInvocations, List.countP_append, List.countP_cons]
        rw [hc]
        simp only [List.length_cons] at hinv ⊢
        omega
  | handOver =>
    simp only [step] at h
    cases hq : s.ntfnQueue with
    | nil => simp [hq] at h
    | cons n rest =>
      simp only [hq, Option.some.injEq] at h
      subst h
      rw [processNtfn_countInvocations, (processNtfn_gateway env _ n).1,
        (processNtfn_gateway env _ n).2.2]
      constructor
      · simp [countEnqueued, countBusy, receivedRequests, List.countP_append]
      · intro hinv
        simp [countEnqueued, List.countP_append] at hinv ⊢
        omega

/-- C7. Request accounting. For every schedule of gateway and processor steps
whose client requests all have a known method, every state reachable from
start-up satisfies: requests received = requests enqueued + "server busy"
responses, and requests enqueued = handler invocations + current length of
`requestQueue`; hence, once the queue has drained, the number of handler
invocations is the number of requests minus the number of "server busy"
responses. -/
theorem request_accounting {W V : Type} (env : Env W V) (w : W) (evs : List Event)
    (s : ServerState W)
    (hknown : ∀ r ∈ receivedRequests evs,
      r.request.method ∈ tableKeys rpcHandlers ∨ r.request.method ∈ tableKeys wsHandlers)
    (h : run env (ServerState.init w) evs = some s) :
    (receivedRequests evs).length = countEnqueued s.gwTrace + countBusy s.gwTrace ∧
    countEnqueued s.gwTrace = countInvocations s.procTrace + s.requestQueue.length ∧
    (s.requestQueue = [] →
      countInvocations s.procTrace = (receivedRequests evs).length - countBusy s.gwTrace) := by
  have main : (receivedRequests evs).length = countEnqueued s.gwTrace + countBusy s.gwTrace ∧
      countEnqueued s.gwTrace = countInvocations s.procTrace + s.requestQueue.length := by
    induction evs using List.reverseRecOn generalizing s with
    | nil =>
      simp only [run, Option.some.injEq] at h
      subst h
      simp [ServerState.init, receivedRequests, countEnqueued, countBusy, countInvocations]
    | append_singleton es e ih =>
      cases hr : run env (ServerState.init w) es with
      | none => simp [run_snoc, hr] at h
      | some s₁ =>
        have h := (run_snoc_some env _ s₁ s es e hr h).2
        have hes : ∀ r ∈ receivedRequests es,
            r.request.method ∈ tableKeys rpcHandlers ∨
              r.request.method ∈ tableKeys wsHandlers := by
          intro r hr'
          apply hknown r
          simp only [receivedRequests, List.filterMap_append, List.mem_append]
          exact Or.inl hr'
        have he : ∀ r ∈ receivedRequests [e],
            r.request.method ∈ tableKeys rpcHandlers ∨
              r.request.method ∈ tableKeys wsHandlers := by
          intro r hr'
          apply hknown r
          simp only [receivedRequests, List.filterMap_append, List.mem_append]
          exact Or.inr hr'
        obtain ⟨ih1, ih2⟩ := ih s₁ hes hr
        obtain ⟨st1, st2⟩ := step_accounting env s₁ s e he h
        refine ⟨?_, st2 ih2⟩
        have hlen : (receivedRequests (es ++ [e])).length =
            (receivedRequests es).length + (receivedRequests [e]).length := by
          simp [receivedRequests, List.filterMap_append]
        omega
  refine ⟨main.1, main.2, fun hq => ?_⟩
  have h1 := main.1
  have h2 := main.2
  rw [hq] at h2
  simp only [List.length_nil] at h2
  omega

/-- Witness for C7: in the example schedule one request arrives, is enqueued
and handled; the queue is empty again and one handler ran. -/
theorem request_accounting_witness :
    ∃ s, run exampleEnv (ServerState.init true) exampleSchedule = some s ∧
      (receivedRequests exampleSchedule).length = countEnqueued s.gwTrace + countBusy s.gwTrace ∧
      countEnqueued s.gwTrace = countInvocations s.procTrace + s.requestQueue.length ∧
      countInvocations s.procTrace = 1 :=
  ⟨_, rfl,
    (request_accounting exampleEnv true exampleSchedule _ (by decide) rfl).1,
    (request_accounting exampleEnv true exampleSchedule _ (by decide) rfl).2.1,
    by decide⟩

/-! ## The processor's notification branch -/

theorem specPresent_snoc (pre : List SyncMsg) (msg : SyncMsg) (x : ShaHash) :
    specPresent (pre ++ [msg]) x =
      match msg with
      | .add y => if y = x then true else specPresent pre x
      | .remove y => if y = x then false else specPresent pre x
      | .done _ => specPresent pre x := by
  unfold specPresent
  rw [List.reverse_append, List.reverse_singleton, List.singleton_append, List.find?_cons]
  cases msg with
  | add y => by_cases h : y = x <;> simp [h]
  | remove y => by_cases h : y = x <;> simp [h]
  | done y => simp

theorem specFired_snoc (pre : List SyncMsg) (msg : SyncMsg) (x : ShaHash) :
    specFired (pre ++ [msg]) x =
      match msg with
      | .add y => if y = x then false else specFired pre x
      | .remove y => if y = x then false else specFired pre x
      | .done y => if y = x then specPresent pre x else specFired pre x := by
  unfold specFired
  rw [specPresent_snoc, List.reverse_append, List.reverse_singleton, List.singleton_append,
    List.takeWhile_cons]
  cases msg with
  | add y => by_cases h : y = x <;> simp [h]
  | remove y => by_cases h : y = x <;> simp [h]
  | done y =>
    by_cases h : y = x
    · simp [h]
    · have h' : ¬ x = y := fun e => h e.symm
      simp [h, h']

theorem syncStep_agrees (s : SyncState) (pre : List SyncMsg) (msg : SyncMsg)
    (hinv : SyncInv s) (hag : SyncAgrees s pre)
    (hdone : ∀ x, msg = .done x → specFired pre x = false) :
    ∃ s', syncStep s msg = some s' ∧ SyncInv s' ∧ SyncAgrees s' (pre ++ [msg]) := by
  obtain ⟨hbound, hinj⟩ := hinv
  cases msg with
  | add y =>
    refine ⟨_, rfl, ⟨?_, ?_⟩, ?_⟩
    · intro h c hc
      simp only [List.length_append, List.length_singleton]
      by_cases hy : h = y
      · simp only [hy, if_true, Option.some.injEq] at hc
        omega
      · simp only [hy, if_false] at hc
        have := hbound h c hc
        omega
    · intro h₁ h₂ c h1 h2
      by_cases hy1 : h₁ = y <;> by_cases hy2 : h₂ = y
      · rw [hy1, hy2]
      · simp only [hy1, if_true, Option.some.injEq] at h1
        simp only [hy2, if_false] at h2
        have := hbound h₂ c h2
        omega
      · simp only [hy2, if_true, Option.some.injEq] at h2
        simp only [hy1, if_false] at h1
        have := hbound h₁ c h1
        omega
      · simp only [hy1, if_false] at h1
        simp only [hy2, if_false] at h2
        exact hinj h₁ h₂ c h1 h2
    · intro x
      rw [specPresent_snoc, specFired_snoc]
      by_cases hy : y = x
      · subst hy
        simp [syncAccess, signalFired]
      · have hxy : ¬ x = y := fun h => hy h.symm
        obtain ⟨h1, h2⟩ := hag x
        simp only [syncAccess, signalFired] at h1 h2
        simp only [syncAccess, signalFired, hxy, hy, if_false, h1]
        refine ⟨trivial, ?_⟩
        rw [← h2]
        cases hm : s.m x with
        | none => rfl
        | some c =>
          have hc := hbound x c hm
          simp [List.getElem?_append_left hc]
  | remove y =>
    refine ⟨_, rfl, ⟨?_, ?_⟩, ?_⟩
    · intro h c hc
      by_cases hy : h = y
      · simp [hy] at hc
      · simp only [hy, if_false] at hc
        exact hbound h c hc
    · intro h₁ h₂ c h1 h2
      by_cases hy1 : h₁ = y
      · simp [hy1] at h1
      · by_cases hy2 : h₂ = y
        · simp [hy2] at h2
        · simp only [hy1, if_false] at h1
          simp only [hy2, if_false] at h2
          exact hinj h₁ h₂ c h1 h2
    · intro x
      rw [specPresent_snoc, specFired_snoc]
      by_cases hy : y = x
      · subst hy
        simp [syncAccess, signalFired]
      · have hxy : ¬ x = y := fun h => hy h.symm
        obtain ⟨h1, h2⟩ := hag x
        simp only [syncAccess, signalFired] at h1 h2
        simp only [syncAccess, signalFired, hxy, hy, if_false, h1]
        exact ⟨trivial, h2⟩
  | done y =>
    have hnf := hdone y rfl
    cases hm : s.m y with
    | none =>
      refine ⟨s, by simp [syncStep, hm], ⟨hbound, hinj⟩, ?_⟩
      intro x
      rw [specPresent_snoc, specFired_snoc]
      obtain ⟨h1, h2⟩ := hag x
      refine ⟨h1, ?_⟩
      by_cases hy : y = x
      · subst hy
        simp only [if_true]
        rw [← h1]
        simp [syncAccess, signalFired, hm]
      · simp only [hy, if_false]
        exact h2
    | some c =>
      have hc := hbound y c hm
      have hopen : s.chans[c]? = some false := by
        have h2 := (hag y).2
        rw [hnf] at h2
        simp only [syncAccess, signalFired, hm, decide_eq_false_iff_not] at h2
        rw [List.getElem?_eq_getElem hc] at h2 ⊢
        cases hv : s.chans[c] with
        | false => rfl
        | true => simp [hv] at h2
      refine ⟨{ s with chans := s.chans.set c true }, ?_, ⟨?_, hinj⟩, ?_⟩
      · simp [syncStep, hm, closeChan, hopen]
      · intro h c' hc'
        simp only [List.length_set]
        exact hbound h c' hc'
      · intro x
        rw [specPresent_snoc, specFired_snoc]
        obtain ⟨h1, h2⟩ := hag x
        refine ⟨h1, ?_⟩
        by_cases hy : y = x
        · subst hy
          simp only [if_true]
          rw [← h1]
          simp [syncAccess, signalFired, hm, List.getElem?_set_self hc]
        · simp only [hy, if_false]
          rw [← h2]
          simp only [syncAccess, signalFired]
          cases hmx : s.m x with
          | none => rfl
          | some c' =>
            have hne : c ≠ c' := by
              intro hcc
              subst hcc
              exact hy (hinj y x c hm hmx)
            simp [List.getElem?_set_ne hne]

theorem syncRun_agrees (msgs : List SyncMsg) (s : SyncState) (pre : List SyncMsg)
    (hinv : SyncInv s) (hag : SyncAgrees s pre) (hok : noDoneOnFired pre msgs = true) :
    ∃ s', syncRun s msgs = some s' ∧ SyncInv s' ∧ SyncAgrees s' (pre ++ msgs) := by
  induction msgs generalizing s pre with
  | nil => exact ⟨s, rfl, hinv, by simpa using hag⟩
  | cons msg msgs ih =>
    have hdone : ∀ x, msg = .done x → specFired pre x = false := by
      intro x hx
      subst hx
      simp only [noDoneOnFired, Bool.and_eq_true, Bool.not_eq_true'] at hok
      exact hok.1
    have hrest : noDoneOnFired (pre ++ [msg]) msgs = true := by
      cases msg with
      | add y => simpa [noDoneOnFired] using hok
      | remove y => simpa [noDoneOnFired] using hok
      | done y =>
        simp only [noDoneOnFired, Bool.and_eq_true] at hok
        exact hok.2
    obtain ⟨s₁, hs₁, hinv₁, hag₁⟩ := syncStep_agrees s pre msg hinv hag hdone
    obtain ⟨s', hs', hinv', hag'⟩ := ih s₁ (pre ++ [msg]) hinv₁ hag₁ hrest
    refine ⟨s', ?_, hinv', ?_⟩
    · simp [syncRun, hs₁, hs']
    · simpa using hag'

theorem syncInit_inv : SyncInv SyncState.init ∧ SyncAgrees SyncState.init [] := by
  refine ⟨⟨?_, ?_⟩, ?_⟩
  · intro h c hc
    simp [SyncState.init] at hc
  · intro h₁ h₂ c hc
    simp [SyncState.init] at hc
  · intro x
    simp [SyncState.init, syncAccess, signalFired, specPresent, specFired]

/-- C9, as stated, fails: a second done message for an entry that is present
and already completed closes a closed channel, which is a runtime failure of
the registry loop. -/
theorem sync_done_twice_runtime_failure :
    (syncRun SyncState.init [.add 1, .done 1]).isSome = true ∧
    syncRun SyncState.init [.add 1, .done 1, .done 1] = none :=
  ⟨rfl, rfl⟩

/-- C9, amended. The send/receive sync registry equals its reference model on
every finite sequence of add/done/remove messages in which no done message
arrives for an entry that is present and already completed: every message of
such a sequence, a done for an absent hash included, is processed without a
runtime failure, and for every hash `x` a query reports present exactly when
the most recent add-or-remove message about `x` was an add, and the signal it
returns has fired exactly when the entry is present and a done message about
`x` came after the most recent add about `x` (done retains the entry, remove
never fires the signal). A further message about another hash is processed
and changes neither the response for `x` nor whether its signal has fired. -/
theorem send_sync_registry_reference (msgs : List SyncMsg) (x : ShaHash)
    (hok : noDoneOnFired [] msgs = true) :
    ∃ s, syncRun SyncState.init msgs = some s ∧
      (syncAccess s x).ok = specPresent msgs x ∧
      signalFired s (syncAccess s x).c = specFired msgs x ∧
      ∀ msg, msg.txsha ≠ x → noDoneOnFired msgs [msg] = true →
        ∃ s', syncStep s msg = some s' ∧ syncAccess s' x = syncAccess s x ∧
          signalFired s' (syncAccess s' x).c = signalFired s (syncAccess s x).c := by
  obtain ⟨s, hs, hinv, hag⟩ :=
    syncRun_agrees msgs SyncState.init [] syncInit_inv.1 syncInit_inv.2 hok
  simp only [List.nil_append] at hag
  refine ⟨s, hs, (hag x).1, (hag x).2, ?_⟩
  intro msg hne hmsg
  have hdone : ∀ y, msg = .done y → specFired msgs y = false := by
    intro y hy
    subst hy
    simp only [noDoneOnFired, Bool.and_eq_true, Bool.not_eq_true'] at hmsg
    exact hmsg.1
  obtain ⟨s', hs', -, hag'⟩ := syncStep_agrees s msgs msg hinv hag hdone
  refine ⟨s', hs', ?_, ?_⟩
  · cases msg with
    | add y =>
      have hxy : ¬ x = y := fun h => hne h.symm
      simp only [syncStep, Option.some.injEq] at hs'
      subst hs'
      simp [syncAccess, hxy]
    | remove y =>
      have hxy : ¬ x = y := fun h => hne h.symm
      simp only [syncStep, Option.some.injEq] at hs'
      subst hs'
      simp [syncAccess, hxy]
    | done y =>
      simp only [syncStep] at hs'
      cases hm : s.m y with
      | none =>
        simp only [hm, Option.some.injEq] at hs'
        subst hs'
        rfl
      | some c =>
        simp only [hm, Option.map_eq_some'] at hs'
        obtain ⟨chans, -, hs'⟩ := hs'
        subst hs'
        rfl
  · rw [(hag' x).2, (hag x).2, specFired_snoc]
    cases msg with
    | add y => simp only [SyncMsg.txsha] at hne; simp [hne]
    | remove y => simp only [SyncMsg.txsha] at hne; simp [hne]
    | done y => simp only [SyncMsg.txsha] at hne; simp [hne]

/-- Witness for C9, amended: hash 1 is added, completed, added again and
removed, hash 2 is added and completed, hash 3 is completed while absent. -/
theorem send_sync_registry_reference_witness :
    ∃ s, syncRun SyncState.init
        [.add 1, .done 1, .add 1, .add 2, .done 3, .done 2, .remove 1] = some s ∧
      (syncAccess s 2).ok = true ∧ signalFired s (syncAccess s 2).c = true :=
  match send_sync_registry_reference
      [.add 1, .done 1, .add 1, .add 2, .done 3, .done 2, .remove 1] 2 (by decide) with
  | ⟨s, h1, h2, h3, _⟩ => ⟨s, h1, h2.trans (by decide), h3.trans (by decide)⟩

/-! ## The send path -/

/-- What the check `onlyAfter` establishes about a trace. -/
theorem onlyAfter_sound (isA isB : SendEffect → Bool) (tr : List SendEffect) (seen : Bool)
    (h : onlyAfter isA isB seen tr = true) (pre : List SendEffect) (b : SendEffect)
    (suf : List SendEffect) (htr : tr = pre ++ b :: suf) (hb : isB b = true) :
    seen = true ∨ ∃ a ∈ pre, isA a = true := by
  induction tr generalizing seen pre with
  | nil => simp at htr
  | cons e es ih =>
    simp only [onlyAfter, Bool.and_eq_true, Bool.or_eq_true, Bool.not_eq_true'] at h
    cases pre with
    | nil =>
      simp only [List.nil_append, List.cons.injEq] at htr
      rw [← htr.1] at hb
      rcases h.1 with h1 | h1
      · rw [hb] at h1
        exact absurd h1 (by decide)
      · exact Or.inl h1
    | cons p pre =>
      simp only [List.cons_append, List.cons.injEq] at htr
      rcases ih (seen || isA e) h.2 pre htr.2 with h1 | ⟨a, ha, haA⟩
      · simp only [Bool.or_eq_true] at h1
        rcases h1 with h1 | h1
        · exact Or.inl h1
        · exact Or.inr ⟨e, by simp [htr.1], h1⟩
      · exact Or.inr ⟨a, by simp [ha], haA⟩

/-- Effects that are neither looked for nor waited for do not change the check. -/
theorem onlyAfter_append_neutral (isA isB : SendEffect → Bool) (xs ys : List SendEffect)
    (seen : Bool) (hA : ∀ x ∈ xs, isA x = false) (hB : ∀ x ∈ xs, isB x = false) :
    onlyAfter isA isB seen (xs ++ ys) = onlyAfter isA isB seen ys := by
  induction xs generalizing seen with
  | nil => rfl
  | cons x xs ih =>
    have hxA := hA x (by simp)
    have hxB := hB x (by simp)
    simp only [List.cons_append, onlyAfter, hxA, hxB, Bool.not_false, Bool.true_or,
      Bool.true_and, Bool.or_false]
    exact ih seen (fun y hy => hA y (by simp [hy])) (fun y hy => hB y (by simp [hy]))

/-- The traces of `handleSendRawTxReply`: it stops at a failed insertion, at a
failed debit record or at a failed conversion of the debits, or it notifies,
sends the done message and goes on to the end. -/
theorem handleSendRawTxReply_trace (o : SendCollaborators) (txIDStr : String)
    (txInfo : CreatedTx) :
    (handleSendRawTxReply o txIDStr txInfo).1 = [.insertTx false] ∨
    (handleSendRawTxReply o txIDStr txInfo).1 = [.insertTx true, .addDebits false] ∨
    (handleSendRawTxReply o txIDStr txInfo).1 =
      [.insertTx true, .addDebits true, .scheduleTxStoreWrite] ∨
    ∃ ltr : List String, (handleSendRawTxReply o txIDStr txInfo).1 =
      .insertTx true :: .addDebits true :: .scheduleTxStoreWrite ::
        (ltr.map SendEffect.notifyNewTxDetails ++
          [.syncDone txInfo.txsha, .flushAccount o.FlushAccount, .notifyWalletBalance,
           .notifyWalletBalanceUnconfirmed]) := by
  unfold handleSendRawTxReply
  cases hI : o.InsertTx
  · simp
  · cases hD : o.AddDebits
    · simp
    · cases hG : o.GetCurBlock
      · exact Or.inr (Or.inr (Or.inr ⟨[], by simp⟩))
      · cases hJ : o.ToJSON with
        | none => simp
        | some ltr => exact Or.inr (Or.inr (Or.inr ⟨ltr, by simp⟩))

/-- Whether an effect is a done message. -/
theorem isSyncDone_notify (ltr : List String) :
    ∀ x ∈ ltr.map SendEffect.notifyNewTxDetails,
      (match x with
        | .syncDone _ => true
        | _ => false) = false := by
  intro x hx
  simp only [List.mem_map] at hx
  obtain ⟨d, -, rfl⟩ := hx
  rfl

/-- In `handleSendRawTxReply` the done message comes after a successful
insertion into the transaction store and a successful debit record. -/
theorem handleSendRawTxReply_done_after (o : SendCollaborators) (txIDStr : String)
    (txInfo : CreatedTx) (seenI seenD : Bool) :
    onlyAfter (fun e => decide (e = .insertTx true))
        (fun e => match e with
          | .syncDone _ => true
          | _ => false) seenI (handleSendRawTxReply o txIDStr txInfo).1 = true ∧
    onlyAfter (fun e => decide (e = .addDebits true))
        (fun e => match e with
          | .syncDone _ => true
          | _ => false) seenD (handleSendRawTxReply o txIDStr txInfo).1 = true := by
  rcases handleSendRawTxReply_trace o txIDStr txInfo with h | h | h | ⟨ltr, h⟩
  · rw [h]; simp [onlyAfter]
  · rw [h]; simp [onlyAfter]
  · rw [h]; simp [onlyAfter]
  · rw [h]
    have hA1 : ∀ x ∈ ltr.map SendEffect.notifyNewTxDetails,
        decide (x = SendEffect.insertTx true) = false := by
      intro x hx
      simp only [List.mem_map] at hx
      obtain ⟨d, -, rfl⟩ := hx
      rfl
    have hA2 : ∀ x ∈ ltr.map SendEffect.notifyNewTxDetails,
        decide (x = SendEffect.addDebits true) = false := by
      intro x hx
      simp only [List.mem_map] at hx
      obtain ⟨d, -, rfl⟩ := hx
      rfl
    simp only [onlyAfter]
    rw [onlyAfter_append_neutral _ _ _ _ _ hA1 (isSyncDone_notify ltr),
      onlyAfter_append_neutral _ _ _ _ _ hA2 (isSyncDone_notify ltr)]
    simp [onlyAfter]

/-- Once the awaited effect has been seen the check cannot fail. -/
theorem onlyAfter_seen (isA isB : SendEffect → Bool) (tr : List SendEffect) :
    onlyAfter isA isB true tr = true := by
  induction tr with
  | nil => rfl
  | cons e es ih => simp [onlyAfter, ih]

/-- No remove message is sent by `handleSendRawTxReply`. -/
theorem handleSendRawTxReply_no_remove (o : SendCollaborators) (txIDStr : String)
    (txInfo : CreatedTx) (h : ShaHash) :
    SendEffect.syncRemove h ∉ (handleSendRawTxReply o txIDStr txInfo).1 := by
  rcases handleSendRawTxReply_trace o txIDStr txInfo with e | e | e | ⟨ltr, e⟩ <;>
    rw [e] <;> simp

/-- The traces of `sendPairs`: nothing when no transaction is created; else
the add message, then a failed flush, or a refused broadcast followed by the
remove message, or an accepted broadcast followed by `handleSendRawTxReply`. -/
theorem sendPairs_trace (o : SendCollaborators) (account : String)
    (amounts : List (String × Int)) (minconf : Int) :
    (sendPairs o account amounts minconf).1 = [] ∨
    ∃ c, o.txToPairs account amounts minconf = .ok c ∧
      ((sendPairs o account amounts minconf).1 =
          [.syncAdd c.txsha, .scheduleWalletWrite, .flushAccount false] ∨
        ∃ sofar, beforeBroadcast c sofar ∧
          ((∃ jsonErr, o.SendRawTransaction c.hextx = .inr jsonErr ∧
              (sendPairs o account amounts minconf).1 =
                sofar ++ [.sendRawTransaction c.hextx false, .syncRemove c.txsha]) ∨
           (∃ txSha, o.SendRawTransaction c.hextx = .inl txSha ∧
              (sendPairs o account amounts minconf).1 =
                sofar ++ .sendRawTransaction c.hextx true ::
                  (handleSendRawTxReply o txSha c).1))) := by
  have hb : ∀ (c : CreatedTx) (sofar : List SendEffect),
      (∃ jsonErr, o.SendRawTransaction c.hextx = .inr jsonErr ∧
          (sendPairsBroadcast o c sofar).1 =
            sofar ++ [.sendRawTransaction c.hextx false, .syncRemove c.txsha]) ∨
        (∃ txSha, o.SendRawTransaction c.hextx = .inl txSha ∧
          (sendPairsBroadcast o c sofar).1 =
            sofar ++ .sendRawTransaction c.hextx true ::
              (handleSendRawTxReply o txSha c).1) := by
    intro c sofar
    unfold sendPairsBroadcast
    cases hs : o.SendRawTransaction c.hextx with
    | inr jsonErr => exact Or.inl ⟨jsonErr, rfl, rfl⟩
    | inl txSha => exact Or.inr ⟨txSha, rfl, by simp⟩
  unfold sendPairs
  cases hA : o.Account account
  · simp
  · cases hT : o.txToPairs account amounts minconf with
    | error err => cases err <;> simp
    | ok c =>
      refine Or.inr ⟨c, rfl, ?_⟩
      simp only [Bool.not_true, Bool.false_eq_true, if_false]
      cases hC : c.changeAddr with
      | none => exact Or.inr ⟨_, Or.inl rfl, hb c _⟩
      | some addr =>
        cases hF : o.FlushAccountChange with
        | some err => exact Or.inl rfl
        | none => exact Or.inr ⟨_, Or.inr ⟨addr, rfl⟩, hb c _⟩

/-- C10. Send path ordering. In every execution of `sendPairs` with
`handleSendRawTxReply`, whatever the collaborators return: (i) every upstream
`sendrawtransaction` call comes after the add message for the hash of the
created transaction; (ii) every done message, also in `handleSendRawTxReply`
taken alone, comes after a successful insertion into the transaction store
and after a successful debit record; (iii) a remove message is sent only for
the hash of the created transaction and only when the broadcast returned an
error, and then no done message is sent and no insertion is attempted. -/
theorem send_path_ordering (o : SendCollaborators) (account : String)
    (amounts : List (String × Int)) (minconf : Int) :
    (∀ pre hextx ok suf,
      (sendPairs o account amounts minconf).1 = pre ++ .sendRawTransaction hextx ok :: suf →
        ∃ c, o.txToPairs account amounts minconf = .ok c ∧ SendEffect.syncAdd c.txsha ∈ pre) ∧
    (∀ pre h suf,
      (sendPairs o account amounts minconf).1 = pre ++ .syncDone h :: suf →
        SendEffect.insertTx true ∈ pre ∧ SendEffect.addDebits true ∈ pre) ∧
    (∀ txIDStr txInfo pre h suf,
      (handleSendRawTxReply o txIDStr txInfo).1 = pre ++ .syncDone h :: suf →
        SendEffect.insertTx true ∈ pre ∧ SendEffect.addDebits true ∈ pre) ∧
    (∀ h, SendEffect.syncRemove h ∈ (sendPairs o account amounts minconf).1 →
      (∃ c jsonErr, o.txToPairs account amounts minconf = .ok c ∧ h = c.txsha ∧
        o.SendRawTransaction c.hextx = .inr jsonErr ∧
        SendEffect.sendRawTransaction c.hextx false ∈
          (sendPairs o account amounts minconf).1) ∧
      (∀ h', SendEffect.syncDone h' ∉ (sendPairs o account amounts minconf).1) ∧
      (∀ ok, SendEffect.insertTx ok ∉ (sendPairs o account amounts minconf).1)) := by
  -- from the checks to the statements about occurrences
  have mem_of_check : ∀ (a : SendEffect) (isB : SendEffect → Bool) (tr : List SendEffect),
      onlyAfter (fun e => decide (e = a)) isB false tr = true →
      ∀ pre b suf, tr = pre ++ b :: suf → isB b = true → a ∈ pre := by
    intro a isB tr hchk pre b suf htr hb
    rcases onlyAfter_sound _ isB tr false hchk pre b suf htr hb with h | ⟨x, hx, hxa⟩
    · exact absurd h (by decide)
    · simp only [decide_eq_true_eq] at hxa
      rw [← hxa]
      exact hx
  have reply_done : ∀ txIDStr txInfo pre h suf,
      (handleSendRawTxReply o txIDStr txInfo).1 = pre ++ .syncDone h :: suf →
        SendEffect.insertTx true ∈ pre ∧ SendEffect.addDebits true ∈ pre := by
    intro txIDStr txInfo pre h suf htr
    exact ⟨mem_of_check _ _ _ (handleSendRawTxReply_done_after o txIDStr txInfo false false).1
        pre _ suf htr rfl,
      mem_of_check _ _ _ (handleSendRawTxReply_done_after o txIDStr txInfo false false).2
        pre _ suf htr rfl⟩
  refine ⟨?_, ?_, reply_done, ?_⟩
  · -- (i)
    intro pre hextx ok suf htr
    rcases sendPairs_trace o account amounts minconf with e | ⟨c, hc, e | ⟨sofar, hp, e⟩⟩
    · rw [e] at htr
      simp at htr
    · rw [e] at htr
      refine ⟨c, hc, mem_of_check (.syncAdd c.txsha)
        (fun e => match e with
          | .sendRawTransaction _ _ => true
          | _ => false) _ ?_ pre _ suf htr rfl⟩
      simp [onlyAfter]
    · refine ⟨c, hc, mem_of_check (.syncAdd c.txsha)
        (fun e => match e with
          | .sendRawTransaction _ _ => true
          | _ => false) _ ?_ pre _ suf htr rfl⟩
      rcases hp with rfl | ⟨addr, rfl⟩ <;> rcases e with ⟨j, -, e⟩ | ⟨t, -, e⟩ <;>
        rw [e] <;> simp [onlyAfter, onlyAfter_seen]
  · -- (ii)
    intro pre h suf htr
    rcases sendPairs_trace o account amounts minconf with e | ⟨c, -, e | ⟨sofar, hp, e⟩⟩
    · rw [e] at htr
      simp at htr
    · have hchk : ∀ a, onlyAfter (fun e => decide (e = a))
          (fun e => match e with
            | .syncDone _ => true
            | _ => false) false (sendPairs o account amounts minconf).1 = true := by
        intro a
        rw [e]
        simp [onlyAfter]
      exact ⟨mem_of_check _ _ _ (hchk _) pre _ suf htr rfl,
        mem_of_check _ _ _ (hchk _) pre _ suf htr rfl⟩
    · have hchk : onlyAfter (fun e => decide (e = .insertTx true))
            (fun e => match e with
              | .syncDone _ => true
              | _ => false) false (sendPairs o account amounts minconf).1 = true ∧
          onlyAfter (fun e => decide (e = .addDebits true))
            (fun e => match e with
              | .syncDone _ => true
              | _ => false) false (sendPairs o account amounts minconf).1 = true := by
        rcases hp with rfl | ⟨addr, rfl⟩ <;> rcases e with ⟨j, -, e⟩ | ⟨t, -, e⟩ <;>
          rw [e] <;>
          simp [onlyAfter, (handleSendRawTxReply_done_after o _ c false false).1,
            (handleSendRawTxReply_done_after o _ c false false).2]
      exact ⟨mem_of_check _ _ _ hchk.1 pre _ suf htr rfl,
        mem_of_check _ _ _ hchk.2 pre _ suf htr rfl⟩
  · -- (iii)
    intro h hmem
    rcases sendPairs_trace o account amounts minconf with e | ⟨c, hc, e | ⟨sofar, hp, e⟩⟩
    · rw [e] at hmem
      simp at hmem
    · rw [e] at hmem
      simp at hmem
    · rcases e with ⟨j, hj, e⟩ | ⟨t, -, e⟩
      · rw [e] at hmem ⊢
        rcases hp with rfl | ⟨addr, rfl⟩
        · simp at hmem
          exact ⟨⟨c, j, hc, hmem, hj, by simp⟩, by simp, by simp⟩
        · simp at hmem
          exact ⟨⟨c, j, hc, hmem, hj, by simp⟩, by simp, by simp⟩
      · rw [e] at hmem
        exfalso
        have hno := handleSendRawTxReply_no_remove o t c h
        rcases hp with rfl | ⟨addr, rfl⟩ <;> simp [hno] at hmem

/-- Witness for C10: a send that goes through sends add, broadcasts, stores,
then sends done; a refused broadcast is followed by remove and nothing else. -/
theorem send_path_ordering_witness :
    (SendEffect.insertTx true ∈
        [SendEffect.syncAdd 7, .scheduleWalletWrite, .flushAccount true,
         .reqNewTxsForAddress "change", .sendRawTransaction "0100" true, .insertTx true,
         .addDebits true, .scheduleTxStoreWrite, .notifyNewTxDetails "details"] ∧
      SendEffect.addDebits true ∈
        [SendEffect.syncAdd 7, .scheduleWalletWrite, .flushAccount true,
         .reqNewTxsForAddress "change", .sendRawTransaction "0100" true, .insertTx true,
         .addDebits true, .scheduleTxStoreWrite, .notifyNewTxDetails "details"]) ∧
    (∀ h', SendEffect.syncDone h' ∉ (sendPairs exampleSendRefused "" [("addr", 5)] 1).1) :=
  ⟨(send_path_ordering exampleSendOk "" [("addr", 5)] 1).2.1 _ 7
      [.flushAccount true, .notifyWalletBalance, .notifyWalletBalanceUnconfirmed] (by decide),
   ((send_path_ordering exampleSendRefused "" [("addr", 5)] 1).2.2.2 7 (by decide)).2.1⟩

/-! ## The send handlers -/

/-- C11, as stated, fails: a transaction with a change address is created and
the flush of the account fails. `sendPairs` has sent the add message, returns
the wallet error without broadcasting, and sends no remove message; the
registry, run on the messages of that trace, still has the entry for the
hash, with a signal that has not fired. -/
theorem sendPairs_flush_failure_keeps_entry :
    sendPairs exampleSendFlushFails "" [("addr", 5)] 1 =
      ([.syncAdd 7, .scheduleWalletWrite, .flushAccount false],
       (none, some { Code := ErrWalletCode, Message := "Cannot write account: disk full" })) ∧
    SendEffect.syncRemove 7 ∉ (sendPairs exampleSendFlushFails "" [("addr", 5)] 1).1 ∧
    (∀ hextx ok, SendEffect.sendRawTransaction hextx ok ∉
      (sendPairs exampleSendFlushFails "" [("addr", 5)] 1).1) ∧
    (∃ s, syncRun SyncState.init
        (syncMsgsOf (sendPairs exampleSendFlushFails "" [("addr", 5)] 1).1) = some s ∧
      (syncAccess s 7).ok = true ∧ signalFired s (syncAccess s 7).c = false) := by
  refine ⟨by decide, by decide, ?_, ⟨_, rfl, by decide, by decide⟩⟩
  intro hextx ok h
  have e : (sendPairs exampleSendFlushFails "" [("addr", 5)] 1).1 =
      [.syncAdd 7, .scheduleWalletWrite, .flushAccount false] := by decide
  rw [e] at h
  simp at h

/-- C11, amended. A send-sync entry is kept, not removed, on a failed flush
before the broadcast: whenever `sendPairs` has created a transaction with a
change address, so that it has sent the add message for its hash, and the
flush of the account for the new change address fails, the handler returns the
wallet error and no result without broadcasting, and has sent neither a remove
nor a done message; the registry, in whatever state it was, then holds an
entry for the hash whose signal has not fired. -/
theorem send_sync_entry_kept_on_flush_failure (o : SendCollaborators) (account : String)
    (amounts : List (String × Int)) (minconf : Int) (c : CreatedTx) (changeAddr err : String)
    (hacc : o.Account account = true)
    (htx : o.txToPairs account amounts minconf = .ok c)
    (hch : c.changeAddr = some changeAddr)
    (hfl : o.FlushAccountChange = some err) :
    sendPairs o account amounts minconf =
      ([.syncAdd c.txsha, .scheduleWalletWrite, .flushAccount false],
       (none, some { Code := ErrWalletCode, Message := "Cannot write account: " ++ err })) ∧
    (∀ hextx ok, SendEffect.sendRawTransaction hextx ok ∉
      (sendPairs o account amounts minconf).1) ∧
    (∀ h, SendEffect.syncRemove h ∉ (sendPairs o account amounts minconf).1) ∧
    (∀ h, SendEffect.syncDone h ∉ (sendPairs o account amounts minconf).1) ∧
    syncMsgsOf (sendPairs o account amounts minconf).1 = [.add c.txsha] ∧
    (∀ s : SyncState, ∃ s',
      syncRun s (syncMsgsOf (sendPairs o account amounts minconf).1) = some s' ∧
      (syncAccess s' c.txsha).ok = true ∧
      signalFired s' (syncAccess s' c.txsha).c = false) := by
  have e : sendPairs o account amounts minconf =
      ([.syncAdd c.txsha, .scheduleWalletWrite, .flushAccount false],
       (none, some { Code := ErrWalletCode, Message := "Cannot write account: " ++ err })) := by
    simp only [sendPairs, hacc, htx, hch, hfl, Bool.not_true, Bool.false_eq_true, if_false]
  have hm : syncMsgsOf (sendPairs o account amounts minconf).1 = [.add c.txsha] := by
    rw [e]
    rfl
  refine ⟨e, ?_, ?_, ?_, hm, ?_⟩
  · intro hextx ok h
    rw [e] at h
    simp at h
  · intro h hmem
    rw [e] at hmem
    simp at hmem
  · intro h hmem
    rw [e] at hmem
    simp at hmem
  · intro s
    rw [hm]
    refine ⟨_, rfl, ?_, ?_⟩
    · simp [syncAccess]
    · simp [syncAccess, signalFired]

/-- Witness for C11: the example wallet whose flush fails keeps the entry for
hash 7. -/
theorem send_sync_entry_kept_on_flush_failure_witness :
    sendPairs exampleSendFlushFails "" [("addr", 5)] 1 =
      ([.syncAdd 7, .scheduleWalletWrite, .flushAccount false],
       (none, some { Code := ErrWalletCode, Message := "Cannot write account: " ++ "disk full" })) ∧
    syncMsgsOf (sendPairs exampleSendFlushFails "" [("addr", 5)] 1).1 = [.add 7] :=
  ⟨(send_sync_entry_kept_on_flush_failure exampleSendFlushFails "" [("addr", 5)] 1
      { txsha := 7, hextx := "0100", changeAddr := some "change" } "change" "disk full"
      rfl rfl rfl rfl).1,
   (send_sync_entry_kept_on_flush_failure exampleSendFlushFails "" [("addr", 5)] 1
      { txsha := 7, hextx := "0100", changeAddr := some "change" } "change" "disk full"
      rfl rfl rfl rfl).2.2.2.2.1⟩

/-- Inside the handler's part of the processor's trace the lock does not change. -/
theorem lockHeld_handler_part (tr : List SendEffect) (held : Bool) (pre : List LockedEffect)
    (e : SendEffect) (suf : List LockedEffect)
    (h : tr.map LockedEffect.handler ++ [.release] = pre ++ .handler e :: suf) :
    lockHeld held pre = held := by
  induction tr generalizing pre with
  | nil =>
    cases pre with
    | nil => simp at h
    | cons x pre => simp at h
  | cons t ts ih =>
    cases pre with
    | nil => rfl
    | cons x pre =>
      simp only [List.map_cons, List.cons_append, List.cons.injEq] at h
      rw [← h.1]
      simp only [lockHeld]
      exact ih pre h.2

/-- C12, as stated, fails: in the send of five units that goes through, the
processor grabs the lock, the handler sends the add message, flushes the
account and broadcasts; no release comes before the broadcast, so the lock is
held at that moment. -/
theorem send_broadcast_under_lock :
    processSend exampleSendOk exampleSendFive =
      [.grab, .handler (.syncAdd 7), .handler .scheduleWalletWrite,
       .handler (.flushAccount true), .handler (.reqNewTxsForAddress "change")] ++
      .handler (.sendRawTransaction "0100" true) ::
      [.handler (.insertTx true), .handler (.addDebits true), .handler .scheduleTxStoreWrite,
       .handler (.notifyNewTxDetails "details"), .handler (.syncDone 7),
       .handler (.flushAccount true), .handler .notifyWalletBalance,
       .handler .notifyWalletBalanceUnconfirmed, .release] ∧
    lockHeld false
      [.grab, .handler (.syncAdd 7), .handler .scheduleWalletWrite,
       .handler (.flushAccount true), .handler (.reqNewTxsForAddress "change")] = true := by
  constructor <;> decide

/-- C12, amended. The account-manager lock is held during the upstream
broadcast of a send: in every execution of a send_from, send_many or
send_to_address request by the processor, the lock is grabbed once before the
handler and released once after it has returned; the handler performs no
release and no grab of its own, so the lock is held at every effect of the
handler, the upstream `sendrawtransaction` call and the insertion into the
transaction store included. -/
theorem send_lock_held_throughout (o : SendCollaborators) (c : SendCmd) :
    (processSend o c).count .grab = 1 ∧ (processSend o c).count .release = 1 ∧
    (processSend o c).head? = some .grab ∧ (processSend o c).getLast? = some .release ∧
    ∀ pre e suf, processSend o c = pre ++ .handler e :: suf → lockHeld false pre = true := by
  have hng : ∀ tr : List SendEffect, (tr.map LockedEffect.handler).count .grab = 0 := by
    intro tr
    induction tr with
    | nil => rfl
    | cons t ts ih => simp [List.count_cons, ih]
  have hnr : ∀ tr : List SendEffect, (tr.map LockedEffect.handler).count .release = 0 := by
    intro tr
    induction tr with
    | nil => rfl
    | cons t ts ih => simp [List.count_cons, ih]
  refine ⟨?_, ?_, ?_, ?_, ?_⟩
  · simp [processSend, List.count_append, List.count_cons, hng]
  · simp [processSend, List.count_append, List.count_cons, hnr]
  · simp [processSend]
  · unfold processSend
    rw [List.getLast?_append]
    rfl
  · intro pre e suf h
    cases pre with
    | nil => simp [processSend] at h
    | cons x pre =>
      simp only [processSend, List.singleton_append, List.cons_append, List.cons.injEq] at h
      rw [← h.1]
      simp only [lockHeld]
      exact lockHeld_handler_part _ true pre e suf h.2

/-- Witness for C12, amended: the send that goes through, cut at its
broadcast. -/
theorem send_lock_held_throughout_witness :
    lockHeld false
      [.grab, .handler (.syncAdd 7), .handler .scheduleWalletWrite,
       .handler (.flushAccount true), .handler (.reqNewTxsForAddress "change")] = true :=
  (send_lock_held_throughout exampleSendOk exampleSendFive).2.2.2.2 _
    (.sendRawTransaction "0100" true)
    [.handler (.insertTx true), .handler (.addDebits true), .handler .scheduleTxStoreWrite,
     .handler (.notifyNewTxDetails "details"), .handler (.syncDone 7),
     .handler (.flushAccount true), .handler .notifyWalletBalance,
     .handler .notifyWalletBalanceUnconfirmed, .release]
    (by decide)

/-- C13, as stated, fails: `SendFrom` with amount zero from an account that
does not exist returns the invalid-account-name error, not an invalid-params
error, although transaction construction would reject the amount. -/
theorem send_zero_from_missing_account :
    exampleSendZero.hasNonPositiveAmount = true ∧
    (∀ account amounts minconf,
      amounts.any (fun kv => decide (kv.2 ≤ 0)) = true →
        exampleSendNoAccount.txToPairs account amounts minconf =
          .error .ErrNonPositiveAmount) ∧
    runSendHandler exampleSendNoAccount exampleSendZero =
      ([], (none, some ErrWalletInvalidAccountName)) ∧
    ErrWalletInvalidAccountName.Code ≠ ErrInvalidParameterCode := by
  refine ⟨by decide, ?_, by decide, by decide⟩
  intro account amounts minconf h
  simp only [exampleSendNoAccount]
  rw [if_pos h]

/-- C13, amended. For `SendFrom`, `SendToAddress` and `SendMany`, whenever a
requested amount is zero or negative the handler has no side effects and
returns an error and no result, for every account-manager state, given that
transaction construction rejects non-positive amounts with
`ErrNonPositiveAmount`. The error is an invalid-params error when the
handler's own check refuses the request (a negative amount for `SendFrom` and
`SendToAddress`, a negative minconf) or the named account exists; it is the
invalid-account-name error when the named account does not exist and the
handler's own check has not refused the request, because `sendPairs` looks
the account up before it constructs the transaction. -/
theorem send_nonpositive_amount (o : SendCollaborators) (c : SendCmd)
    (hrej : ∀ account amounts minconf,
      amounts.any (fun kv => decide (kv.2 ≤ 0)) = true →
        o.txToPairs account amounts minconf = .error .ErrNonPositiveAmount)
    (hamt : c.hasNonPositiveAmount = true) :
    (runSendHandler o c).1 = [] ∧ (runSendHandler o c).2.1 = none ∧
    ((c.refusedByHandler = true ∨ o.Account c.account = true) →
      ∃ msg, (runSendHandler o c).2.2 =
        some { Code := ErrInvalidParameterCode, Message := msg }) ∧
    (c.refusedByHandler = false → o.Account c.account = false →
      (runSendHandler o c).2.2 = some ErrWalletInvalidAccountName) := by
  have hsp : ∀ account amounts minconf,
      amounts.any (fun kv => decide (kv.2 ≤ 0)) = true →
      (o.Account account = true → sendPairs o account amounts minconf =
        ([], (none, some { Code := ErrInvalidParameterCode,
                           Message := "amount must be positive" }))) ∧
      (o.Account account = false → sendPairs o account amounts minconf =
        ([], (none, some ErrWalletInvalidAccountName))) := by
    intro account amounts minconf h
    constructor
    · intro ha
      simp [sendPairs, ha, hrej account amounts minconf h]
    · intro ha
      simp [sendPairs, ha]
  cases c with
  | sendfrom cmd =>
    simp only [SendCmd.hasNonPositiveAmount, decide_eq_true_eq] at hamt
    simp only [runSendHandler, SendFrom, SendCmd.refusedByHandler, SendCmd.account]
    by_cases h1 : cmd.Amount < 0
    · simp [h1]
    · by_cases h2 : cmd.MinConf < 0
      · simp [h1, h2]
      · have hany : [(cmd.ToAddress, cmd.Amount)].any (fun kv => decide (kv.2 ≤ 0)) = true := by
          simp [hamt]
        obtain ⟨hy, hn⟩ := hsp cmd.FromAccount _ cmd.MinConf hany
        cases ha : o.Account cmd.FromAccount
        · simp [h1, h2, hn ha]
        · simp [h1, h2, hy ha]
  | sendmany cmd =>
    simp only [SendCmd.hasNonPositiveAmount] at hamt
    simp only [runSendHandler, SendMany, SendCmd.refusedByHandler, SendCmd.account]
    by_cases h2 : cmd.MinConf < 0
    · simp [h2]
    · have hmap : cmd.Amounts.map (fun kv => (kv.1, kv.2)) = cmd.Amounts := by simp
      rw [hmap]
      obtain ⟨hy, hn⟩ := hsp cmd.FromAccount cmd.Amounts cmd.MinConf hamt
      cases ha : o.Account cmd.FromAccount
      · simp [h2, hn ha]
      · simp [h2, hy ha]
  | sendtoaddress cmd =>
    simp only [SendCmd.hasNonPositiveAmount, decide_eq_true_eq] at hamt
    simp only [runSendHandler, SendToAddress, SendCmd.refusedByHandler, SendCmd.account]
    by_cases h1 : cmd.Amount < 0
    · simp [h1]
    · have hany : [(cmd.Address, cmd.Amount)].any (fun kv => decide (kv.2 ≤ 0)) = true := by
        simp [hamt]
      obtain ⟨hy, hn⟩ := hsp "" _ 1 hany
      cases ha : o.Account ""
      · simp [h1, hn ha]
      · simp [h1, hy ha]

/-- Witness for C13, amended: the send of nothing from an account that does
not exist has no effect and returns the invalid-account-name error. -/
theorem send_nonpositive_amount_witness :
    (runSendHandler exampleSendNoAccount exampleSendZero).1 = [] ∧
    (runSendHandler exampleSendNoAccount exampleSendZero).2.2 =
      some ErrWalletInvalidAccountName :=
  ⟨(send_nonpositive_amount exampleSendNoAccount exampleSendZero
      (fun _ amounts _ h => by simp only [exampleSendNoAccount]; rw [if_pos h])
      (by decide)).1,
   (send_nonpositive_amount exampleSendNoAccount exampleSendZero
      (fun _ amounts _ h => by simp only [exampleSendNoAccount]; rw [if_pos h])
      (by decide)).2.2.2 (by decide) (by decide)⟩

/-! ## SignRawTransaction: the hash type -/

/-- C14, at the failing input: with the flags `ALL` (and with `NONE`, and
with either together with `ANYONECANPAY`) the test that guards the signer
fails for input 1 of a transaction with one output, so the signer is skipped
for an input of a hash type that is not `SINGLE`; the request to sign a
transaction of two inputs and one output with `ALL` leaves the second input
unsigned and reports the transaction as not complete. For every hash type
the flags can give, the signer is skipped exactly when the input has no
matching output, whether the type is `SINGLE` or not. -/
theorem signer_skipped_for_all_and_none :
    signerInvoked SigHashAll 1 1 = false ∧
    signerInvoked SigHashNone 1 1 = false ∧
    signerInvoked (SigHashAll ||| SigHashAnyOneCanPay) 1 1 = false ∧
    signerInvoked (SigHashNone ||| SigHashAnyOneCanPay) 1 1 = false ∧
    SignRawTransaction exampleSignEnv () (exampleSignCmd "ALL") =
      (some { Hex := "[[1], []]", Complete := false }, none) ∧
    (∀ hashType ∈ [SigHashAll, SigHashNone, SigHashSingle,
        SigHashAll ||| SigHashAnyOneCanPay, SigHashNone ||| SigHashAnyOneCanPay,
        SigHashSingle ||| SigHashAnyOneCanPay],
      ∀ i nOut, signerInvoked hashType i nOut = decide (i < nOut)) := by
  refine ⟨by decide, by decide, by decide, by decide, by decide, ?_⟩
  intro hashType hmem i nOut
  simp only [List.mem_cons, List.mem_singleton, List.not_mem_nil, or_false] at hmem
  rcases hmem with h | h | h | h | h | h <;> subst h <;>
    simp [signerInvoked, SigHashAll, SigHashNone, SigHashSingle, SigHashAnyOneCanPay]

/-- C15. Sighash flag translation in `SignRawTransaction` is total and exact:
the empty string and `ALL` give `SigHashAll` (0x01), `NONE` gives
`SigHashNone` (0x02), `SINGLE` gives `SigHashSingle` (0x03), and the three
forms with `|ANYONECANPAY` give the same values with `SigHashAnyOneCanPay`
(0x80) set; for every other string (other letter case, reordered and
space-padded forms included) the translation fails with an invalid-params
error, and the handler, once it has read its other arguments, returns that
error and no result. -/
theorem sighash_flag_translation (flags : String) :
    parseSigHashFlags "" = .ok 0x01 ∧
    parseSigHashFlags "ALL" = .ok 0x01 ∧
    parseSigHashFlags "NONE" = .ok 0x02 ∧
    parseSigHashFlags "SINGLE" = .ok 0x03 ∧
    parseSigHashFlags "ALL|ANYONECANPAY" = .ok 0x81 ∧
    parseSigHashFlags "NONE|ANYONECANPAY" = .ok 0x82 ∧
    parseSigHashFlags "SINGLE|ANYONECANPAY" = .ok 0x83 ∧
    (SigHashAll = 0x01 ∧ SigHashNone = 0x02 ∧ SigHashSingle = 0x03 ∧
      SigHashAll ||| SigHashAnyOneCanPay = 0x81 ∧ SigHashNone ||| SigHashAnyOneCanPay = 0x82 ∧
      SigHashSingle ||| SigHashAnyOneCanPay = 0x83) ∧
    (flags ∉ ["", "ALL", "NONE", "SINGLE", "ALL|ANYONECANPAY", "NONE|ANYONECANPAY",
        "SINGLE|ANYONECANPAY"] →
      parseSigHashFlags flags =
        .error { Code := ErrInvalidParameterCode, Message := "Invalid sighash parameter" } ∧
      ∀ (AM : Type) (env : SignCollaborators AM) (am : AM) (cmd : SignRawTransactionCmd)
        (a : SignArgs), cmd.Flags = flags → signArgs env cmd = .ok a →
          SignRawTransaction env am cmd =
            (none, some { Code := ErrInvalidParameterCode,
                          Message := "Invalid sighash parameter" })) ∧
    (∀ bad ∈ ["all", "Single", "ANYONECANPAY|ALL", " ALL", "ALL ", "ALL | ANYONECANPAY",
        "ANYONECANPAY"],
      parseSigHashFlags bad =
        .error { Code := ErrInvalidParameterCode, Message := "Invalid sighash parameter" }) := by
  refine ⟨rfl, rfl, rfl, rfl, rfl, rfl, rfl, by decide, ?_, ?_⟩
  · intro hne
    simp only [List.mem_cons, List.mem_singleton, List.not_mem_nil, or_false, not_or] at hne
    obtain ⟨h1, h2, h3, h4, h5, h6, h7⟩ := hne
    have hp : parseSigHashFlags flags =
        .error { Code := ErrInvalidParameterCode, Message := "Invalid sighash parameter" } := by
      simp [parseSigHashFlags, h1, h2, h3, h4, h5, h6, h7]
    refine ⟨hp, ?_⟩
    intro AM env am cmd a hflags ha
    simp only [SignRawTransaction, ha, hflags, hp]
  · intro bad hmem
    simp only [List.mem_cons, List.mem_singleton, List.not_mem_nil, or_false] at hmem
    rcases hmem with h | h | h | h | h | h | h <;> subst h <;> rfl

/-- Witness for C15: the request with the flags `all` is refused with the
invalid-params error. -/
theorem sighash_flag_translation_witness :
    parseSigHashFlags "all" =
      .error { Code := ErrInvalidParameterCode, Message := "Invalid sighash parameter" } ∧
    SignRawTransaction exampleSignEnv () (exampleSignCmd "all") =
      (none, some { Code := ErrInvalidParameterCode, Message := "Invalid sighash parameter" }) :=
  ⟨((sighash_flag_translation "all").2.2.2.2.2.2.2.2.1 (by decide)).1,
   ((sighash_flag_translation "all").2.2.2.2.2.2.2.2.1 (by decide)).2 Unit exampleSignEnv ()
      (exampleSignCmd "all")
      exampleSignArgs rfl rfl⟩

/-! ## SignRawTransaction: the previous scripts -/

theorem lookup_cons_isSome (m : PrevScripts) (k k' : OutPoint) (v : Script)
    (h : (m.lookup k).isSome = true) : (((k', v) :: m).lookup k).isSome = true := by
  simp only [List.lookup]
  cases hk : k == k' with
  | true => rfl
  | false => exact h

theorem lookup_cons_self (m : PrevScripts) (k : OutPoint) (v : Script) :
    (((k, v) :: m).lookup k).isSome = true := by
  simp [List.lookup]

theorem addRequest_covers (requested : Requested) (op : OutPoint) :
    Covered (addRequest requested op) op := by
  induction requested with
  | nil => exact ⟨[op.Index], by simp [addRequest], by simp⟩
  | cons p rest ih =>
    obtain ⟨h, idxs⟩ := p
    simp only [addRequest]
    by_cases hh : h = op.Hash
    · simp only [hh, if_true]
      exact ⟨idxs ++ [op.Index], by simp, by simp⟩
    · simp only [hh, if_false]
      obtain ⟨idxs', hm, hi⟩ := ih
      exact ⟨idxs', List.mem_cons_of_mem _ hm, hi⟩

theorem addRequest_mono (requested : Requested) (op op' : OutPoint)
    (h : Covered requested op') : Covered (addRequest requested op) op' := by
  induction requested with
  | nil =>
    obtain ⟨idxs, hm, -⟩ := h
    simp at hm
  | cons p rest ih =>
    obtain ⟨hsh, idxs⟩ := p
    obtain ⟨idxs', hm, hi⟩ := h
    simp only [addRequest]
    rcases List.mem_cons.1 hm with heq | hrest
    · simp only [Prod.mk.injEq] at heq
      by_cases hh : hsh = op.Hash
      · simp only [hh, if_true]
        refine ⟨idxs ++ [op.Index], ?_, ?_⟩
        · rw [heq.1, hh]
          exact List.mem_cons_self _ _
        · rw [← heq.2]
          exact List.mem_append_left _ hi
      · simp only [hh, if_false]
        refine ⟨idxs', ?_, hi⟩
        rw [heq.1, heq.2]
        exact List.mem_cons_self _ _
    · by_cases hh : hsh = op.Hash
      · simp only [hh, if_true]
        exact ⟨idxs', List.mem_cons_of_mem _ hrest, hi⟩
      · simp only [hh, if_false]
        obtain ⟨idxs'', hm', hi'⟩ := ih ⟨idxs', hrest, hi⟩
        exact ⟨idxs'', List.mem_cons_of_mem _ hm', hi'⟩

theorem requestPrevouts_mono (inputs : PrevScripts) (txIns : List TxIn) (requested : Requested)
    (op : OutPoint) (h : Covered requested op) :
    Covered (requestPrevouts inputs txIns requested) op := by
  induction txIns generalizing requested with
  | nil => exact h
  | cons t rest ih =>
    simp only [requestPrevouts]
    split
    · exact ih requested h
    · exact ih _ (addRequest_mono requested _ op h)

/-- Every input of the transaction was supplied or is asked for. -/
theorem requestPrevouts_covers (inputs : PrevScripts) (txIns : List TxIn)
    (requested : Requested) (txIn : TxIn) (hmem : txIn ∈ txIns) :
    (inputs.lookup txIn.PreviousOutpoint).isSome = true ∨
      Covered (requestPrevouts inputs txIns requested) txIn.PreviousOutpoint := by
  induction txIns generalizing requested with
  | nil => simp at hmem
  | cons t rest ih =>
    rcases List.mem_cons.1 hmem with heq | hrest
    · subst heq
      by_cases hs : (inputs.lookup txIn.PreviousOutpoint).isSome = true
      · exact Or.inl hs
      · right
        simp only [requestPrevouts, hs, Bool.false_eq_true, if_false]
        exact requestPrevouts_mono inputs rest _ _ (addRequest_covers requested _)
    · simp only [requestPrevouts]
      split
      · exact ih requested hrest
      · exact ih _ hrest

theorem recordOutputs_ok (txid : ShaHash) (outs : List TxOut) (idxs : List Nat)
    (inputs inputs' : PrevScripts) (h : recordOutputs txid outs idxs inputs = .ok inputs') :
    (∀ op, (inputs.lookup op).isSome = true → (inputs'.lookup op).isSome = true) ∧
    ∀ i ∈ idxs, (inputs'.lookup { Hash := txid, Index := i }).isSome = true := by
  induction idxs generalizing inputs with
  | nil =>
    simp only [recordOutputs, Except.ok.injEq] at h
    subst h
    exact ⟨fun _ h => h, by simp⟩
  | cons input rest ih =>
    simp only [recordOutputs] at h
    cases ho : outs[input]? with
    | none => simp [ho] at h
    | some out =>
      simp only [ho] at h
      obtain ⟨hmono, hall⟩ := ih _ h
      refine ⟨fun op hop => hmono op (lookup_cons_isSome _ _ _ _ hop), ?_⟩
      intro i hi
      rcases List.mem_cons.1 hi with heq | hrest
      · subst heq
        exact hmono _ (lookup_cons_self _ _ _)
      · exact hall i hrest

theorem collectPrevouts_ok {AM : Type} (env : SignCollaborators AM) (reqs : Requested)
    (inputs inputs' : PrevScripts) (h : collectPrevouts env reqs inputs = .ok inputs') :
    (∀ op, (inputs.lookup op).isSome = true → (inputs'.lookup op).isSome = true) ∧
    ∀ p ∈ reqs, ∀ i ∈ p.2, (inputs'.lookup { Hash := p.1, Index := i }).isSome = true := by
  induction reqs generalizing inputs with
  | nil =>
    simp only [collectPrevouts, Except.ok.injEq] at h
    subst h
    exact ⟨fun _ h => h, by simp⟩
  | cons p rest ih =>
    obtain ⟨txid, idxs⟩ := p
    simp only [collectPrevouts] at h
    cases hg : env.GetRawTransaction txid with
    | error e => simp [hg] at h
    | ok outs =>
      simp only [hg] at h
      cases hr : recordOutputs txid outs idxs inputs with
      | error e => simp [hr] at h
      | ok inputs₁ =>
        simp only [hr] at h
        obtain ⟨hmono₁, hall₁⟩ := recordOutputs_ok txid outs idxs inputs inputs₁ hr
        obtain ⟨hmono, hall⟩ := ih inputs₁ h
        refine ⟨fun op hop => hmono op (hmono₁ op hop), ?_⟩
        intro q hq i hi
        rcases List.mem_cons.1 hq with heq | hrest
        · subst heq
          exact hmono _ (hall₁ i hi)
        · exact hall q hrest i hi

/-- After a collection without error the map has the previous script of every
input of the transaction, in whatever order the requests were walked. -/
theorem prevouts_collected {AM : Type} (env : SignCollaborators AM) (inputs inputs' : PrevScripts)
    (txIns : List TxIn) (order : Requested)
    (hperm : order.Perm (requestPrevouts inputs txIns []))
    (h : collectPrevouts env order inputs = .ok inputs') (txIn : TxIn) (hmem : txIn ∈ txIns) :
    (inputs'.lookup txIn.PreviousOutpoint).isSome = true := by
  obtain ⟨hmono, hall⟩ := collectPrevouts_ok env order inputs inputs' h
  rcases requestPrevouts_covers inputs txIns [] txIn hmem with hs | ⟨idxs, hm, hi⟩
  · exact hmono _ hs
  · exact hall _ (hperm.mem_iff.2 hm) _ hi

/-! ## SignRawTransaction: the signing loop -/

/-- What the signing loop does when the map has the previous script of every
input: it never fails, it writes one record per input, in order; the
transaction stays complete exactly while every record is good; it changes
only the signature scripts of the inputs it signed. -/
theorem signLoop_spec {AM : Type} (env : SignCollaborators AM) (hashType : Nat)
    (inputs : PrevScripts) (keyFor : String → Except String (PrivateKey × Bool))
    (scriptFor : String → Except String Script) (txIns : List TxIn) :
    ∀ (i : Nat) (tx : MsgTx) (complete : Bool) (log : List InputRecord),
      (∀ txIn ∈ txIns, (inputs.lookup txIn.PreviousOutpoint).isSome = true) →
      ∃ tx' new,
        signLoop env hashType inputs keyFor scriptFor i txIns tx complete log =
          .ok (tx', complete && new.all InputRecord.good, log ++ new) ∧
        new.map (fun r => r.index) = List.range' i txIns.length ∧
        tx'.TxOut = tx.TxOut ∧
        (∀ j, (∀ r ∈ new, r.index = j → r.signer ≠ .signed) → tx'.TxIn[j]? = tx.TxIn[j]?) ∧
        (∀ r ∈ new, (r.signer = .skipped ↔
          signerInvoked hashType r.index tx.TxOut.length = false)) ∧
        (∀ r ∈ new, r.signer = .failed → r.engine = none) := by
  induction txIns with
  | nil =>
    intro i tx complete log _
    exact ⟨tx, [], by simp [signLoop], rfl, rfl, fun _ _ => rfl, by simp, by simp⟩
  | cons txIn rest ih =>
    intro i tx complete log hall
    have hrest : ∀ t ∈ rest, (inputs.lookup t.PreviousOutpoint).isSome = true :=
      fun t ht => hall t (List.mem_cons_of_mem _ ht)
    have hhead := hall txIn (List.mem_cons_self _ _)
    obtain ⟨input, hin⟩ := Option.isSome_iff_exists.1 hhead
    simp only [signLoop, hin]
    cases hinv : signerInvoked hashType i tx.TxOut.length with
    | true =>
      simp only [if_true]
      cases hsig : env.SignTxOutput tx i input (hashType % 256) keyFor scriptFor
          txIn.SignatureScript with
      | error e =>
        obtain ⟨tx', new, hrun, hidx, hout, hin', hskip, hfail⟩ :=
          ih (i + 1) tx false (log ++ [{ index := i, signer := .failed, engine := none }]) hrest
        refine ⟨tx', { index := i, signer := .failed, engine := none } :: new, ?_, ?_, hout,
          ?_, ?_, ?_⟩
        · simpa [InputRecord.good] using hrun
        · simp [hidx, List.range'_succ]
        · intro j hj
          exact hin' j (fun r hr => hj r (List.mem_cons_of_mem _ hr))
        · intro r hr
          rcases List.mem_cons.1 hr with heq | hr'
          · subst heq
            simp [hinv]
          · exact hskip r hr'
        · intro r hr hf
          rcases List.mem_cons.1 hr with heq | hr'
          · subst heq
            rfl
          · exact hfail r hr' hf
      | ok script =>
        obtain ⟨tx', new, hrun, hidx, hout, hin', hskip, hfail⟩ :=
          ih (i + 1) (setSignatureScript tx i txIn script)
            (complete && env.engineOk script input i (setSignatureScript tx i txIn script))
            (log ++ [{ index := i, signer := .signed,
                       engine := some (env.engineOk script input i
                         (setSignatureScript tx i txIn script)) }]) hrest
        refine ⟨tx', { index := i, signer := .signed,
                       engine := some (env.engineOk script input i
                         (setSignatureScript tx i txIn script)) } :: new, ?_, ?_, ?_, ?_, ?_, ?_⟩
        · simpa [InputRecord.good, Bool.and_assoc] using hrun
        · simp [hidx, List.range'_succ]
        · rw [hout]
          rfl
        · intro j hj
          have hji : i ≠ j := by
            intro hij
            exact hj _ (List.mem_cons_self _ _) hij rfl
          rw [hin' j (fun r hr => hj r (List.mem_cons_of_mem _ hr))]
          simp only [setSignatureScript]
          exact List.getElem?_set_ne hji
        · intro r hr
          rcases List.mem_cons.1 hr with heq | hr'
          · subst heq
            simp [hinv]
          · exact hskip r hr'
        · intro r hr hf
          rcases List.mem_cons.1 hr with heq | hr'
          · subst heq
            simp at hf
          · exact hfail r hr' hf
    | false =>
      simp only [Bool.false_eq_true, if_false]
      obtain ⟨tx', new, hrun, hidx, hout, hin', hskip, hfail⟩ :=
        ih (i + 1) tx (complete && env.engineOk txIn.SignatureScript input i tx)
          (log ++ [{ index := i, signer := .skipped,
                     engine := some (env.engineOk txIn.SignatureScript input i tx) }]) hrest
      refine ⟨tx', { index := i, signer := .skipped,
                     engine := some (env.engineOk txIn.SignatureScript input i tx) } :: new,
        ?_, ?_, hout, ?_, ?_, ?_⟩
      · simpa [InputRecord.good, Bool.and_assoc] using hrun
      · simp [hidx, List.range'_succ]
      · intro j hj
        exact hin' j (fun r hr => hj r (List.mem_cons_of_mem _ hr))
      · intro r hr
        rcases List.mem_cons.1 hr with heq | hr'
        · subst heq
          simp [hinv]
        · exact hskip r hr'
      · intro r hr hf
        rcases List.mem_cons.1 hr with heq | hr'
        · subst heq
          simp at hf
        · exact hfail r hr' hf

/-- What the signing loop returns is what signing the inputs one after the
other gives: its records and its transaction are those of `SignOutcomes`. -/
theorem signLoop_outcomes {AM : Type} (env : SignCollaborators AM) (hashType : Nat)
    (inputs : PrevScripts) (keyFor : String → Except String (PrivateKey × Bool))
    (scriptFor : String → Except String Script) (txIns : List TxIn) :
    ∀ (i : Nat) (tx : MsgTx) (complete : Bool) (log : List InputRecord) (tx' : MsgTx)
      (complete' : Bool) (log' : List InputRecord),
      signLoop env hashType inputs keyFor scriptFor i txIns tx complete log =
          .ok (tx', complete', log') →
      ∃ new, log' = log ++ new ∧
        SignOutcomes env hashType inputs keyFor scriptFor i txIns tx tx' new := by
  induction txIns with
  | nil =>
    intro i tx complete log tx' complete' log' h
    simp only [signLoop, Except.ok.injEq, Prod.mk.injEq] at h
    obtain ⟨h1, -, h3⟩ := h
    exact ⟨[], by simp [h3], by simp [SignOutcomes, h1]⟩
  | cons txIn rest ih =>
    intro i tx complete log tx' complete' log' h
    simp only [signLoop] at h
    cases hin : inputs.lookup txIn.PreviousOutpoint with
    | none => simp [hin] at h
    | some input =>
      simp only [hin] at h
      cases hinv : signerInvoked hashType i tx.TxOut.length with
      | true =>
        simp only [hinv, if_true] at h
        cases hsig : env.SignTxOutput tx i input (hashType % 256) keyFor scriptFor
            txIn.SignatureScript with
        | error e =>
          simp only [hsig] at h
          obtain ⟨new, hl, ho⟩ := ih _ _ _ _ _ _ _ h
          refine ⟨{ index := i, signer := .failed, engine := none } :: new, by simp [hl], ?_⟩
          unfold SignOutcomes
          exact ⟨input, hin, rfl, Or.inr (Or.inl ⟨hinv, ⟨e, hsig⟩, rfl, rfl, ho⟩)⟩
        | ok script =>
          simp only [hsig] at h
          obtain ⟨new, hl, ho⟩ := ih _ _ _ _ _ _ _ h
          refine ⟨{ index := i, signer := .signed,
                    engine := some (env.engineOk script input i
                      (setSignatureScript tx i txIn script)) } :: new, by simp [hl], ?_⟩
          unfold SignOutcomes
          exact ⟨input, hin, rfl, Or.inr (Or.inr ⟨hinv, script, hsig, rfl, rfl, ho⟩)⟩
      | false =>
        simp only [hinv, Bool.false_eq_true, if_false] at h
        obtain ⟨new, hl, ho⟩ := ih _ _ _ _ _ _ _ h
        refine ⟨{ index := i, signer := .skipped,
                  engine := some (env.engineOk txIn.SignatureScript input i tx) } :: new,
          by simp [hl], ?_⟩
        unfold SignOutcomes
        exact ⟨input, hin, rfl, Or.inl ⟨hinv, rfl, rfl, ho⟩⟩

theorem recordOutputs_out_of_range (txid : ShaHash) (outs : List TxOut) (idxs : List Nat)
    (inputs : PrevScripts) (h : ∃ i ∈ idxs, outs.length ≤ i) :
    ∃ msg, recordOutputs txid outs idxs inputs =
      .error { Code := ErrInvalidParameterCode, Message := msg } := by
  induction idxs generalizing inputs with
  | nil =>
    obtain ⟨i, hi, -⟩ := h
    simp at hi
  | cons input rest ih =>
    simp only [recordOutputs]
    cases ho : outs[input]? with
    | none => exact ⟨_, rfl⟩
    | some out =>
      obtain ⟨i, hi, hlen⟩ := h
      rcases List.mem_cons.1 hi with heq | hrest
      · subst heq
        have hnone := List.getElem?_eq_none hlen
        rw [hnone] at ho
        cases ho
      · exact ih _ ⟨i, hrest, hlen⟩

theorem signArgs_requested {AM : Type} (env : SignCollaborators AM)
    (cmd : SignRawTransactionCmd) (a : SignArgs) (h : signArgs env cmd = .ok a) :
    a.requested = requestPrevouts a.inputs a.msgTx.TxIn [] := by
  unfold signArgs at h
  cases h1 : env.hexDecode cmd.RawTx with
  | error e => simp [h1] at h
  | ok ser =>
    simp only [h1] at h
    cases h2 : env.Deserialize ser with
    | none => simp [h2] at h
    | some msgTx =>
      simp only [h2] at h
      cases h3 : seedInputs env (cmd.PrivKeys.length != 0) cmd.Inputs [] [] with
      | error e => simp [h3] at h
      | ok p =>
        obtain ⟨inputs, scripts⟩ := p
        simp only [h3] at h
        by_cases hk : cmd.PrivKeys.length ≠ 0
        · rw [if_pos hk] at h
          cases h4 : parseKeys env cmd.PrivKeys [] with
          | error e => simp [h4] at h
          | ok keys =>
            simp only [h4, Except.ok.injEq] at h
            subst h
            rfl
        · rw [if_neg hk] at h
          simp only [Except.ok.injEq] at h
          subst h
          rfl

/-- C18. The "prevout not found" wallet error of the signing loop of
`SignRawTransaction` is unreachable: for every transaction and every map
seeded from supplemental inputs, if the collection of the requested previous
transactions completes without error, in whatever order the requests are
walked, the previous-script map has an entry for the previous outpoint of
every input, and the signing loop run on it returns no error. A needed output
index that is out of range of the fetched transaction makes the collection
fail with an invalid-params error. -/
theorem prevout_not_found_unreachable {AM : Type} (env : SignCollaborators AM)
    (seeded inputs : PrevScripts) (tx : MsgTx) (order : Requested)
    (hperm : order.Perm (requestPrevouts seeded tx.TxIn []))
    (hcollect : collectPrevouts env order seeded = .ok inputs) :
    (∀ txIn ∈ tx.TxIn, ∃ script, inputs.lookup txIn.PreviousOutpoint = some script) ∧
    (∀ hashType keyFor scriptFor, ∃ result,
      signLoop env hashType inputs keyFor scriptFor 0 tx.TxIn tx true [] = .ok result) ∧
    (∀ txid outs idxs m, (∃ i ∈ idxs, outs.length ≤ i) →
      ∃ msg, recordOutputs txid outs idxs m =
        .error { Code := ErrInvalidParameterCode, Message := msg }) := by
  have hall : ∀ txIn ∈ tx.TxIn, (inputs.lookup txIn.PreviousOutpoint).isSome = true :=
    fun txIn hmem => prevouts_collected env seeded inputs tx.TxIn order hperm hcollect txIn hmem
  refine ⟨fun txIn hmem => Option.isSome_iff_exists.1 (hall txIn hmem), ?_, ?_⟩
  · intro hashType keyFor scriptFor
    obtain ⟨tx', new, hrun, -⟩ :=
      signLoop_spec env hashType inputs keyFor scriptFor tx.TxIn 0 tx true [] hall
    exact ⟨_, hrun⟩
  · intro txid outs idxs m h
    exact recordOutputs_out_of_range txid outs idxs m h

/-- Witness for C18: both inputs of the example transaction spend outputs of
transaction 9, which is fetched once; both previous scripts are in the map. -/
theorem prevout_not_found_unreachable_witness :
    ∃ script,
      List.lookup ({ Hash := 9, Index := 1 } : OutPoint)
        [(({ Hash := 9, Index := 1 } : OutPoint), [11]), ({ Hash := 9, Index := 0 }, [10])] =
          some script :=
  (prevout_not_found_unreachable exampleSignEnv [] _ exampleTx [(9, [0, 1])]
    (by decide) rfl).1 { PreviousOutpoint := { Hash := 9, Index := 1 }, SignatureScript := [] }
    (by decide)

/-- The records and the transaction of `SignOutcomes` are determined by the
collaborators: signing the inputs one after the other has one outcome. -/
theorem signOutcomes_unique {AM : Type} (env : SignCollaborators AM) (hashType : Nat)
    (inputs : PrevScripts) (keyFor : String → Except String (PrivateKey × Bool))
    (scriptFor : String → Except String Script) (txIns : List TxIn) :
    ∀ (i : Nat) (tx tx₁ tx₂ : MsgTx) (log₁ log₂ : List InputRecord),
      SignOutcomes env hashType inputs keyFor scriptFor i txIns tx tx₁ log₁ →
      SignOutcomes env hashType inputs keyFor scriptFor i txIns tx tx₂ log₂ →
      tx₁ = tx₂ ∧ log₁ = log₂ := by
  induction txIns with
  | nil =>
    intro i tx tx₁ tx₂ log₁ log₂ h₁ h₂
    simp only [SignOutcomes] at h₁ h₂
    exact ⟨h₁.1.trans h₂.1.symm, h₁.2.trans h₂.2.symm⟩
  | cons txIn rest ih =>
    intro i tx tx₁ tx₂ log₁ log₂ h₁ h₂
    cases log₁ with
    | nil => simp [SignOutcomes] at h₁
    | cons r₁ l₁ =>
      cases log₂ with
      | nil => simp [SignOutcomes] at h₂
      | cons r₂ l₂ =>
        unfold SignOutcomes at h₁ h₂
        obtain ⟨input₁, hin₁, hi₁, hc₁⟩ := h₁
        obtain ⟨input₂, hin₂, hi₂, hc₂⟩ := h₂
        have hinput : input₂ = input₁ := by
          rw [hin₁] at hin₂
          exact (Option.some.inj hin₂).symm
        subst hinput
        have hrec : ∀ (a b : InputRecord), a.index = b.index → a.signer = b.signer →
            a.engine = b.engine → a = b := by
          intro a b h1 h2 h3
          cases a
          cases b
          simp only [InputRecord.mk.injEq]
          exact ⟨h1, h2, h3⟩
        rcases hc₁ with ⟨hv₁, hs₁, he₁, ho₁⟩ | ⟨hv₁, ⟨e₁, hg₁⟩, hs₁, he₁, ho₁⟩ |
            ⟨hv₁, script₁, hg₁, hs₁, he₁, ho₁⟩ <;>
          rcases hc₂ with ⟨hv₂, hs₂, he₂, ho₂⟩ | ⟨hv₂, ⟨e₂, hg₂⟩, hs₂, he₂, ho₂⟩ |
            ⟨hv₂, script₂, hg₂, hs₂, he₂, ho₂⟩
        · obtain ⟨ht, hl⟩ := ih _ _ _ _ _ _ ho₁ ho₂
          exact ⟨ht, by rw [hl, hrec r₁ r₂ (hi₁.trans hi₂.symm) (hs₁.trans hs₂.symm)
            (he₁.trans he₂.symm)]⟩
        · rw [hv₁] at hv₂; cases hv₂
        · rw [hv₁] at hv₂; cases hv₂
        · rw [hv₁] at hv₂; cases hv₂
        · obtain ⟨ht, hl⟩ := ih _ _ _ _ _ _ ho₁ ho₂
          exact ⟨ht, by rw [hl, hrec r₁ r₂ (hi₁.trans hi₂.symm) (hs₁.trans hs₂.symm)
            (he₁.trans he₂.symm)]⟩
        · rw [hg₁] at hg₂; cases hg₂
        · rw [hv₁] at hv₂; cases hv₂
        · rw [hg₁] at hg₂; cases hg₂
        · rw [hg₁] at hg₂
          have hsc : script₁ = script₂ := by
            injection hg₂
          subst hsc
          obtain ⟨ht, hl⟩ := ih _ _ _ _ _ _ ho₁ ho₂
          exact ⟨ht, by rw [hl, hrec r₁ r₂ (hi₁.trans hi₂.symm) (hs₁.trans hs₂.symm)
            (he₁.trans he₂.symm)]⟩

/-- C16. Partial signing is not an error: once the arguments are valid and
the previous scripts are collected, `SignRawTransaction` returns a result
with the serialized transaction and the flag `complete`, and no error,
whatever the signer and the script engine return. The signing loop writes one
record per input, in order, and the records and the transaction are those the
signer and the script engine give: an input for which the signer is skipped
has the engine run on the signature script it has; an input for which the
signer returns an error keeps its signature script, the engine is not run for
it, and the inputs after it are still processed; an input for which the signer
returns a script gets that script and has the engine run on it. `complete` is
true exactly when for every input the signer was skipped or succeeded and the
script engine was created and executed without error on the resulting
signature script. The range over the map of requests is taken to visit every
request once, in any order. -/
theorem partial_signing_not_an_error {AM : Type} (env : SignCollaborators AM) (am : AM)
    (cmd : SignRawTransactionCmd) (a : SignArgs) (hashType : Nat) (inputs : PrevScripts)
    (hargs : signArgs env cmd = .ok a)
    (hflags : parseSigHashFlags cmd.Flags = .ok hashType)
    (hperm : (env.rangeOrder a.requested).Perm a.requested)
    (hcollect : collectPrevouts env (env.rangeOrder a.requested) a.inputs = .ok inputs) :
    ∃ tx log,
      signLoop env hashType inputs (getKey env a.keys am) (getScript env a.keys a.scripts am)
        0 a.msgTx.TxIn a.msgTx true [] = .ok (tx, log.all InputRecord.good, log) ∧
      SignRawTransaction env am cmd =
        (some { Hex := env.Serialize tx, Complete := log.all InputRecord.good }, none) ∧
      log.map (fun r => r.index) = List.range a.msgTx.TxIn.length ∧
      (log.all InputRecord.good = true ↔
        ∀ r ∈ log, (r.signer = .skipped ∨ r.signer = .signed) ∧ r.engine = some true) ∧
      (∀ r ∈ log, r.signer ≠ .signed → tx.TxIn[r.index]? = a.msgTx.TxIn[r.index]?) ∧
      (∀ r ∈ log, r.signer = .failed → r.engine = none) ∧
      (∀ r ∈ log, (r.signer = .skipped ↔
        signerInvoked hashType r.index a.msgTx.TxOut.length = false)) ∧
      tx.TxOut = a.msgTx.TxOut ∧
      SignOutcomes env hashType inputs (getKey env a.keys am)
        (getScript env a.keys a.scripts am) 0 a.msgTx.TxIn a.msgTx tx log ∧
      (∀ tx₂ log₂,
        SignOutcomes env hashType inputs (getKey env a.keys am)
          (getScript env a.keys a.scripts am) 0 a.msgTx.TxIn a.msgTx tx₂ log₂ →
        SignRawTransaction env am cmd =
          (some { Hex := env.Serialize tx₂, Complete := log₂.all InputRecord.good }, none)) := by
  have hreq := signArgs_requested env cmd a hargs
  rw [hreq] at hperm
  have hall : ∀ txIn ∈ a.msgTx.TxIn, (inputs.lookup txIn.PreviousOutpoint).isSome = true :=
    fun txIn hmem => prevouts_collected env a.inputs inputs a.msgTx.TxIn _
      (by rw [hreq]; exact hperm) hcollect txIn hmem
  obtain ⟨tx, log, hrun, hidx, hout, hin, hskip, hfail⟩ :=
    signLoop_spec env hashType inputs (getKey env a.keys am)
      (getScript env a.keys a.scripts am) a.msgTx.TxIn 0 a.msgTx true [] hall
  simp only [Bool.true_and, List.nil_append] at hrun
  have hres : SignRawTransaction env am cmd =
      (some { Hex := env.Serialize tx, Complete := log.all InputRecord.good }, none) := by
    simp only [SignRawTransaction, hargs, hflags, hcollect, hrun]
  have hout' : SignOutcomes env hashType inputs (getKey env a.keys am)
      (getScript env a.keys a.scripts am) 0 a.msgTx.TxIn a.msgTx tx log := by
    obtain ⟨new, hl, ho⟩ := signLoop_outcomes env hashType inputs (getKey env a.keys am)
      (getScript env a.keys a.scripts am) a.msgTx.TxIn 0 a.msgTx true [] tx _ log hrun
    rw [List.nil_append] at hl
    rw [hl]
    exact ho
  refine ⟨tx, log, hrun, hres, ?_, ?_, ?_, hfail, hskip, hout, hout', ?_⟩
  · rw [hidx, List.range_eq_range']
  · simp only [List.all_eq_true, InputRecord.good, Bool.and_eq_true, decide_eq_true_eq]
    constructor
    · intro h r hr
      obtain ⟨h1, h2⟩ := h r hr
      refine ⟨?_, h2⟩
      cases hs : r.signer with
      | skipped => exact Or.inl rfl
      | signed => exact Or.inr rfl
      | failed => exact absurd hs h1
    · intro h r hr
      obtain ⟨h1, h2⟩ := h r hr
      refine ⟨?_, h2⟩
      rcases h1 with h1 | h1 <;> rw [h1] <;> decide
  · intro r hr hns
    apply hin r.index
    intro r' hr' hidx'
    have hnodup : (log.map (fun r => r.index)).Nodup := by
      rw [hidx]
      exact List.nodup_range' _ _
    have heq := List.inj_on_of_nodup_map hnodup hr' hr hidx'
    rw [heq]
    exact hns
  · intro tx₂ log₂ h₂
    obtain ⟨ht, hl⟩ := signOutcomes_unique env hashType inputs (getKey env a.keys am)
      (getScript env a.keys a.scripts am) a.msgTx.TxIn 0 a.msgTx tx tx₂ log log₂ hout' h₂
    rw [← ht, ← hl]
    exact hres

/-- Witness for C16: the signer fails for the first of two inputs; the
request returns a result that is not complete, the first input keeps its empty
signature script, and the second input is signed and passes the engine. -/
theorem partial_signing_not_an_error_witness :
    SignRawTransaction exampleSignEnvFailing () (exampleSignCmd "ALL") =
      (some { Hex := "[[], [1]]", Complete := false }, none) ∧
    ∃ (tx : MsgTx) (log : List InputRecord),
      signLoop exampleSignEnvFailing 1
        [({ Hash := 9, Index := 1 }, [11]), ({ Hash := 9, Index := 0 }, [10])]
        (getKey exampleSignEnvFailing [] ()) (getScript exampleSignEnvFailing [] [] ())
        0 exampleTxTwoOutputs.TxIn exampleTxTwoOutputs true [] =
          .ok (tx, log.all InputRecord.good, log) ∧
      SignRawTransaction exampleSignEnvFailing () (exampleSignCmd "ALL") =
        (some { Hex := exampleSignEnvFailing.Serialize tx,
                Complete := log.all InputRecord.good }, none) ∧
      log.map (fun r => r.index) = List.range 2 :=
  ⟨rfl, by
    obtain ⟨tx, log, h1, h2, h3, -⟩ :=
      partial_signing_not_an_error exampleSignEnvFailing () (exampleSignCmd "ALL")
        { msgTx := exampleTxTwoOutputs, inputs := [], scripts := [],
          requested := [(9, [0, 1])], keys := [] }
        1 [({ Hash := 9, Index := 1 }, [11]), ({ Hash := 9, Index := 0 }, [10])]
        rfl rfl (List.Perm.refl _) rfl
    exact ⟨tx, log, h1, h2, h3⟩⟩

/-! ## SignRawTransaction: the supplied keys -/

theorem parseKeys_nonempty {AM : Type} (env : SignCollaborators AM) (privKeys : List String)
    (acc keys : List (String × keyInfo)) (h : parseKeys env privKeys acc = .ok keys)
    (hne : privKeys ≠ [] ∨ acc ≠ []) : keys ≠ [] := by
  induction privKeys generalizing acc with
  | nil =>
    simp only [parseKeys, Except.ok.injEq] at h
    subst h
    rcases hne with hne | hne
    · exact absurd rfl hne
    · exact hne
  | cons key rest ih =>
    simp only [parseKeys] at h
    cases hd : env.DecodePrivateKey key with
    | error e => simp [hd] at h
    | ok p =>
      obtain ⟨bytes, net, compressed⟩ := p
      simp only [hd] at h
      by_cases hn : net ≠ env.Net
      · simp [hn] at h
      · simp only [hn, if_false] at h
        cases ha : env.NewAddressPubKey
            (if compressed = true then env.SerializeCompressed (env.PrivKeyFromBytes bytes)
              else env.SerializeUncompressed (env.PrivKeyFromBytes bytes)) with
        | error e => simp [ha] at h
        | ok addr =>
          simp only [ha] at h
          exact ih _ h (Or.inr (by simp))

/-- C17. Restricted mode isolates wallet keys: whenever the request supplies
at least one private key and all supplied keys decode for the active network,
the key map is not empty, and the callbacks `getKey` and `getScript` never
consult the account manager: their result is a function of the supplied key
map and the supplied redeem-script map only (an address absent from the map
gives an error), so for any two states of the account manager, and any two
account managers, the callbacks return the same result for every address. -/
theorem restricted_mode_isolates_keys {AM : Type} (env : SignCollaborators AM)
    (cmd : SignRawTransactionCmd) (a : SignArgs) (hkeys : cmd.PrivKeys ≠ [])
    (hargs : signArgs env cmd = .ok a) :
    a.keys ≠ [] ∧
    (∀ (am : AM) (addr : String),
      getKey env a.keys am addr =
        (match a.keys.lookup addr with
          | none => .error "no key for address"
          | some info => .ok (info.key, info.compressed)) ∧
      getScript env a.keys a.scripts am addr =
        (match a.scripts.lookup addr with
          | none => .error "no script for address"
          | some script => .ok script)) ∧
    (∀ (am₁ am₂ : AM) (addr : String),
      getKey env a.keys am₁ addr = getKey env a.keys am₂ addr ∧
      getScript env a.keys a.scripts am₁ addr = getScript env a.keys a.scripts am₂ addr) ∧
    (∀ (lookup₂ : AM → String → Except String AddressInfo) (am : AM) (addr : String),
      getKey { env with Address := lookup₂ } a.keys am addr = getKey env a.keys am addr ∧
      getScript { env with Address := lookup₂ } a.keys a.scripts am addr =
        getScript env a.keys a.scripts am addr) := by
  have hne : a.keys ≠ [] := by
    unfold signArgs at hargs
    cases h1 : env.hexDecode cmd.RawTx with
    | error e => simp [h1] at hargs
    | ok ser =>
      simp only [h1] at hargs
      cases h2 : env.Deserialize ser with
      | none => simp [h2] at hargs
      | some msgTx =>
        simp only [h2] at hargs
        cases h3 : seedInputs env (cmd.PrivKeys.length != 0) cmd.Inputs [] [] with
        | error e => simp [h3] at hargs
        | ok p =>
          obtain ⟨inputs, scripts⟩ := p
          simp only [h3] at hargs
          have hk : cmd.PrivKeys.length ≠ 0 := by
            intro h0
            exact hkeys (List.length_eq_zero.1 h0)
          rw [if_pos hk] at hargs
          cases h4 : parseKeys env cmd.PrivKeys [] with
          | error e => simp [h4] at hargs
          | ok keys =>
            simp only [h4, Except.ok.injEq] at hargs
            subst hargs
            exact parseKeys_nonempty env cmd.PrivKeys [] keys h4 (Or.inl hkeys)
  have hlen : a.keys.length ≠ 0 := fun h0 => hne (List.length_eq_zero.1 h0)
  have hk : ∀ (e : SignCollaborators AM) (am : AM) (addr : String),
      getKey e a.keys am addr =
        (match a.keys.lookup addr with
          | none => .error "no key for address"
          | some info => .ok (info.key, info.compressed)) := by
    intro e am addr
    rw [getKey, if_pos hlen]
  have hs : ∀ (e : SignCollaborators AM) (am : AM) (addr : String),
      getScript e a.keys a.scripts am addr =
        (match a.scripts.lookup addr with
          | none => .error "no script for address"
          | some script => .ok script) := by
    intro e am addr
    rw [getScript, if_pos hlen]
  refine ⟨hne, fun am addr => ⟨hk env am addr, hs env am addr⟩, ?_, ?_⟩
  · intro am₁ am₂ addr
    exact ⟨by rw [hk, hk], by rw [hs, hs]⟩
  · intro lookup₂ am addr
    exact ⟨by rw [hk, hk], by rw [hs, hs]⟩

/-- Witness for C17: the example request with one supplied key. -/
theorem restricted_mode_isolates_keys_witness :
    ∃ a, signArgs exampleSignEnv exampleSignCmdWithKey = .ok a ∧ a.keys ≠ [] ∧
      getKey exampleSignEnv a.keys () "other" = .error "no key for address" :=
  ⟨_, rfl,
    (restricted_mode_isolates_keys exampleSignEnv exampleSignCmdWithKey _ (by decide) rfl).1,
    ((restricted_mode_isolates_keys exampleSignEnv exampleSignCmdWithKey _ (by decide)
      rfl).2.1 () "other").1⟩

/-! ## SignMessage and VerifyMessage -/

/-- C19. `SignMessage` then `VerifyMessage` round-trips: for every address
that decodes to a wallet-owned pubkey address whose private key is
accessible, and every message, `SignMessage` returns the encoding of the
compact signature of the double SHA-256 of "Bitcoin Signed Message:\n"
followed by the message, and `VerifyMessage` on the same address, that
signature and the same message hashes the identical payload and returns true;
given that the signer returns a signature, that compact-signature recovery
inverts compact signing and that decoding inverts encoding (both are needed
at that signature only). -/
theorem sign_then_verify_message {AM : Type} (env : MessageCollaborators AM) (am : AM)
    (address message addr : String) (privkey : PrivateKey) (compressed : Bool)
    (sigbytes : List Nat)
    (hdec : env.DecodeAddress address = .ok addr)
    (hinfo : env.Address am addr = .ok (.pubKey (.ok privkey) compressed))
    (hsign : env.SignCompact privkey (env.DoubleSha256 ("Bitcoin Signed Message:\n" ++ message))
      compressed = .ok sigbytes)
    (hrecover : env.RecoverCompact sigbytes
      (env.DoubleSha256 ("Bitcoin Signed Message:\n" ++ message)) =
        .ok (privkey.X, privkey.Y, compressed))
    (hbase64 : env.DecodeString (env.EncodeToString sigbytes) = .ok sigbytes) :
    SignMessage env am { Address := address, Message := message } =
      some (some (env.EncodeToString sigbytes), none) ∧
    VerifyMessage env am
      { Address := address, Signature := env.EncodeToString sigbytes, Message := message } =
      some (some true, none) := by
  constructor
  · simp only [SignMessage, hdec, hinfo, signedMessagePayload, hsign]
  · simp only [VerifyMessage, hdec, hinfo, signedMessagePayload, hbase64, hrecover]
    simp

/-- Witness for C19: the message "hi" signed and verified for the address
"1Addr". -/
theorem sign_then_verify_message_witness :
    SignMessage exampleMsgEnv () { Address := "1Addr", Message := "hi" } =
      some (some "BCBY", none) ∧
    VerifyMessage exampleMsgEnv ()
      { Address := "1Addr", Signature := "BCBY", Message := "hi" } = some (some true, none) :=
  sign_then_verify_message exampleMsgEnv () "1Addr" "hi" "1Addr" { X := 1, Y := 2, D := 3 } true
    [1, 2, 1, 24] rfl rfl rfl rfl rfl

/-- C20, as stated, fails: the signature `SignMessage` returns for the
message "hi" and the address "1Addr", altered in one byte to a character
outside the encoding, makes `VerifyMessage` return a wallet error, and the
address altered in one byte makes it return a parse error; neither answer is
the boolean false. (An altered message, which still passes every step, is
answered with false.) -/
theorem verify_message_error_on_tampered_input :
    SignMessage exampleMsgEnv () { Address := "1Addr", Message := "hi" } =
      some (some "BCBY", none) ∧
    singleByteAlteration "BCBY" "BCB!" = true ∧
    VerifyMessage exampleMsgEnv ()
      { Address := "1Addr", Signature := "BCB!", Message := "hi" } =
      some (none, some { Code := ErrWalletCode, Message := "illegal base64 data" }) ∧
    singleByteAlteration "1Addr" "1Addx" = true ∧
    VerifyMessage exampleMsgEnv ()
      { Address := "1Addx", Signature := "BCBY", Message := "hi" } =
      some (none, some { Code := ErrParseCode, Message := "checksum mismatch" }) ∧
    singleByteAlteration "hi" "hj" = true ∧
    VerifyMessage exampleMsgEnv ()
      { Address := "1Addr", Signature := "BCBY", Message := "hj" } = some (some false, none) := by
  refine ⟨by decide, by decide, by decide, by decide, by decide, by decide, by decide⟩

/-- C20, amended. `VerifyMessage` answers a tampered input, like any other
input, with the boolean false only when the input passes every step before
the comparison: the address decodes and names a wallet pubkey address whose
private key is accessible, the signature decodes and a public key is
recovered from it and the hash of the payload, and the recovered key or its
compressed flag differs from the stored one. It returns an error envelope
when one of those steps fails: a parse error for an address that does not
decode, the invalid-address-or-key error for an address the wallet does not
know, a wallet error for an inaccessible private key, for a signature that
does not decode and for a failed recovery. -/
theorem verify_message_outcomes {AM : Type} (env : MessageCollaborators AM) (am : AM)
    (cmd : VerifyMessageCmd) :
    (∀ e, env.DecodeAddress cmd.Address = .error e →
      VerifyMessage env am cmd = some (none, some { Code := ErrParseCode, Message := e })) ∧
    (∀ addr e, env.DecodeAddress cmd.Address = .ok addr → env.Address am addr = .error e →
      VerifyMessage env am cmd = some (none, some ErrInvalidAddressOrKey)) ∧
    (∀ addr c e, env.DecodeAddress cmd.Address = .ok addr →
      env.Address am addr = .ok (.pubKey (.error e) c) →
        VerifyMessage env am cmd = some (none, some { Code := ErrWalletCode, Message := e })) ∧
    (∀ addr c key e, env.DecodeAddress cmd.Address = .ok addr →
      env.Address am addr = .ok (.pubKey (.ok key) c) →
      env.DecodeString cmd.Signature = .error e →
        VerifyMessage env am cmd = some (none, some { Code := ErrWalletCode, Message := e })) ∧
    (∀ addr c key sig e, env.DecodeAddress cmd.Address = .ok addr →
      env.Address am addr = .ok (.pubKey (.ok key) c) →
      env.DecodeString cmd.Signature = .ok sig →
      env.RecoverCompact sig
        (env.DoubleSha256 ("Bitcoin Signed Message:\n" ++ cmd.Message)) = .error e →
        VerifyMessage env am cmd = some (none, some { Code := ErrWalletCode, Message := e })) ∧
    (∀ addr c key sig x y wasCompressed, env.DecodeAddress cmd.Address = .ok addr →
      env.Address am addr = .ok (.pubKey (.ok key) c) →
      env.DecodeString cmd.Signature = .ok sig →
      env.RecoverCompact sig
        (env.DoubleSha256 ("Bitcoin Signed Message:\n" ++ cmd.Message)) =
          .ok (x, y, wasCompressed) →
        VerifyMessage env am cmd =
          some (some (decide (x = key.X ∧ y = key.Y ∧ c = wasCompressed)), none)) ∧
    (VerifyMessage env am cmd = some (some false, none) ↔
      ∃ addr c key sig x y wasCompressed, env.DecodeAddress cmd.Address = .ok addr ∧
        env.Address am addr = .ok (.pubKey (.ok key) c) ∧
        env.DecodeString cmd.Signature = .ok sig ∧
        env.RecoverCompact sig
          (env.DoubleSha256 ("Bitcoin Signed Message:\n" ++ cmd.Message)) =
            .ok (x, y, wasCompressed) ∧
        ¬(x = key.X ∧ y = key.Y ∧ c = wasCompressed)) := by
  have h6 : ∀ addr c key sig x y wasCompressed, env.DecodeAddress cmd.Address = .ok addr →
      env.Address am addr = .ok (.pubKey (.ok key) c) →
      env.DecodeString cmd.Signature = .ok sig →
      env.RecoverCompact sig
        (env.DoubleSha256 ("Bitcoin Signed Message:\n" ++ cmd.Message)) =
          .ok (x, y, wasCompressed) →
        VerifyMessage env am cmd =
          some (some (decide (x = key.X ∧ y = key.Y ∧ c = wasCompressed)), none) := by
    intro addr c key sig x y wc h1 h2 h3 h4
    simp only [VerifyMessage, h1, h2, h3, signedMessagePayload, h4]
    by_cases hx : x = key.X <;> by_cases hy : y = key.Y <;> cases c <;> cases wc <;>
      simp [hx, hy]
  refine ⟨?_, ?_, ?_, ?_, ?_, h6, ?_⟩
  · intro e h1
    simp only [VerifyMessage, h1]
  · intro addr e h1 h2
    simp only [VerifyMessage, h1, h2]
  · intro addr c e h1 h2
    simp only [VerifyMessage, h1, h2]
  · intro addr c key e h1 h2 h3
    simp only [VerifyMessage, h1, h2, h3]
  · intro addr c key sig e h1 h2 h3 h4
    simp only [VerifyMessage, h1, h2, h3, signedMessagePayload, h4]
  · constructor
    · intro hv
      unfold VerifyMessage at hv
      cases h1 : env.DecodeAddress cmd.Address with
      | error e => simp [h1] at hv
      | ok addr =>
        simp only [h1] at hv
        cases h2 : env.Address am addr with
        | error e => simp [h2] at hv
        | ok info =>
          cases info with
          | script s c => simp [h2] at hv
          | pubKey pk c =>
            cases pk with
            | error e => simp [h2] at hv
            | ok key =>
              simp only [h2] at hv
              cases h3 : env.DecodeString cmd.Signature with
              | error e => simp [h3] at hv
              | ok sig =>
                simp only [h3] at hv
                cases h4 : env.RecoverCompact sig
                    (env.DoubleSha256 (signedMessagePayload cmd.Message)) with
                | error e => simp [h4] at hv
                | ok r =>
                  obtain ⟨x, y, wc⟩ := r
                  refine ⟨addr, c, key, sig, x, y, wc, ?_, ?_, ?_, ?_, ?_⟩
                  · rfl
                  · exact h2
                  · rfl
                  · exact h4
                  have hv' := h6 addr c key sig x y wc h1 h2 h3 h4
                  unfold VerifyMessage at hv'
                  simp only [h1, h2, h3] at hv'
                  rw [hv'] at hv
                  simpa using hv
    · rintro ⟨addr, c, key, sig, x, y, wc, h1, h2, h3, h4, hne⟩
      rw [h6 addr c key sig x y wc h1 h2 h3 h4]
      simp [hne]

/-- Witness for C20, amended: the altered signature is answered with a wallet
error, the altered message with false. -/
theorem verify_message_outcomes_witness :
    VerifyMessage exampleMsgEnv ()
      { Address := "1Addr", Signature := "BCB!", Message := "hi" } =
      some (none, some { Code := ErrWalletCode, Message := "illegal base64 data" }) ∧
    VerifyMessage exampleMsgEnv ()
      { Address := "1Addr", Signature := "BCBY", Message := "hj" } = some (some false, none) :=
  ⟨(verify_message_outcomes exampleMsgEnv ()
      { Address := "1Addr", Signature := "BCB!", Message := "hi" }).2.2.2.1 "1Addr" true
      { X := 1, Y := 2, D := 3 } "illegal base64 data" rfl rfl rfl,
   (verify_message_outcomes exampleMsgEnv ()
      { Address := "1Addr", Signature := "BCBY", Message := "hj" }).2.2.2.2.2.1 "1Addr" true
      { X := 1, Y := 2, D := 3 } [1, 2, 1, 24] 2 2 true rfl rfl rfl rfl⟩

/-! ## The reply handler of the send path: failures after the broadcast -/

/-- C30, at the failing inputs: the broadcast succeeded and the insertion into
the transaction store, the recording of the debits, or the conversion of the
debits fails. `handleSendRawTxReply` returns the internal error and has sent
no done message; the whole send has sent the add message and neither done nor
remove, so the registry, run on the messages of that trace, still has the
entry for the hash, with a signal that has not fired. -/
theorem handleSendRawTxReply_failure_sends_no_done :
    handleSendRawTxReply exampleSendInsertFails "txid" exampleCreatedTx =
      ([.insertTx false], (none, some ErrInternal)) ∧
    handleSendRawTxReply exampleSendDebitsFail "txid" exampleCreatedTx =
      ([.insertTx true, .addDebits false], (none, some ErrInternal)) ∧
    handleSendRawTxReply exampleSendToJSONFails "txid" exampleCreatedTx =
      ([.insertTx true, .addDebits true, .scheduleTxStoreWrite], (none, some ErrInternal)) ∧
    sendPairs exampleSendInsertFails "" [("addr", 5)] 1 =
      ([.syncAdd 7, .scheduleWalletWrite, .flushAccount true, .reqNewTxsForAddress "change",
        .sendRawTransaction "0100" true, .insertTx false],
       (none, some ErrInternal)) ∧
    sendPairs exampleSendDebitsFail "" [("addr", 5)] 1 =
      ([.syncAdd 7, .scheduleWalletWrite, .flushAccount true, .reqNewTxsForAddress "change",
        .sendRawTransaction "0100" true, .insertTx true, .addDebits false],
       (none, some ErrInternal)) ∧
    sendPairs exampleSendToJSONFails "" [("addr", 5)] 1 =
      ([.syncAdd 7, .scheduleWalletWrite, .flushAccount true, .reqNewTxsForAddress "change",
        .sendRawTransaction "0100" true, .insertTx true, .addDebits true,
        .scheduleTxStoreWrite],
       (none, some ErrInternal)) ∧
    syncMsgsOf (sendPairs exampleSendInsertFails "" [("addr", 5)] 1).1 = [.add 7] ∧
    syncMsgsOf (sendPairs exampleSendDebitsFail "" [("addr", 5)] 1).1 = [.add 7] ∧
    syncMsgsOf (sendPairs exampleSendToJSONFails "" [("addr", 5)] 1).1 = [.add 7] ∧
    (∃ s, syncRun SyncState.init [.add 7] = some s ∧
      (syncAccess s 7).ok = true ∧ signalFired s (syncAccess s 7).c = false) :=
  ⟨by decide, by decide, by decide, by decide, by decide, by decide, by decide, by decide,
   by decide, _, rfl, by decide, by decide⟩

/-! ## SignRawTransaction: the requests for previous transactions -/

theorem addRequest_keys (requested : Requested) (op : OutPoint) :
    (addRequest requested op).map Prod.fst =
      if op.Hash ∈ requested.map Prod.fst then requested.map Prod.fst
      else requested.map Prod.fst ++ [op.Hash] := by
  induction requested with
  | nil => simp [addRequest]
  | cons p rest ih =>
    obtain ⟨h, idxs⟩ := p
    simp only [addRequest]
    by_cases hh : h = op.Hash
    · simp [hh]
    · rw [if_neg hh]
      simp only [List.map_cons, ih, List.mem_cons]
      have hne : ¬ op.Hash = h := fun e => hh e.symm
      by_cases hm : op.Hash ∈ rest.map Prod.fst
      · simp [hm]
      · simp [hm, hne]

theorem addRequest_lookup (requested : Requested) (op : OutPoint) (h : ShaHash) :
    (addRequest requested op).lookup h =
      if h = op.Hash then some ((requested.lookup h).getD [] ++ [op.Index])
      else requested.lookup h := by
  induction requested with
  | nil =>
    by_cases hh : h = op.Hash
    · simp [addRequest, List.lookup, hh]
    · have : (h == op.Hash) = false := by simpa using hh
      simp [addRequest, List.lookup, hh, this]
  | cons p rest ih =>
    obtain ⟨k, idxs⟩ := p
    simp only [addRequest]
    by_cases hk : k = op.Hash
    · rw [if_pos hk]
      by_cases hh : h = op.Hash
      · simp [List.lookup, hh, hk]
      · have : (h == k) = false := by rw [hk]; simpa using hh
        simp [List.lookup, hh, this]
    · rw [if_neg hk]
      by_cases hhk : h = k
      · have hne : ¬ h = op.Hash := by rw [hhk]; exact hk
        simp [List.lookup, hhk, hk]
      · have : (h == k) = false := by simpa using hhk
        simp only [List.lookup, this, ih]

theorem requestPrevouts_unsupplied (inputs : PrevScripts) (txIns : List TxIn)
    (requested : Requested) :
    requestPrevouts inputs txIns requested =
      requestPrevouts [] (unsuppliedInputs inputs txIns) requested := by
  induction txIns generalizing requested with
  | nil => rfl
  | cons t rest ih =>
    simp only [requestPrevouts, unsuppliedInputs, List.filter_cons]
    cases hl : inputs.lookup t.PreviousOutpoint with
    | some v =>
      simp only [Option.isSome_some, if_true, Option.isNone_some, Bool.false_eq_true, if_false]
      exact ih requested
    | none =>
      simp only [Option.isSome_none, Bool.false_eq_true, if_false, Option.isNone_none, if_true,
        requestPrevouts, List.lookup]
      exact ih _

theorem requestPrevouts_nil_inputs_keys (txIns : List TxIn) (requested : Requested)
    (hnd : (requested.map Prod.fst).Nodup) :
    ((requestPrevouts [] txIns requested).map Prod.fst).Nodup ∧
    ∀ h, h ∈ (requestPrevouts [] txIns requested).map Prod.fst ↔
      h ∈ requested.map Prod.fst ∨ h ∈ txIns.map (fun t => t.PreviousOutpoint.Hash) := by
  induction txIns generalizing requested with
  | nil => simp [requestPrevouts, hnd]
  | cons t rest ih =>
    simp only [requestPrevouts, List.lookup, Option.isSome_none, Bool.false_eq_true, if_false]
    have hk := addRequest_keys requested t.PreviousOutpoint
    have hnd' : ((addRequest requested t.PreviousOutpoint).map Prod.fst).Nodup := by
      rw [hk]
      by_cases hm : t.PreviousOutpoint.Hash ∈ requested.map Prod.fst
      · rw [if_pos hm]; exact hnd
      · rw [if_neg hm]
        exact List.Nodup.append hnd (List.nodup_singleton _)
          (by
            intro a ha hb
            rw [List.mem_singleton] at hb
            exact hm (hb ▸ ha))
    obtain ⟨h1, h2⟩ := ih _ hnd'
    refine ⟨h1, ?_⟩
    intro h
    rw [h2 h, hk]
    by_cases hm : t.PreviousOutpoint.Hash ∈ requested.map Prod.fst
    · rw [if_pos hm]
      simp only [List.map_cons, List.mem_cons]
      constructor
      · rintro (a | b)
        · exact Or.inl a
        · exact Or.inr (Or.inr b)
      · rintro (a | b | c)
        · exact Or.inl a
        · exact Or.inl (b ▸ hm)
        · exact Or.inr c
    · rw [if_neg hm]
      simp only [List.map_cons, List.mem_cons, List.mem_append, List.mem_singleton]
      tauto

theorem requestPrevouts_nil_inputs_lookup (txIns : List TxIn) (requested : Requested)
    (h : ShaHash) :
    (requestPrevouts [] txIns requested).lookup h =
      if indicesReferencing h txIns = [] then requested.lookup h
      else some ((requested.lookup h).getD [] ++ indicesReferencing h txIns) := by
  induction txIns generalizing requested with
  | nil => simp [requestPrevouts, indicesReferencing]
  | cons t rest ih =>
    simp only [requestPrevouts, List.lookup, Option.isSome_none, Bool.false_eq_true, if_false]
    rw [ih, addRequest_lookup]
    by_cases hh : h = t.PreviousOutpoint.Hash
    · have e : indicesReferencing h (t :: rest) =
          t.PreviousOutpoint.Index :: indicesReferencing h rest := by
        simp [indicesReferencing, List.filter_cons, hh]
      rw [e, if_pos hh]
      by_cases hr : indicesReferencing h rest = []
      · simp [hr]
      · simp [hr]
    · have e : indicesReferencing h (t :: rest) = indicesReferencing h rest := by
        have : ¬ t.PreviousOutpoint.Hash = h := fun e => hh e.symm
        simp [indicesReferencing, List.filter_cons, this]
      rw [e, if_neg hh]

theorem mem_iff_lookup_of_nodup_keys (requested : Requested)
    (hnd : (requested.map Prod.fst).Nodup) (h : ShaHash) (idxs : List Nat) :
    (h, idxs) ∈ requested ↔ requested.lookup h = some idxs := by
  induction requested with
  | nil => simp [List.lookup]
  | cons p rest ih =>
    obtain ⟨k, v⟩ := p
    simp only [List.map_cons, List.nodup_cons] at hnd
    by_cases hk : h = k
    · subst hk
      simp only [List.lookup, beq_self_eq_true, List.mem_cons, Prod.mk.injEq, true_and,
        Option.some.injEq]
      constructor
      · rintro (e | hm)
        · exact e.symm
        · exact absurd (List.mem_map_of_mem Prod.fst hm) hnd.1
      · intro e
        exact Or.inl e.symm
    · have hb : (h == k) = false := by simpa using hk
      simp only [List.lookup, hb, List.mem_cons, Prod.mk.injEq, hk, false_and, false_or]
      exact ih hnd.2

/-- C28: the requests for previous transactions are grouped by transaction
hash. For every supplemental map `inputs` and every list of inputs of the
transaction, the loop makes one request per distinct hash among the previous
outpoints that are not in the map (as many requests as there are such hashes,
no hash twice); the index list remembered with the request for hash `h` is
exactly the output indices of the inputs not in the map that reference `h`, in
input order; and the inputs whose outpoint was supplied change nothing: the
requests are those of the loop run on the other inputs alone. -/
theorem prevout_fetch_grouping (inputs : PrevScripts) (txIns : List TxIn) :
    (requestPrevouts inputs txIns []).length =
      ((unsuppliedInputs inputs txIns).map (fun t => t.PreviousOutpoint.Hash)).toFinset.card ∧
    ((requestPrevouts inputs txIns []).map Prod.fst).Nodup ∧
    (∀ h, h ∈ (requestPrevouts inputs txIns []).map Prod.fst ↔
      ∃ t ∈ txIns, (inputs.lookup t.PreviousOutpoint).isNone = true ∧
        t.PreviousOutpoint.Hash = h) ∧
    (∀ h idxs, (h, idxs) ∈ requestPrevouts inputs txIns [] ↔
      idxs = indicesReferencing h (unsuppliedInputs inputs txIns) ∧ idxs ≠ []) ∧
    requestPrevouts inputs txIns [] = requestPrevouts inputs (unsuppliedInputs inputs txIns) [] ∧
    requestPrevouts inputs txIns [] = requestPrevouts [] (unsuppliedInputs inputs txIns) [] := by
  have hu := requestPrevouts_unsupplied inputs txIns []
  obtain ⟨hnd, hkeys⟩ := requestPrevouts_nil_inputs_keys (unsuppliedInputs inputs txIns) []
    (by simp)
  rw [← hu] at hnd hkeys
  have hidem : unsuppliedInputs inputs (unsuppliedInputs inputs txIns) =
      unsuppliedInputs inputs txIns := by
    simp [unsuppliedInputs, List.filter_filter]
  refine ⟨?_, hnd, ?_, ?_, ?_, hu⟩
  · rw [← List.length_map (requestPrevouts inputs txIns []) Prod.fst,
      ← List.toFinset_card_of_nodup hnd]
    congr 1
    ext h
    simp only [List.mem_toFinset]
    rw [hkeys h]
    simp
  · intro h
    rw [hkeys h]
    simp only [List.map_nil, List.not_mem_nil, false_or, List.mem_map, unsuppliedInputs,
      List.mem_filter]
    constructor
    · rintro ⟨t, ⟨ht, hn⟩, e⟩
      exact ⟨t, ht, hn, e⟩
    · rintro ⟨t, ht, hn, e⟩
      exact ⟨t, ⟨ht, hn⟩, e⟩
  · intro h idxs
    rw [mem_iff_lookup_of_nodup_keys _ hnd, hu, requestPrevouts_nil_inputs_lookup]
    by_cases he : indicesReferencing h (unsuppliedInputs inputs txIns) = []
    · rw [if_pos he, he]
      simp only [List.lookup]
      constructor
      · intro x; cases x
      · rintro ⟨a, b⟩; exact absurd a b
    · rw [if_neg he]
      simp only [List.lookup, Option.getD_none, List.nil_append, Option.some.injEq]
      constructor
      · intro e; exact ⟨e.symm, e ▸ he⟩
      · rintro ⟨a, -⟩; exact a.symm
  · rw [requestPrevouts_unsupplied inputs (unsuppliedInputs inputs txIns) [], hidem]
    exact hu

theorem prevout_fetch_grouping_witness :
    requestPrevouts [({ Hash := 2, Index := 5 }, [118])] exampleGroupedInputs [] =
      [(1, [0, 3]), (4, [1])] ∧
    ((requestPrevouts [({ Hash := 2, Index := 5 }, [118])] exampleGroupedInputs []).map
      Prod.fst).Nodup :=
  ⟨by decide, (prevout_fetch_grouping [({ Hash := 2, Index := 5 }, [118])]
    exampleGroupedInputs).2.1⟩

/-! ## The configuration: removal of duplicate addresses -/

theorem removeDuplicateAddresses_seen (addrs : List String) (x : String) :
    ((addrs.foldl removeDuplicateAddressesStep ([], [])).2.lookup x).isSome = true ↔
      x ∈ (addrs.foldl removeDuplicateAddressesStep ([], [])).1 := by
  induction addrs using List.reverseRecOn with
  | nil => simp [List.lookup]
  | append_singleton l a ih =>
    rw [List.foldl_append]
    simp only [List.foldl_cons, List.foldl_nil]
    generalize l.foldl removeDuplicateAddressesStep ([], []) = st at ih ⊢
    unfold removeDuplicateAddressesStep
    by_cases hs : (st.2.lookup a).isSome = true
    · rw [if_pos hs]; exact ih
    · rw [if_neg hs]
      by_cases hx : x = a
      · subst hx
        simp [List.lookup]
      · have hb : (x == a) = false := by simpa using hx
        simp only [List.lookup, hb, List.mem_append, List.mem_singleton, hx, or_false]
        exact ih

theorem removeDuplicateAddresses_snoc (l : List String) (a : String) :
    removeDuplicateAddresses (l ++ [a]) =
      if a ∈ removeDuplicateAddresses l then removeDuplicateAddresses l
      else removeDuplicateAddresses l ++ [a] := by
  have hs := removeDuplicateAddresses_seen l a
  unfold removeDuplicateAddresses
  rw [List.foldl_append]
  simp only [List.foldl_cons, List.foldl_nil]
  generalize l.foldl removeDuplicateAddressesStep ([], []) = st at hs ⊢
  unfold removeDuplicateAddressesStep
  by_cases hm : a ∈ st.1
  · rw [if_pos (hs.2 hm), if_pos hm]
  · rw [if_neg (fun h => hm (hs.1 h)), if_neg hm]

theorem removeDuplicateAddresses_mem (l : List String) :
    ∀ x, x ∈ removeDuplicateAddresses l ↔ x ∈ l := by
  induction l using List.reverseRecOn with
  | nil => simp [removeDuplicateAddresses]
  | append_singleton l a ih =>
    intro x
    rw [removeDuplicateAddresses_snoc]
    by_cases hm : a ∈ removeDuplicateAddresses l
    · rw [if_pos hm, ih, List.mem_append, List.mem_singleton]
      constructor
      · exact Or.inl
      · rintro (h | h)
        · exact h
        · rw [h]; exact (ih a).1 hm
    · rw [if_neg hm, List.mem_append, List.mem_append, ih]

theorem removeDuplicateAddresses_snoc_mem (l : List String) (a : String) :
    removeDuplicateAddresses (l ++ [a]) =
      if a ∈ l then removeDuplicateAddresses l else removeDuplicateAddresses l ++ [a] := by
  rw [removeDuplicateAddresses_snoc]
  by_cases hm : a ∈ l
  · rw [if_pos hm, if_pos ((removeDuplicateAddresses_mem l a).2 hm)]
  · rw [if_neg hm, if_neg (fun h => hm ((removeDuplicateAddresses_mem l a).1 h))]

theorem removeDuplicateAddresses_nodup (l : List String) :
    (removeDuplicateAddresses l).Nodup := by
  induction l using List.reverseRecOn with
  | nil => simp [removeDuplicateAddresses]
  | append_singleton l a ih =>
    rw [removeDuplicateAddresses_snoc]
    by_cases hm : a ∈ removeDuplicateAddresses l
    · rw [if_pos hm]; exact ih
    · rw [if_neg hm]
      exact List.Nodup.append ih (List.nodup_singleton _)
        (by
          intro x hx hb
          rw [List.mem_singleton] at hb
          exact hm (hb ▸ hx))

theorem removeDuplicateAddresses_first_occurrences (l : List String) :
    ((removeDuplicateAddresses l).map (fun x => l.indexOf x)).Pairwise (fun i j => i < j) := by
  induction l using List.reverseRecOn with
  | nil => simp [removeDuplicateAddresses]
  | append_singleton l a ih =>
    have hsame : (removeDuplicateAddresses l).map (fun x => (l ++ [a]).indexOf x) =
        (removeDuplicateAddresses l).map (fun x => l.indexOf x) := by
      apply List.map_congr_left
      intro x hx
      exact List.indexOf_append_of_mem ((removeDuplicateAddresses_mem l x).1 hx)
    rw [removeDuplicateAddresses_snoc_mem]
    by_cases hm : a ∈ l
    · rw [if_pos hm, hsame]; exact ih
    · rw [if_neg hm, List.map_append, hsame, List.pairwise_append]
      refine ⟨ih, by simp, ?_⟩
      intro i hi j hj
      simp only [List.map_cons, List.map_nil, List.mem_singleton] at hj
      rw [hj, List.indexOf_append_of_not_mem hm]
      obtain ⟨x, hx, rfl⟩ := List.mem_map.1 hi
      have := List.indexOf_lt_length.2 ((removeDuplicateAddresses_mem l x).1 hx)
      omega

theorem removeDuplicateAddresses_of_nodup (l : List String) (h : l.Nodup) :
    removeDuplicateAddresses l = l := by
  induction l using List.reverseRecOn with
  | nil => simp [removeDuplicateAddresses]
  | append_singleton l a ih =>
    have hn := List.nodup_append.1 h
    have hm : a ∉ l := fun hx => hn.2.2 hx (List.mem_singleton_self a)
    rw [removeDuplicateAddresses_snoc_mem, if_neg hm, ih hn.1]

/-- C27: `removeDuplicateAddresses` returns the input with the duplicates
removed. For every list of strings the result has no repeated element, holds
exactly the elements of the input, and lists them in the order of their first
occurrence in the input (the positions of the first occurrences in the input
increase along the result; equivalently, a value at the end of the input is
appended when it did not occur before and dropped otherwise). The function is
idempotent, returns an input without duplicates unchanged, and so
`normalizeAddresses` returns a list without duplicates. -/
theorem removeDuplicateAddresses_spec (addrs : List String) :
    (removeDuplicateAddresses addrs).Nodup ∧
    (∀ x, x ∈ removeDuplicateAddresses addrs ↔ x ∈ addrs) ∧
    ((removeDuplicateAddresses addrs).map (fun x => addrs.indexOf x)).Pairwise
      (fun i j => i < j) ∧
    removeDuplicateAddresses [] = [] ∧
    (∀ a, removeDuplicateAddresses (addrs ++ [a]) =
      if a ∈ addrs then removeDuplicateAddresses addrs
      else removeDuplicateAddresses addrs ++ [a]) ∧
    removeDuplicateAddresses (removeDuplicateAddresses addrs) = removeDuplicateAddresses addrs ∧
    (addrs.Nodup → removeDuplicateAddresses addrs = addrs) ∧
    (∀ normalizeAddress defaultPort,
      (normalizeAddresses normalizeAddress addrs defaultPort).Nodup) :=
  ⟨removeDuplicateAddresses_nodup addrs, removeDuplicateAddresses_mem addrs,
   removeDuplicateAddresses_first_occurrences addrs, rfl,
   removeDuplicateAddresses_snoc_mem addrs,
   removeDuplicateAddresses_of_nodup _ (removeDuplicateAddresses_nodup addrs),
   removeDuplicateAddresses_of_nodup addrs,
   fun _ _ => removeDuplicateAddresses_nodup _⟩

theorem removeDuplicateAddresses_spec_witness :
    removeDuplicateAddresses ["b:1", "a:1", "b:1", "c:1", "a:1"] = ["b:1", "a:1", "c:1"] ∧
    ["b:1", "a:1", "c:1"].Nodup ∧
    removeDuplicateAddresses ["b:1", "a:1", "c:1"] = ["b:1", "a:1", "c:1"] :=
  ⟨by decide, by decide,
   (removeDuplicateAddresses_spec ["b:1", "a:1", "c:1"]).2.2.2.2.2.2.1 (by decide)⟩

/-! ## The registry of notified mempool transactions -/

theorem notifiedRun_snoc (m : NotifiedRecvTxs) (msgs : List NotifiedRecvTxMsg)
    (msg : NotifiedRecvTxMsg) :
    notifiedRun m (msgs ++ [msg]) = notifiedStep (notifiedRun m msgs) msg := by
  simp [notifiedRun, List.foldl_append]

theorem specNotified_snoc (msgs : List NotifiedRecvTxMsg) (msg : NotifiedRecvTxMsg)
    (op : OutPoint) :
    specNotified (msgs ++ [msg]) op =
      if msg.op = op then decide (msg = .add op) else specNotified msgs op := by
  unfold specNotified
  rw [List.reverse_append, List.reverse_singleton, List.singleton_append, List.find?_cons]
  by_cases h : msg.op = op
  · simp only [h, decide_True, if_true]
    cases msg with
    | add x => simp only [NotifiedRecvTxMsg.op] at h; simp [h]
    | remove x => simp
  · simp only [h, decide_False, if_false]

theorem notifiedStep_access (m : NotifiedRecvTxs) (msg : NotifiedRecvTxMsg) (op : OutPoint) :
    notifiedAccess (notifiedStep m msg) op =
      if msg.op = op then decide (msg = .add op) else notifiedAccess m op := by
  cases msg with
  | add x =>
    simp only [notifiedStep, notifiedAccess, NotifiedRecvTxMsg.op]
    by_cases h : x = op
    · subst h; simp
    · have h' : ¬ op = x := fun e => h e.symm
      simp [h, h']
  | remove x =>
    simp only [notifiedStep, notifiedAccess, NotifiedRecvTxMsg.op]
    by_cases h : x = op
    · subst h
      cases hm : m x with
      | none => simp [hm]
      | some u => simp [hm]
    · have h' : ¬ op = x := fun e => h e.symm
      cases hm : m x with
      | none => simp [h]
      | some u => simp [h, h']

theorem notifiedRun_agrees (msgs : List NotifiedRecvTxMsg) (op : OutPoint) :
    notifiedAccess (notifiedRun NotifiedRecvTxs.init msgs) op = specNotified msgs op := by
  induction msgs using List.reverseRecOn with
  | nil => rfl
  | append_singleton l a ih =>
    rw [notifiedRun_snoc, notifiedStep_access, specNotified_snoc, ih]

/-- C25: the registry of notified mempool transactions behaves as a set of
outpoints. For every finite sequence of add and remove messages and every
outpoint `op`, the answer to an access for `op` after the sequence is true
exactly when the most recent message about `op` was an add; it is the answer
after the messages about `op` alone. In every state of the map, adding an
outpoint that is present and removing one that is absent leave the map
unchanged, and a message about another outpoint, such as one with the same
transaction hash and another index, does not change the answer for `op`. -/
theorem mempool_recv_registry_is_set (msgs : List NotifiedRecvTxMsg) (op : OutPoint) :
    notifiedAccess (notifiedRun NotifiedRecvTxs.init msgs) op = specNotified msgs op ∧
    notifiedAccess (notifiedRun NotifiedRecvTxs.init msgs) op =
      notifiedAccess (notifiedRun NotifiedRecvTxs.init
        (msgs.filter (fun msg => decide (msg.op = op)))) op ∧
    (∀ m : NotifiedRecvTxs, notifiedAccess m op = true → notifiedStep m (.add op) = m) ∧
    (∀ m : NotifiedRecvTxs, notifiedAccess m op = false → notifiedStep m (.remove op) = m) ∧
    (∀ (m : NotifiedRecvTxs) (msg : NotifiedRecvTxMsg), msg.op ≠ op →
      notifiedAccess (notifiedStep m msg) op = notifiedAccess m op) ∧
    (∀ (m : NotifiedRecvTxs) (i : Nat), i ≠ op.Index →
      notifiedAccess (notifiedStep m (.add { Hash := op.Hash, Index := i })) op =
        notifiedAccess m op ∧
      notifiedAccess (notifiedStep m (.remove { Hash := op.Hash, Index := i })) op =
        notifiedAccess m op) := by
  have hother : ∀ (m : NotifiedRecvTxs) (msg : NotifiedRecvTxMsg), msg.op ≠ op →
      notifiedAccess (notifiedStep m msg) op = notifiedAccess m op := by
    intro m msg h
    rw [notifiedStep_access, if_neg h]
  refine ⟨notifiedRun_agrees msgs op, ?_, ?_, ?_, hother, ?_⟩
  · rw [notifiedRun_agrees, notifiedRun_agrees]
    unfold specNotified
    rw [← List.filter_reverse, List.find?_filter]
    simp
  · intro m h
    funext k
    simp only [notifiedStep]
    by_cases hk : k = op
    · subst hk
      simp only [notifiedAccess] at h
      cases hm : m k with
      | none => simp [hm] at h
      | some u => simp
    · simp [hk]
  · intro m h
    simp only [notifiedAccess] at h
    simp [notifiedStep, h]
  · intro m i hi
    have hne : ({ Hash := op.Hash, Index := i } : OutPoint) ≠ op := by
      intro e
      apply hi
      rw [← e]
    exact ⟨hother m (.add _) hne, hother m (.remove _) hne⟩

theorem mempool_recv_registry_is_set_witness :
    notifiedAccess (notifiedRun NotifiedRecvTxs.init
      [.add { Hash := 7, Index := 0 }, .add { Hash := 7, Index := 1 },
       .remove { Hash := 7, Index := 1 }]) { Hash := 7, Index := 0 } = true ∧
    notifiedStep (notifiedRun NotifiedRecvTxs.init [.add { Hash := 7, Index := 0 }])
        (.add { Hash := 7, Index := 0 }) =
      notifiedRun NotifiedRecvTxs.init [.add { Hash := 7, Index := 0 }] :=
  ⟨by decide,
   (mempool_recv_registry_is_set [] { Hash := 7, Index := 0 }).2.2.1
     (notifiedRun NotifiedRecvTxs.init [.add { Hash := 7, Index := 0 }]) (by decide)⟩

/-! ## The registry of balance notification barriers -/

theorem balanceRun_snoc (s : BalanceSyncerState) (msgs : List BalanceMsg) (msg : BalanceMsg) :
    balanceRun s (msgs ++ [msg]) =
      ((balanceStep (balanceRun s msgs).1 msg).1,
       (balanceRun s msgs).2 ++ [(msg, (balanceStep (balanceRun s msgs).1 msg).2)]) := by
  simp [balanceRun, List.foldl_append]

theorem balanceRun_log (s : BalanceSyncerState) (msgs : List BalanceMsg) :
    (balanceRun s msgs).2.map Prod.fst = msgs := by
  induction msgs using List.reverseRecOn with
  | nil => rfl
  | append_singleton l a ih => rw [balanceRun_snoc]; simp [ih]

theorem sinceLastRemove_snoc (b : ShaHash) (log : List (BalanceMsg × BalanceReply))
    (e : BalanceMsg × BalanceReply) :
    sinceLastRemove b (log ++ [e]) =
      if e.1 = .remove b then [] else sinceLastRemove b log ++ [e] := by
  unfold sinceLastRemove
  rw [List.reverse_append, List.reverse_singleton, List.singleton_append, List.takeWhile_cons]
  by_cases h : e.1 = .remove b
  · simp [h]
  · simp [h]

theorem entersSince_snoc (b : ShaHash) (log : List (BalanceMsg × BalanceReply))
    (e : BalanceMsg × BalanceReply) :
    entersSince b (log ++ [e]) =
      if e.1 = .remove b then 0
      else entersSince b log + (if e.1 = .add b then 1 else 0) := by
  unfold entersSince
  rw [sinceLastRemove_snoc]
  by_cases h : e.1 = .remove b
  · simp [h]
  · rw [if_neg h, if_neg h, List.filter_append, List.length_append]
    by_cases ha : e.1 = .add b
    · simp [ha]
    · simp [ha]

theorem entersSince_zero (b : ShaHash) (log : List (BalanceMsg × BalanceReply))
    (h : entersSince b log = 0) : ∀ e ∈ sinceLastRemove b log, e.1 ≠ .add b := by
  intro e he ha
  unfold entersSince at h
  have : e ∈ (sinceLastRemove b log).filter (fun e => decide (e.1 = .add b)) :=
    List.mem_filter.2 ⟨he, by simpa using ha⟩
  rw [List.length_eq_zero.1 h] at this
  exact absurd this (List.not_mem_nil _)
theorem wgAdd_length (wgs : List Nat) (h : Nat) : (wgAdd wgs h).length = wgs.length := by
  simp [wgAdd]

theorem wgAdd_self (wgs : List Nat) (h n : Nat) (hn : wgs[h]? = some n) :
    (wgAdd wgs h)[h]? = some (n + 1) := by
  have hlt : h < wgs.length := by
    rcases Nat.lt_or_ge h wgs.length with hl | hl
    · exact hl
    · rw [List.getElem?_eq_none hl] at hn; cases hn
  have hd : wgs.getD h 0 = n := by
    simp [List.getD, hn]
  unfold wgAdd
  rw [hd, List.getElem?_set, if_pos rfl, if_pos hlt]

theorem wgAdd_other (wgs : List Nat) (h k : Nat) (hk : k ≠ h) :
    (wgAdd wgs h)[k]? = wgs[k]? := by
  have : h ≠ k := fun e => hk e.symm
  simp [wgAdd, List.getElem?_set, this]

theorem balanceStep_inv (s : BalanceSyncerState) (log : List (BalanceMsg × BalanceReply))
    (msg : BalanceMsg) (hinv : BalanceInv s log) :
    BalanceInv (balanceStep s msg).1 (log ++ [(msg, (balanceStep s msg).2)]) := by
  obtain ⟨hb, hi, hn, hs⟩ := hinv
  cases msg with
  | access x =>
    have e1 : (balanceStep s (.access x)).1 = s := rfl
    rw [e1]
    refine ⟨hb, hi, ?_, ?_⟩
    · intro b hm
      rw [entersSince_snoc]
      simp [hn b hm]
    · intro b h hm
      obtain ⟨h1, h2, h3⟩ := hs b h hm
      rw [entersSince_snoc, sinceLastRemove_snoc]
      simp only [reduceCtorEq, if_false, Nat.add_zero]
      refine ⟨h1, h2, ?_⟩
      intro e he ha
      rcases List.mem_append.1 he with he | he
      · exact h3 e he ha
      · rw [List.mem_singleton] at he
        rw [he] at ha
        cases ha
  | remove x =>
    have e1 : (balanceStep s (.remove x)).1.wgs = s.wgs := by
      simp only [balanceStep]; split <;> rfl
    have e2 : ∀ k, (balanceStep s (.remove x)).1.m k = if k = x then none else s.m k := by
      intro k
      simp only [balanceStep]
      split
      · rfl
      · rename_i hx
        by_cases hk : k = x
        · rw [if_pos hk, hk]
          cases hm : s.m x with
          | none => rfl
          | some v => rw [hm] at hx; simp at hx
        · rw [if_neg hk]
    refine ⟨?_, ?_, ?_, ?_⟩
    · intro k h hm
      rw [e2] at hm
      rw [e1]
      by_cases hk : k = x
      · rw [if_pos hk] at hm; cases hm
      · rw [if_neg hk] at hm; exact hb k h hm
    · intro k y h hk hy
      rw [e2] at hk hy
      by_cases hkx : k = x
      · rw [if_pos hkx] at hk; cases hk
      · by_cases hyx : y = x
        · rw [if_pos hyx] at hy; cases hy
        · rw [if_neg hkx] at hk; rw [if_neg hyx] at hy
          exact hi k y h hk hy
    · intro b hm
      rw [e2] at hm
      rw [entersSince_snoc]
      by_cases hbx : b = x
      · simp [hbx]
      · rw [if_neg hbx] at hm
        have : ¬ BalanceMsg.remove x = BalanceMsg.remove b := by
          intro e; injection e with e; exact hbx e.symm
        simp [this, hn b hm]
    · intro b h hm
      rw [e2] at hm
      by_cases hbx : b = x
      · rw [if_pos hbx] at hm; cases hm
      · rw [if_neg hbx] at hm
        obtain ⟨h1, h2, h3⟩ := hs b h hm
        have hne : ¬ BalanceMsg.remove x = BalanceMsg.remove b := by
          intro e; injection e with e; exact hbx e.symm
        rw [entersSince_snoc, sinceLastRemove_snoc, e1]
        simp only [hne, reduceCtorEq, if_false, Nat.add_zero]
        refine ⟨h1, h2, ?_⟩
        intro e he ha
        rcases List.mem_append.1 he with he | he
        · exact h3 e he ha
        · rw [List.mem_singleton] at he
          rw [he] at ha
          cases ha
  | add x =>
    cases hx : s.m x with
    | some wg =>
      have e1 : (balanceStep s (.add x)).1.wgs = wgAdd s.wgs wg := by
        simp only [balanceStep, hx]
      have e2 : ∀ k, (balanceStep s (.add x)).1.m k = s.m k := by
        intro k
        simp only [balanceStep, hx]
        by_cases hk : k = x
        · rw [if_pos hk, hk, hx]
        · rw [if_neg hk]
      have e3 : (balanceStep s (.add x)).2 = some (some wg) := by
        simp only [balanceStep, hx]
      refine ⟨?_, ?_, ?_, ?_⟩
      · intro k h hm
        rw [e2] at hm
        rw [e1, wgAdd_length]
        exact hb k h hm
      · intro k y h hk hy
        rw [e2] at hk hy
        exact hi k y h hk hy
      · intro b hm
        rw [e2] at hm
        have hbx : b ≠ x := by
          intro e; rw [e, hx] at hm; cases hm
        have hne : ¬ BalanceMsg.add x = BalanceMsg.add b := by
          intro e; injection e with e; exact hbx e.symm
        rw [entersSince_snoc]
        simp [hne, hn b hm]
      · intro b h hm
        rw [e2] at hm
        obtain ⟨h1, h2, h3⟩ := hs b h hm
        rw [entersSince_snoc, sinceLastRemove_snoc, e1, e3]
        simp only [reduceCtorEq, if_false]
        by_cases hbx : b = x
        · subst hbx
          have hw : h = wg := by rw [hx] at hm; injection hm with hm; exact hm.symm
          subst hw
          simp only [if_true]
          refine ⟨Nat.succ_pos _, wgAdd_self _ _ _ h2, ?_⟩
          intro e he ha
          rcases List.mem_append.1 he with he | he
          · exact h3 e he ha
          · rw [List.mem_singleton] at he
            rw [he]
        · have hne : ¬ BalanceMsg.add x = BalanceMsg.add b := by
            intro e; injection e with e; exact hbx e.symm
          have hhw : h ≠ wg := by
            intro e
            rw [e] at hm
            exact hbx (hi b x wg hm hx)
          simp only [hne, if_false, Nat.add_zero]
          refine ⟨h1, by rw [wgAdd_other _ _ _ hhw]; exact h2, ?_⟩
          intro e he ha
          rcases List.mem_append.1 he with he | he
          · exact h3 e he ha
          · rw [List.mem_singleton] at he
            rw [he] at ha
            exact absurd ha hne
    | none =>
      have e1 : (balanceStep s (.add x)).1.wgs = wgAdd (s.wgs ++ [0]) s.wgs.length := by
        simp only [balanceStep, hx]
      have e2 : ∀ k, (balanceStep s (.add x)).1.m k =
          if k = x then some s.wgs.length else s.m k := by
        intro k
        simp only [balanceStep, hx]
        by_cases hk : k = x
        · rw [if_pos hk, if_pos hk]
        · simp only [if_neg hk]
      have e3 : (balanceStep s (.add x)).2 = some (some s.wgs.length) := by
        simp only [balanceStep, hx]
      have hnew : (wgAdd (s.wgs ++ [0]) s.wgs.length)[s.wgs.length]? = some 1 := by
        have := wgAdd_self (s.wgs ++ [0]) s.wgs.length 0 (by simp)
        simpa using this
      have hold : ∀ h, h < s.wgs.length →
          (wgAdd (s.wgs ++ [0]) s.wgs.length)[h]? = s.wgs[h]? := by
        intro h hlt
        rw [wgAdd_other _ _ _ (Nat.ne_of_lt hlt), List.getElem?_append_left hlt]
      refine ⟨?_, ?_, ?_, ?_⟩
      · intro k h hm
        rw [e2] at hm
        rw [e1, wgAdd_length, List.length_append, List.length_singleton]
        by_cases hk : k = x
        · rw [if_pos hk] at hm; injection hm with hm; omega
        · rw [if_neg hk] at hm
          have := hb k h hm
          omega
      · intro k y h hk hy
        rw [e2] at hk hy
        by_cases hkx : k = x
        · by_cases hyx : y = x
          · rw [hkx, hyx]
          · rw [if_pos hkx] at hk; rw [if_neg hyx] at hy
            injection hk with hk
            have := hb y h hy
            omega
        · by_cases hyx : y = x
          · rw [if_neg hkx] at hk; rw [if_pos hyx] at hy
            injection hy with hy
            have := hb k h hk
            omega
          · rw [if_neg hkx] at hk; rw [if_neg hyx] at hy
            exact hi k y h hk hy
      · intro b hm
        rw [e2] at hm
        by_cases hbx : b = x
        · rw [if_pos hbx] at hm; cases hm
        · rw [if_neg hbx] at hm
          have hne : ¬ BalanceMsg.add x = BalanceMsg.add b := by
            intro e; injection e with e; exact hbx e.symm
          rw [entersSince_snoc]
          simp [hne, hn b hm]
      · intro b h hm
        rw [e2] at hm
        rw [entersSince_snoc, sinceLastRemove_snoc, e1, e3]
        simp only [reduceCtorEq, if_false]
        by_cases hbx : b = x
        · subst hbx
          rw [if_pos rfl] at hm
          injection hm with hm
          subst hm
          have h0 := hn b hx
          simp only [if_true, h0, Nat.zero_add]
          refine ⟨Nat.one_pos, hnew, ?_⟩
          intro e he ha
          rcases List.mem_append.1 he with he | he
          · exact absurd ha (entersSince_zero b log h0 e he)
          · rw [List.mem_singleton] at he
            rw [he]
        · rw [if_neg hbx] at hm
          obtain ⟨h1, h2, h3⟩ := hs b h hm
          have hne : ¬ BalanceMsg.add x = BalanceMsg.add b := by
            intro e; injection e with e; exact hbx e.symm
          simp only [hne, if_false, Nat.add_zero]
          refine ⟨h1, by rw [hold h (hb b h hm)]; exact h2, ?_⟩
          intro e he ha
          rcases List.mem_append.1 he with he | he
          · exact h3 e he ha
          · rw [List.mem_singleton] at he
            rw [he] at ha
            exact absurd ha hne

theorem balanceRun_inv (msgs : List BalanceMsg) :
    BalanceInv (balanceRun BalanceSyncerState.init msgs).1
      (balanceRun BalanceSyncerState.init msgs).2 := by
  induction msgs using List.reverseRecOn with
  | nil =>
    refine ⟨?_, ?_, ?_, ?_⟩
    · intro x h hm; cases hm
    · intro x y h hm; cases hm
    · intro b _; rfl
    · intro b h hm; cases hm
  | append_singleton l a ih =>
    rw [balanceRun_snoc]
    exact balanceStep_inv _ _ a ih
/-- C26: the registry of balance notification barriers. For every finite
sequence of add (enter), remove and access (group-for) messages, run from the
empty registry, and every block hash `b`: each message is processed and logged
with its reply; an access for `b` is answered nil exactly when there has been
no enter for `b` since the last remove for `b`; otherwise it is answered the
one wait group that was sent back to every enter for `b` since that remove,
and the loop has called `Add(1)` on that wait group exactly once per such
enter. An access leaves the registry as it is and sends the answer, and a
message about another block hash changes neither the answer for `b` nor the
count of its wait group. -/
theorem balance_barrier_registry (msgs : List BalanceMsg) (b : ShaHash) :
    (balanceRun BalanceSyncerState.init msgs).2.map Prod.fst = msgs ∧
    (balanceAccess (balanceRun BalanceSyncerState.init msgs).1 b = none ↔
      entersSince b (balanceRun BalanceSyncerState.init msgs).2 = 0) ∧
    (∀ h, balanceAccess (balanceRun BalanceSyncerState.init msgs).1 b = some h →
      (∀ e ∈ sinceLastRemove b (balanceRun BalanceSyncerState.init msgs).2,
        e.1 = .add b → e.2 = some (some h)) ∧
      (balanceRun BalanceSyncerState.init msgs).1.wgs[h]? =
        some (entersSince b (balanceRun BalanceSyncerState.init msgs).2)) ∧
    balanceStep (balanceRun BalanceSyncerState.init msgs).1 (.access b) =
      ((balanceRun BalanceSyncerState.init msgs).1,
       some (balanceAccess (balanceRun BalanceSyncerState.init msgs).1 b)) ∧
    (∀ msg : BalanceMsg, msg.block ≠ b →
      balanceAccess (balanceStep (balanceRun BalanceSyncerState.init msgs).1 msg).1 b =
        balanceAccess (balanceRun BalanceSyncerState.init msgs).1 b ∧
      ∀ h, balanceAccess (balanceRun BalanceSyncerState.init msgs).1 b = some h →
        (balanceStep (balanceRun BalanceSyncerState.init msgs).1 msg).1.wgs[h]? =
          (balanceRun BalanceSyncerState.init msgs).1.wgs[h]?) := by
  refine ⟨balanceRun_log _ msgs, ?_⟩
  have hinv := balanceRun_inv msgs
  generalize (balanceRun BalanceSyncerState.init msgs).1 = s at hinv ⊢
  generalize (balanceRun BalanceSyncerState.init msgs).2 = log at hinv ⊢
  obtain ⟨hb, hi, hn, hs⟩ := hinv
  refine ⟨?_, ?_, rfl, ?_⟩
  · constructor
    · exact hn b
    · intro h0
      cases hm : balanceAccess s b with
      | none => rfl
      | some h =>
        have := (hs b h hm).1
        omega
  · intro h hm
    exact ⟨(hs b h hm).2.2, (hs b h hm).2.1⟩
  · intro msg hne
    cases msg with
    | access x => exact ⟨rfl, fun _ _ => rfl⟩
    | remove x =>
      have hbx : ¬ b = x := fun e => hne e.symm
      simp only [balanceStep, balanceAccess]
      split
      · exact ⟨by simp [hbx], fun _ _ => rfl⟩
      · exact ⟨rfl, fun _ _ => rfl⟩
    | add x =>
      have hbx : ¬ b = x := fun e => hne e.symm
      cases hx : s.m x with
      | some wg =>
        simp only [balanceStep, balanceAccess, hx, if_neg hbx]
        refine ⟨trivial, ?_⟩
        intro h hm
        have hhw : h ≠ wg := by
          intro e
          rw [e] at hm
          exact hbx (hi b x wg hm hx)
        exact wgAdd_other _ _ _ hhw
      | none =>
        simp only [balanceStep, balanceAccess, hx, if_neg hbx]
        refine ⟨trivial, ?_⟩
        intro h hm
        have hlt := hb b h hm
        rw [wgAdd_other _ _ _ (Nat.ne_of_lt hlt), List.getElem?_append_left hlt]

theorem balance_barrier_registry_witness :
    balanceAccess (balanceRun BalanceSyncerState.init
      [.add 1, .add 2, .add 1, .access 1, .remove 2]).1 1 = some 0 ∧
    (balanceRun BalanceSyncerState.init
      [.add 1, .add 2, .add 1, .access 1, .remove 2]).2 =
      [(.add 1, some (some 0)), (.add 2, some (some 1)), (.add 1, some (some 0)),
       (.access 1, some (some 0)), (.remove 2, none)] ∧
    entersSince 1 (balanceRun BalanceSyncerState.init
      [.add 1, .add 2, .add 1, .access 1, .remove 2]).2 = 2 ∧
    (balanceRun BalanceSyncerState.init
      [.add 1, .add 2, .add 1, .access 1, .remove 2]).1.wgs[0]? =
      some (entersSince 1 (balanceRun BalanceSyncerState.init
        [.add 1, .add 2, .add 1, .access 1, .remove 2]).2) :=
  ⟨by decide, by decide, by decide,
   ((balance_barrier_registry [.add 1, .add 2, .add 1, .access 1, .remove 2] 1).2.2.1 0
     (by decide)).2⟩

/-! ## The address handlers -/

/-- C23, at the failing input: the default account exists and issuing the next
address fails with `wallet.ErrWalletLocked`. `GetNewAddress` returns no address
and a wallet error (code −4) with the text of that error, not the
keypool-exhausted error (code −12); `GetAccountAddress`, in the same wallet,
returns the keypool-exhausted error. -/
theorem getNewAddress_locked_wallet_error :
    GetNewAddress exampleLockedKeypool "" =
      (none, some { Code := -4, Message := "wallet is locked" }) ∧
    GetNewAddress exampleLockedKeypool "" ≠ (none, some ErrWalletKeypoolRanOut) ∧
    (GetNewAddress exampleLockedKeypool "").2.map JsonError.Code = some (-4) ∧
    GetAccountAddress exampleLockedKeypool "" = (none, some ErrWalletKeypoolRanOut) ∧
    ErrWalletKeypoolRanOut.Code = -12 :=
  ⟨by decide, by decide, by decide, by decide, by decide⟩

/-! ## ImportPrivKey -/

/-- C24: the outcome of `ImportPrivKey` as a function of the outcomes of its
collaborators. An account that is not found gives the invalid-account-name
error (any other error of the lookup gives a wallet error with its text); with
the account found, a string that does not decode, or decodes to a key of
another network than the account, gives the invalid-address-or-key error; in
all these cases the import is not called. Otherwise the import is called once,
with the decoded key: success and the duplicate-key error both give a null
result and no error, the wallet-locked error gives the unlock-needed error,
and any other error gives a wallet error with its text. The result is null in
every case. -/
theorem importPrivKey_outcomes (env : ImportCollaborators) (cmd : ImportPrivKeyCmd) :
    (∀ err, env.Account cmd.Label = some err → err.sentinel = some .ErrNotFound →
      ImportPrivKey env cmd = ([], (none, some ErrWalletInvalidAccountName))) ∧
    (∀ err, env.Account cmd.Label = some err → err.sentinel ≠ some .ErrNotFound →
      ImportPrivKey env cmd = ([], (none, some { Code := ErrWalletCode, Message := err.text }))) ∧
    (env.Account cmd.Label = none →
      (∀ err, env.DecodePrivateKey cmd.PrivKey = .error err →
        ImportPrivKey env cmd = ([], (none, some ErrInvalidAddressOrKey))) ∧
      (∀ key, env.DecodePrivateKey cmd.PrivKey = .ok key → key.net ≠ env.Net cmd.Label →
        ImportPrivKey env cmd = ([], (none, some ErrInvalidAddressOrKey))) ∧
      (∀ key, env.DecodePrivateKey cmd.PrivKey = .ok key → key.net = env.Net cmd.Label →
        (ImportPrivKey env cmd).1 =
          [.importPrivateKey cmd.Label key.pk key.compressed cmd.Rescan] ∧
        (env.ImportPrivateKey cmd.Label key.pk key.compressed cmd.Rescan = none →
          (ImportPrivKey env cmd).2 = (none, none)) ∧
        (∀ err, env.ImportPrivateKey cmd.Label key.pk key.compressed cmd.Rescan = some err →
          (err.sentinel = some .ErrDuplicate → (ImportPrivKey env cmd).2 = (none, none)) ∧
          (err.sentinel = some .ErrWalletLocked →
            (ImportPrivKey env cmd).2 = (none, some ErrWalletUnlockNeeded)) ∧
          (err.sentinel ≠ some .ErrDuplicate → err.sentinel ≠ some .ErrWalletLocked →
            (ImportPrivKey env cmd).2 =
              (none, some { Code := ErrWalletCode, Message := err.text }))))) ∧
    (ImportPrivKey env cmd).2.1 = none := by
  refine ⟨?_, ?_, ?_, ?_⟩
  · intro err ha hs
    simp only [ImportPrivKey, ha, hs]
  · intro err ha hs
    simp only [ImportPrivKey, ha]
  · intro ha
    refine ⟨?_, ?_, ?_⟩
    · intro err hd
      simp only [ImportPrivKey, ha, hd]
    · intro key hd hn
      simp only [ImportPrivKey, ha, hd, if_pos hn]
    · intro key hd hn
      have hn' : ¬ key.net ≠ env.Net cmd.Label := fun h => h hn
      refine ⟨?_, ?_, ?_⟩
      · simp only [ImportPrivKey, ha, hd, if_neg hn']
        split
        · rfl
        · split <;> rfl
      · intro hi
        simp only [ImportPrivKey, ha, hd, if_neg hn', hi]
      · intro err hi
        refine ⟨?_, ?_, ?_⟩
        · intro hs
          simp only [ImportPrivKey, ha, hd, if_neg hn', hi, hs]
        · intro hs
          simp only [ImportPrivKey, ha, hd, if_neg hn', hi, hs]
        · intro h1 h2
          simp only [ImportPrivKey, ha, hd, if_neg hn', hi]
  · unfold ImportPrivKey
    split
    · split <;> rfl
    · split
      · rfl
      · split
        · rfl
        · split
          · rfl
          · split <;> rfl

theorem importPrivKey_outcomes_witness :
    ImportPrivKey exampleImportEnv { PrivKey := "wif5", Label := "", Rescan := false } =
      ([.importPrivateKey "" 5 true false], (none, none)) ∧
    ImportPrivKey exampleImportEnv { PrivKey := "wif4", Label := "", Rescan := false } =
      ([.importPrivateKey "" 4 true false], (none, none)) ∧
    ImportPrivKey exampleImportEnv { PrivKey := "wif6", Label := "", Rescan := false } =
      ([.importPrivateKey "" 6 true false], (none, some ErrWalletUnlockNeeded)) ∧
    ImportPrivKey exampleImportEnv { PrivKey := "wif7", Label := "", Rescan := false } =
      ([.importPrivateKey "" 7 true false],
       (none, some { Code := ErrWalletCode, Message := "disk full" })) ∧
    ImportPrivKey exampleImportEnv { PrivKey := "nonsense", Label := "", Rescan := false } =
      ([], (none, some ErrInvalidAddressOrKey)) ∧
    ImportPrivKey exampleImportEnv { PrivKey := "main5", Label := "", Rescan := false } =
      ([], (none, some ErrInvalidAddressOrKey)) ∧
    ImportPrivKey exampleImportEnv { PrivKey := "wif5", Label := "savings", Rescan := false } =
      ([], (none, some ErrWalletInvalidAccountName)) :=
  ⟨by decide, by decide, by decide, by decide, by decide,
   ((importPrivKey_outcomes exampleImportEnv
      { PrivKey := "main5", Label := "", Rescan := false }).2.2.1 (by decide)).2.1
      { pk := 5, net := 2, compressed := true } (by rfl) (by decide),
   (importPrivKey_outcomes exampleImportEnv
      { PrivKey := "wif5", Label := "savings", Rescan := false }).1
      { sentinel := some .ErrNotFound, text := "not found" } (by decide) (by decide)⟩

/-! ## GetTransaction -/

theorem wrapInt64_of_range (z : Int) (h₁ : -9223372036854775808 ≤ z)
    (h₂ : z < 9223372036854775808) : wrapInt64 z = z := by
  unfold wrapInt64
  omega

theorem wrapInt64_range (z : Int) :
    -9223372036854775808 ≤ wrapInt64 z ∧ wrapInt64 z < 9223372036854775808 := by
  unfold wrapInt64
  omega

theorem wrapInt64_idem (z : Int) : wrapInt64 (wrapInt64 z) = wrapInt64 z :=
  wrapInt64_of_range _ (wrapInt64_range z).1 (wrapInt64_range z).2

theorem wrapInt64_add (a b : Int) : wrapInt64 (wrapInt64 a + b) = wrapInt64 (a + b) := by
  unfold wrapInt64
  omega

theorem wrapInt64_sub (a b : Int) : wrapInt64 (wrapInt64 a - b) = wrapInt64 (a - b) := by
  unfold wrapInt64
  omega

theorem creditStep_foldl (account : String) (credits : List Credit)
    (st : Int × List GetTransactionDetailsResult) :
    wrapInt64 (credits.foldl (creditStep account) st).1 =
      wrapInt64 (st.1 +
        ((credits.filter (fun cred => !cred.Change)).map (fun cred => cred.Amount)).sum) ∧
    (wrapInt64 st.1 = st.1 →
      wrapInt64 (credits.foldl (creditStep account) st).1 =
        (credits.foldl (creditStep account) st).1) ∧
    (credits.foldl (creditStep account) st).2 =
      st.2 ++ (credits.filter (fun cred => !cred.Change)).map
        (fun cred => receiveEntry (account, cred)) := by
  induction credits generalizing st with
  | nil => simp
  | cons c cs ih =>
    rw [List.foldl_cons]
    obtain ⟨h1, h2, h3⟩ := ih (creditStep account st c)
    have e1 : (creditStep account st c).1 =
        if c.Change = true then st.1 else wrapInt64 (st.1 + c.Amount) := by
      unfold creditStep
      by_cases hc : c.Change = true
      · rw [if_pos hc, if_pos hc]
      · rw [if_neg hc, if_neg hc]
    have e2 : (creditStep account st c).2 =
        if c.Change = true then st.2 else st.2 ++ [receiveEntry (account, c)] := by
      unfold creditStep
      by_cases hc : c.Change = true
      · rw [if_pos hc, if_pos hc]
      · rw [if_neg hc, if_neg hc]
        rfl
    refine ⟨?_, ?_, ?_⟩
    · rw [h1, e1]
      by_cases hc : c.Change = true
      · simp [hc]
      · rw [if_neg hc]
        have hc' : c.Change = false := by simpa using hc
        simp only [List.filter_cons, hc', Bool.not_false, if_true, List.map_cons, List.sum_cons]
        rw [wrapInt64_add, Int.add_assoc]
    · intro hst
      apply h2
      rw [e1]
      by_cases hc : c.Change = true
      · rw [if_pos hc]
        exact hst
      · rw [if_neg hc]
        exact wrapInt64_idem _
    · rw [h3, e2]
      by_cases hc : c.Change = true
      · simp [hc]
      · have hc' : c.Change = false := by simpa using hc
        simp [hc']

theorem debitRecord_cons (e : AccountTx) (records : List AccountTx) :
    debitRecord (e :: records) =
      (debitRecord records).or (e.Tx.Debits.map (fun d => (e, d))) := by
  unfold debitRecord
  rw [List.reverse_cons, List.findSome?_append]
  cases hd : e.Tx.Debits with
  | none => simp [List.findSome?, hd]
  | some d => simp [List.findSome?, hd]

theorem recordStep_foldl (records : List AccountTx) (st : GetTransactionLoop) :
    wrapInt64 (records.foldl recordStep st).received =
      wrapInt64 (st.received + ((nonChangeCredits records).map (fun ac => ac.2.Amount)).sum) ∧
    (wrapInt64 st.received = st.received →
      wrapInt64 (records.foldl recordStep st).received =
        (records.foldl recordStep st).received) ∧
    (records.foldl recordStep st).details =
      st.details ++ (nonChangeCredits records).map receiveEntry ∧
    (records.foldl recordStep st).debit =
      ((debitRecord records).map (fun ed => (ed.1.Tx, ed.2, ed.1.Account))).or st.debit := by
  induction records generalizing st with
  | nil => simp [nonChangeCredits, debitRecord]
  | cons e es ih =>
    rw [List.foldl_cons]
    obtain ⟨h1, h2, h3, h4⟩ := ih (recordStep st e)
    obtain ⟨c1, c2, c3⟩ := creditStep_foldl e.Account e.Tx.Credits (st.received, st.details)
    have hr : (recordStep st e).received =
        (e.Tx.Credits.foldl (creditStep e.Account) (st.received, st.details)).1 := by
      unfold recordStep
      cases hdeb : e.Tx.Debits <;> simp
    have hd : (recordStep st e).details =
        (e.Tx.Credits.foldl (creditStep e.Account) (st.received, st.details)).2 := by
      unfold recordStep
      cases hdeb : e.Tx.Debits <;> simp
    have hb : (recordStep st e).debit =
        (e.Tx.Debits.map (fun d => (e.Tx, d, e.Account))).or st.debit := by
      unfold recordStep
      cases hdeb : e.Tx.Debits <;> simp
    rw [h3, h4, debitRecord_cons, hd, c3, hb]
    refine ⟨?_, ?_, ?_, ?_⟩
    · rw [h1, hr, ← wrapInt64_add, c1, wrapInt64_add]
      simp [nonChangeCredits, List.map_flatten, List.sum_append, Int.add_assoc,
        Function.comp_def]
    · intro hst
      apply h2
      rw [hr]
      exact c2 hst
    · simp [nonChangeCredits, Function.comp_def]
    · cases hes : debitRecord es <;> cases hdeb : e.Tx.Debits <;> simp

theorem finishGetTransaction_keeps (env : TransactionCollaborators) (first : AccountTx)
    (ret0 ret : GetTransactionResult)
    (h : finishGetTransaction env first ret0 = (some ret, none)) :
    ret.Amount = ret0.Amount ∧ ret.Details = ret0.Details ∧ ret.Fee = ret0.Fee := by
  unfold finishGetTransaction at h
  split at h
  · simp at h
  · split at h
    · split at h
      · simp at h
      · split at h
        · simp at h
        · simp only [Prod.mk.injEq, Option.some.injEq, and_true] at h
          rw [← h]
          exact ⟨rfl, rfl, rfl⟩
    · simp only [Prod.mk.injEq, Option.some.injEq, and_true] at h
      rw [← h]
      exact ⟨rfl, rfl, rfl⟩

theorem finishGetTransaction_returns (env : TransactionCollaborators) (first : AccountTx)
    (ret0 : GetTransactionResult)
    (hser : ∃ hextx, first.Tx.Serialize = .ok hextx)
    (hblock : first.Tx.BlockHeight = -1 ∨
      ((∃ b, first.Tx.Block = .ok b) ∧ ∃ height, env.GetCurBlock = .ok height)) :
    ∃ ret, finishGetTransaction env first ret0 = (some ret, none) := by
  obtain ⟨hextx, hser⟩ := hser
  unfold finishGetTransaction
  rw [hser]
  by_cases hh : first.Tx.BlockHeight = -1
  · simp only [hh, ne_eq, not_true_eq_false, if_false]
    exact ⟨_, rfl⟩
  · rcases hblock with h | ⟨⟨b, hb⟩, ⟨height, hc⟩⟩
    · exact absurd h hh
    · simp only [ne_eq, hh, not_false_eq_true, if_true, hb, hc]
      exact ⟨_, rfl⟩
/-- C22, at the failing input: the wallet knows the transaction as one record
that has debits and no credit (a send no output of which pays to the wallet).
`GetTransaction` neither returns a result nor an error: the index of the first
credit of the debit record is out of range, a runtime failure. The same
request for a transaction whose debit record has a credit returns a result. -/
theorem getTransaction_debits_without_credits_fails :
    exampleTransactions.NewShaHashFromStr "cd" = some 205 ∧
    (exampleTransactions.GetTransaction 205).length = 1 ∧
    (exampleTransactions.GetTransaction 205).map (fun e => e.Tx.Credits) = [[]] ∧
    (exampleTransactions.GetTransaction 205).map (fun e => e.Tx.Debits.isSome) = [true] ∧
    GetTransaction exampleTransactions "cd" = none ∧
    (GetTransaction exampleTransactions "ab").isSome = true :=
  ⟨by decide, by decide, by decide, by decide, rfl, rfl⟩

/-- C29, as stated, fails: the wallet knows the transaction as one record
with two credits of 2^62 satoshi, each within the range of an `int64`, and no
debits. The sum of the amounts is 2^63; the handler adds them in `int64`
arithmetic, and the amount of the result it returns is −2^63. -/
theorem getTransaction_amount_wraps :
    (nonChangeCredits [exampleLargeRecord]).map (fun ac => ac.2.Amount) =
      [4611686018427387904, 4611686018427387904] ∧
    ((nonChangeCredits [exampleLargeRecord]).map (fun ac => ac.2.Amount)).sum =
      9223372036854775808 ∧
    debitRecord [exampleLargeRecord] = none ∧
    (GetTransaction exampleLargeAmounts "ef").map (fun out => out.1.map (fun ret => ret.Amount)) =
      some (some (-9223372036854775808)) ∧
    (GetTransaction exampleLargeAmounts "ef").map (fun out => out.2) = some none :=
  ⟨by decide, by decide, rfl, by decide, by decide⟩

/-- C29, amended: the totals of `GetTransaction` exclude change. For every
non-empty list of records of the transaction, every result the handler
returns reports, in satoshi before the conversion of the unit, the sum of the
amounts of the credits not marked change over all records, minus the input
amount of the debit record when a record has debits (the last such record),
computed in `int64` arithmetic: exactly that integer whenever it lies between
−2^63 and 2^63 − 1, and that integer reduced modulo 2^64 into this range
otherwise. Its details are the send entry of the debit record first, when
there is one, followed by one receive entry per credit not marked change, in
record and credit order, and no entry for a change credit. A result is
returned whenever the debit record, if any, has a credit (otherwise the
handler fails at run time) and the serialization and the look-up of the block
succeed. -/
theorem getTransaction_totals (env : TransactionCollaborators) (txid : String)
    (txsha : ShaHash) (first : AccountTx) (rest : List AccountTx)
    (hsha : env.NewShaHashFromStr txid = some txsha)
    (hrecs : env.GetTransaction txsha = first :: rest) :
    (GetTransaction env txid = none ↔
      ∃ ed, debitRecord (first :: rest) = some ed ∧ ed.1.Tx.Credits = []) ∧
    (∀ ret, GetTransaction env txid = some (some ret, none) →
      ret.Amount =
        wrapInt64 (((nonChangeCredits (first :: rest)).map (fun ac => ac.2.Amount)).sum -
          ((debitRecord (first :: rest)).map (fun ed => ed.2.InputAmount)).getD 0) ∧
      (-9223372036854775808 ≤
          ((nonChangeCredits (first :: rest)).map (fun ac => ac.2.Amount)).sum -
            ((debitRecord (first :: rest)).map (fun ed => ed.2.InputAmount)).getD 0 →
        ((nonChangeCredits (first :: rest)).map (fun ac => ac.2.Amount)).sum -
            ((debitRecord (first :: rest)).map (fun ed => ed.2.InputAmount)).getD 0 <
          9223372036854775808 →
        ret.Amount =
          ((nonChangeCredits (first :: rest)).map (fun ac => ac.2.Amount)).sum -
            ((debitRecord (first :: rest)).map (fun ed => ed.2.InputAmount)).getD 0) ∧
      ret.Details =
        ((debitRecord (first :: rest)).map sendEntry).toList ++
          (nonChangeCredits (first :: rest)).map receiveEntry) ∧
    (GetTransaction env txid ≠ none →
      (∃ hextx, first.Tx.Serialize = .ok hextx) →
      (first.Tx.BlockHeight = -1 ∨
        ((∃ b, first.Tx.Block = .ok b) ∧ ∃ height, env.GetCurBlock = .ok height)) →
      ∃ ret, GetTransaction env txid = some (some ret, none)) := by
  obtain ⟨h1, h2, h3, h4⟩ := recordStep_foldl (first :: rest)
    { received := 0, details := [], debit := none }
  simp only [Int.zero_add, List.nil_append, Option.or_none] at h1 h3 h4
  have hrange : wrapInt64 (List.foldl recordStep { received := 0, details := [], debit := none }
      (first :: rest)).received =
      (List.foldl recordStep { received := 0, details := [], debit := none }
        (first :: rest)).received := h2 (by decide)
  have hexact : ∀ (amount z : Int), amount = wrapInt64 z →
      -9223372036854775808 ≤ z → z < 9223372036854775808 → amount = z := by
    intro amount z he hl hu
    rw [he]
    exact wrapInt64_of_range z hl hu
  cases hdr : debitRecord (first :: rest) with
  | none =>
    rw [hdr] at h4
    simp only [Option.map_none'] at h4
    have hg : ∃ ret0, GetTransaction env txid = some (finishGetTransaction env first ret0) ∧
        ret0.Amount = (List.foldl recordStep { received := 0, details := [], debit := none }
          (first :: rest)).received ∧
        ret0.Details = (List.foldl recordStep { received := 0, details := [], debit := none }
          (first :: rest)).details := by
      simp only [GetTransaction, hsha, hrecs, h4]
      exact ⟨_, rfl, rfl, rfl⟩
    obtain ⟨ret0, hg, hga, hgd⟩ := hg
    refine ⟨?_, ?_, ?_⟩
    · rw [hg]; simp
    · intro ret hret
      rw [hg] at hret
      injection hret with hret
      obtain ⟨ha, hd, -⟩ := finishGetTransaction_keeps env first _ ret hret
      have hamount : ret.Amount =
          wrapInt64 (((nonChangeCredits (first :: rest)).map (fun ac => ac.2.Amount)).sum -
            ((none : Option (AccountTx × Debits)).map (fun ed => ed.2.InputAmount)).getD 0) := by
        rw [ha, hga, ← hrange, h1]
        simp
      refine ⟨hamount, hexact _ _ hamount, ?_⟩
      rw [hd, hgd, h3]
      simp
    · intro _ hser hblock
      rw [hg]
      obtain ⟨ret, hret⟩ := finishGetTransaction_returns env first _ hser hblock
      exact ⟨ret, by rw [hret]⟩
  | some ed =>
    rw [hdr] at h4
    simp only [Option.map_some'] at h4
    cases hc : ed.1.Tx.Credits with
    | nil =>
      have hg : GetTransaction env txid = none := by
        simp only [GetTransaction, hsha, hrecs, h4, hc]
      refine ⟨?_, ?_, ?_⟩
      · rw [hg]; simp [hc]
      · intro ret hret
        rw [hg] at hret
        cases hret
      · intro hne
        exact absurd hg hne
    | cons cred creds =>
      have hg : ∃ ret0, GetTransaction env txid = some (finishGetTransaction env first ret0) ∧
          ret0.Amount = wrapInt64
            ((List.foldl recordStep { received := 0, details := [], debit := none }
              (first :: rest)).received - ed.2.InputAmount) ∧
          ret0.Details = sendEntry ed ::
            (List.foldl recordStep { received := 0, details := [], debit := none }
              (first :: rest)).details := by
        simp only [GetTransaction, hsha, hrecs, h4, hc, sendEntry, List.head?_cons]
        exact ⟨_, rfl, rfl, rfl⟩
      obtain ⟨ret0, hg, hga, hgd⟩ := hg
      refine ⟨?_, ?_, ?_⟩
      · rw [hg]; simp [hc]
      · intro ret hret
        rw [hg] at hret
        injection hret with hret
        obtain ⟨ha, hd, -⟩ := finishGetTransaction_keeps env first _ ret hret
        have hamount : ret.Amount =
            wrapInt64 (((nonChangeCredits (first :: rest)).map (fun ac => ac.2.Amount)).sum -
              ((some ed : Option (AccountTx × Debits)).map
                (fun ed => ed.2.InputAmount)).getD 0) := by
          rw [ha, hga, ← wrapInt64_sub, h1, wrapInt64_sub]
          simp
        refine ⟨hamount, hexact _ _ hamount, ?_⟩
        rw [hd, hgd, h3]
        simp
      · intro _ hser hblock
        rw [hg]
        obtain ⟨ret, hret⟩ := finishGetTransaction_returns env first _ hser hblock
        exact ⟨ret, by rw [hret]⟩

/-- Witness for C29: the example transaction, a send of 70 from inputs of 100
with a change credit of 20, a credit of 30 and a credit of 40 in a second
account, is reported with the amount −30 and three details entries. -/
theorem getTransaction_totals_witness :
    GetTransaction exampleTransactions "ab" = some (some exampleTransactionResult, none) ∧
    exampleTransactionResult.Amount =
      ((nonChangeCredits [exampleSendRecord, exampleReceiveRecord]).map
        (fun ac => ac.2.Amount)).sum -
        ((debitRecord [exampleSendRecord, exampleReceiveRecord]).map
          (fun ed => ed.2.InputAmount)).getD 0 ∧
    ((nonChangeCredits [exampleSendRecord, exampleReceiveRecord]).map
      (fun ac => ac.2.Amount)).sum = 70 ∧
    ((debitRecord [exampleSendRecord, exampleReceiveRecord]).map
      (fun ed => ed.2.InputAmount)).getD 0 = 100 :=
  ⟨rfl,
   ((getTransaction_totals exampleTransactions "ab" 171 exampleSendRecord [exampleReceiveRecord]
      rfl rfl).2.1 exampleTransactionResult rfl).2.1 (by decide) (by decide),
   by decide, by decide⟩

/-! ## The wallet lock -/

/-- C21, at the failing input: `walletpassphrase` with a timeout of 2 seconds
succeeds at time 0 and again at time 1, with no `walletlock` request. At time
1 the wallet is unlocked and two goroutines sleep, until times 2 and 3; at
time 2, which lies in the 2 seconds after the second call, the goroutine of
the first call has locked the wallet: `walletislocked` returns true. -/
theorem walletPassphrase_earlier_timer_relocks :
    lockRun LockState.init [.walletpassphrase none 2, .second, .walletpassphrase none 2] =
      { now := 1, locked := false, relocks := [3, 2] } ∧
    lockRun LockState.init
        [.walletpassphrase none 2, .second, .walletpassphrase none 2, .second] =
      { now := 2, locked := true, relocks := [3] } ∧
    WalletIsLocked (lockRun LockState.init
      [.walletpassphrase none 2, .second, .walletpassphrase none 2]) = false ∧
    WalletIsLocked (lockRun LockState.init
      [.walletpassphrase none 2, .second, .walletpassphrase none 2, .second]) = true ∧
    WalletIsLocked (lockRun LockState.init [.walletpassphrase none 2, .second]) = false ∧
    WalletIsLocked (lockRun LockState.init [.walletpassphrase none 2, .second, .second]) = true :=
  ⟨by decide, by decide, by decide, by decide, by decide, by decide⟩

end Btcwallet
